import Mathlib

/-!
# cxgbe control-plane core (`drivers/net/cxgbe/cxgbe_main.c`)

A shallow embedding of the active-open TID allocator (`tid_init`,
`cxgbe_alloc_atid`, `cxgbe_free_atid`) and of the interrupt hold-off selection
(`closest_timer`, `closest_thres`, `cxgb4_set_rspq_intr_params`), followed by the
properties proved about them.

Conventions of the embedding:
* a C pointer into an array is the index of the element, `none` is `NULL`;
* `unsigned int` arithmetic is arithmetic modulo `2 ^ 32 = 4294967296`, a
  conversion to `int` is the two's complement reading of the low 32 bits;
* the spin locks are not modelled: every function body runs under its lock from
  the first to the last access, so a call is one atomic state transformer.
-/

namespace Cxgbe

/-! ## Machine integers -/

/-- Largest value of a C `int`. -/
def INT_MAX : Int := 2147483647

/-- Conversion of an integer value to C `int`: the two's complement reading of
its low 32 bits. -/
def to_int (x : Int) : Int := (x + 2147483648) % 4294967296 - 2147483648

/-- Conversion of an integer value to C `unsigned int`. -/
def to_uint (x : Int) : Nat := (x % 4294967296).toNat

/-- Error number `ENOMEM`. -/
def ENOMEM : Int := 12

/-! ## The TID table -/

/-- The `union aopen_entry`: one pointer-sized slot of `atid_tab`, holding either
the caller's `void *data` (while the id is allocated) or the link `next` to the
following free entry (`none` is `NULL`, `some i` is `&atid_tab[i]`). -/
inductive aopen_entry where
  | data (d : Nat)
  | next (p : Option Nat)
  deriving DecidableEq

/-- Read of the member `next`. Storage handed out by `t4_os_alloc` is zero
filled, which reads as `next = NULL`. An entry last stored through `data` is
linked in the free list only after a release the caller was not entitled to;
the reinterpreted word is then taken to be `NULL`. -/
def aopen_entry.get_next : aopen_entry → Option Nat
  | .next p => p
  | .data _ => none

/-- The `struct tid_info`. The three tables live in one storage block obtained
by `tid_init`; `none` is a `NULL` table pointer. Filter entries are not
inspected by the functions embedded here, so `ftid_tab` records only the number
of entries behind the pointer. The bitmap pointers record whether they are set. -/
structure tid_info where
  tid_tab : Option (List (Option Nat))
  ntids : Nat
  ftid_tab : Option Nat
  atid_tab : Option (List aopen_entry)
  ftid_bmap : Bool
  ftid_bmap_array : Bool
  nftids : Nat
  natids : Nat
  hash_base : Nat
  afree : Option Nat
  atids_in_use : Nat
  tids_in_use : Int
  hash_tids_in_use : Int
  conns_in_use : Int
  ftid_base : Nat := 0
  deriving DecidableEq

/-- The structure after `memset(t, 0, sizeof(struct tid_info))`. -/
def tid_info.zero : tid_info :=
  { tid_tab := none, ntids := 0, ftid_tab := none, atid_tab := none,
    ftid_bmap := false, ftid_bmap_array := false, nftids := 0, natids := 0,
    hash_base := 0, afree := none, atids_in_use := 0, tids_in_use := 0,
    hash_tids_in_use := 0, conns_in_use := 0 }

/-- Entry `i` of `atid_tab` (a zero word when the access leaves the table). -/
def tid_info.atid_entry (t : tid_info) (i : Nat) : aopen_entry :=
  ((t.atid_tab.getD [])[i]?).getD (.next none)

/-- `cxgbe_alloc_atid`: pop the head of the free list, store `data` in the
popped entry, count it; `-1` when the free list is empty. The result is the C
`int` made from the pointer difference `p - t->atid_tab`. -/
def cxgbe_alloc_atid (t : tid_info) (data : Nat) : Int × tid_info :=
  match t.afree with
  | none => (-1, t)
  | some p =>
    (to_int p,
     { t with
       afree := (t.atid_entry p).get_next
       atid_tab := t.atid_tab.map (fun tab => tab.set p (.data data))
       atids_in_use := (t.atids_in_use + 1) % 4294967296 })

/-- `cxgbe_free_atid`: link entry `atid` in front of the free list and
decrement the `unsigned int` counter. -/
def cxgbe_free_atid (t : tid_info) (atid : Nat) : tid_info :=
  { t with
    atid_tab := t.atid_tab.map (fun tab => tab.set atid (.next t.afree))
    afree := some atid
    atids_in_use := (t.atids_in_use + 4294967296 - 1) % 4294967296 }

/-- `tid_free`: release the storage and clear the whole structure. -/
def tid_free (_t : tid_info) : tid_info := tid_info.zero

/-- The loop `while (--natids) t->atid_tab[natids - 1].next = &t->atid_tab[natids];`
of `tid_init`. The first argument is `natids` before the decrement; the loop is
entered only under `if (natids)`. -/
def tid_init_thread : Nat → List aopen_entry → List aopen_entry
  | 0, tab => tab
  | natids + 1, tab =>
    if natids = 0 then tab
    else tid_init_thread natids (tab.set (natids - 1) (.next (some natids)))

/-- `tid_init`. The outcomes of the three collaborators are arguments:
`tab_ok` and `array_ok` say whether the two `t4_os_alloc` calls return storage
(zero filled), `bmap_ok` whether `rte_bitmap_init` returns a bitmap. Returns
`0` on success and `-ENOMEM` otherwise. -/
def tid_init (t : tid_info) (tab_ok array_ok bmap_ok : Bool) : Int × tid_info :=
  if !tab_ok then (-ENOMEM, { t with tid_tab := none })
  else
    let t1 : tid_info :=
      { t with
        tid_tab := some (List.replicate t.ntids none)
        atid_tab := some (List.replicate t.natids (.next none))
        ftid_tab := some t.nftids
        ftid_bmap_array := array_ok }
    if !array_ok then (-ENOMEM, tid_free t1)
    else
      let t2 : tid_info :=
        { t1 with afree := none, atids_in_use := 0, tids_in_use := 0, conns_in_use := 0 }
      let t3 : tid_info :=
        if t2.natids ≠ 0 then
          { t2 with
            atid_tab := t2.atid_tab.map (tid_init_thread t2.natids)
            afree := some 0 }
        else t2
      let t4 : tid_info := { t3 with ftid_bmap := bmap_ok }
      if !bmap_ok then (-ENOMEM, tid_free t4)
      else (0, t4)

/-- Sizing of the table as the driver provides it: the counts are
`unsigned int` fields and `adap_init0` sets `natids = min(ntids / 2, MAX_ATIDS)`,
so `natids ≤ ntids / 2`. -/
def tid_info.sized (t : tid_info) : Prop :=
  t.ntids < 4294967296 ∧ t.natids ≤ t.ntids / 2

instance (t : tid_info) : Decidable t.sized := by
  unfold tid_info.sized; infer_instance

/-! ## Call sequences on the active-open allocator -/

/-- One call made by a client of the allocator. -/
inductive atid_op where
  | alloc (data : Nat)
  | free (atid : Int)
  deriving DecidableEq

/-- The table together with the ids handed out and not yet released (most
recent first), as the clients hold them. -/
structure atid_state where
  t : tid_info
  held : List Int
  deriving DecidableEq

/-- One call: an allocation records the returned id unless it is `-1`; a release
passes the id as the `unsigned int` argument of `cxgbe_free_atid`. -/
def atid_step (s : atid_state) : atid_op → atid_state
  | .alloc d =>
    let r := cxgbe_alloc_atid s.t d
    { t := r.2, held := if r.1 = -1 then s.held else r.1 :: s.held }
  | .free a => { t := cxgbe_free_atid s.t (to_uint a), held := s.held.erase a }

/-- Run a sequence of calls. -/
def atid_run (s : atid_state) (ops : List atid_op) : atid_state :=
  ops.foldl atid_step s

/-- The sequence never releases an id that is not currently allocated. -/
def atid_valid (s : atid_state) : List atid_op → Prop
  | [] => True
  | .alloc d :: ops => atid_valid (atid_step s (.alloc d)) ops
  | .free a :: ops => a ∈ s.held ∧ atid_valid (atid_step s (.free a)) ops

instance atid_valid_decidable : (s : atid_state) → (ops : List atid_op) → Decidable (atid_valid s ops)
  | _, [] => isTrue trivial
  | s, .alloc d :: ops => atid_valid_decidable (atid_step s (.alloc d)) ops
  | s, .free a :: ops =>
    match (inferInstance : Decidable (a ∈ s.held)), atid_valid_decidable (atid_step s (.free a)) ops with
    | isTrue h1, isTrue h2 => isTrue ⟨h1, h2⟩
    | isFalse h1, _ => isFalse (fun h => h1 h.1)
    | _, isFalse h2 => isFalse (fun h => h2 h.2)

/-- Consecutive allocations, one for each data word of `ds`: the returned values
in call order, and the final table. -/
def alloc_many (t : tid_info) : List Nat → List Int × tid_info
  | [] => ([], t)
  | d :: ds =>
    let r := cxgbe_alloc_atid t d
    let rest := alloc_many r.2 ds
    (r.1 :: rest.1, rest.2)

/-! ## Interrupt hold-off parameters of a response queue -/

/-- Modelled from the spec: the number of hold-off timers `SGE_NTIMERS`, the
length of `timer_val` in `struct sge`; the declaration is in a header outside
the sources at hand. -/
def SGE_NTIMERS : Nat := 6

/-- Modelled from the spec: the number of packet-count thresholds
`SGE_NCOUNTERS`, the length of `counter_val` in `struct sge`; the declaration is
in a header outside the sources at hand. -/
def SGE_NCOUNTERS : Nat := 4

/-- Modelled from the spec: the sentinel timer index `X_TIMERREG_RESTART_COUNTER`
(restart the hold-off timer without a new value); the macro is in a header
outside the sources at hand. -/
def X_TIMERREG_RESTART_COUNTER : Nat := 6

/-- Modelled from the spec: the sentinel timer index `X_TIMERREG_UPDATE_CIDX`
(interrupt on every completion); the macro is in a header outside the sources at
hand. -/
def X_TIMERREG_UPDATE_CIDX : Nat := 7

/-- Modelled from the spec: the macro `V_QINTR_CNT_EN`, which places the
counter-enable flag in bit 0 of `intr_params`; from a header outside the sources
at hand. -/
def V_QINTR_CNT_EN (x : Nat) : Nat := (x <<< 0) % 4294967296

/-- Modelled from the spec: the flag `F_QINTR_CNT_EN = V_QINTR_CNT_EN(1U)`. -/
def F_QINTR_CNT_EN : Nat := V_QINTR_CNT_EN 1

/-- Modelled from the spec: the macro `V_QINTR_TIMER_IDX`, which places the timer
index in the three bits above the counter-enable flag; from a header outside the
sources at hand. -/
def V_QINTR_TIMER_IDX (x : Nat) : Nat := (x <<< 1) % 4294967296

/-- Modelled from the spec: the macro `G_QINTR_TIMER_IDX`, which reads the timer
index back from `intr_params`. -/
def G_QINTR_TIMER_IDX (x : Nat) : Nat := (x >>> 1) &&& 7

/-- Modelled from the spec: the firmware parameter word
`V_FW_PARAMS_MNEM(FW_PARAMS_MNEM_DMAQ) | V_FW_PARAMS_PARAM_X(FW_PARAMS_PARAM_DMAQ_IQ_INTCNTTHRESH) | V_FW_PARAMS_PARAM_YZ(cntxt_id)`
that names the interrupt packet-count threshold of ingress queue `cntxt_id`; the
macros are in a header outside the sources at hand. -/
def fw_param_dmaq_iq_intcntthresh (cntxt_id : Nat) : Nat :=
  ((4 <<< 24) ||| (1 <<< 16) ||| (cntxt_id <<< 0)) % 4294967296

/-- The part of `struct sge_rspq` used here. `desc` says whether the descriptor
ring exists (`q->desc != NULL`); `intr_params` and `pktcnt_idx` are `u8`. -/
structure sge_rspq where
  desc : Bool
  cntxt_id : Nat
  pktcnt_idx : Nat
  intr_params : Nat
  iqe_len : Nat
  size : Nat
  deriving DecidableEq

/-- A response queue of a zeroed structure. -/
def sge_rspq.zero : sge_rspq :=
  { desc := false, cntxt_id := 0, pktcnt_idx := 0, intr_params := 0, iqe_len := 0, size := 0 }

/-- The part of `struct sge_fl` used here: the size of the free list. -/
structure sge_fl where
  size : Nat
  deriving DecidableEq

/-- The part of `struct sge_eth_rxq` used here. -/
structure sge_eth_rxq where
  rspq : sge_rspq
  fl : sge_fl
  usembufs : Nat
  deriving DecidableEq

/-- The part of `struct sge_eth_txq` used here: the size `q.size` of its ring. -/
structure sge_eth_txq where
  q_size : Nat
  deriving DecidableEq

/-- The part of `struct sge` used here: the hold-off timer values `timer_val`
and the packet-count thresholds `counter_val` the hardware supports
(`ARRAY_SIZE` of a table is the length of the list), the number of queue sets
`max_ethqsets` (a `u16`), the arrays of Ethernet queues and the firmware event
queue. -/
structure sge where
  timer_val : List Nat
  counter_val : List Nat
  max_ethqsets : Nat := 0
  ethrxq : List sge_eth_rxq := []
  ethtxq : List sge_eth_txq := []
  fw_evtq : sge_rspq := sge_rspq.zero
  deriving DecidableEq

/-- The part of `struct link_config` used here: the port capabilities `pcaps`. -/
structure link_config where
  pcaps : Nat
  deriving DecidableEq

/-- The part of `struct port_info` used here. `rss_size` is a `u16`; `first_qset`,
`n_rx_qsets` and `n_tx_qsets` are `u8`. -/
structure port_info where
  link_cfg : link_config
  flags : Nat
  rss_size : Nat
  first_qset : Nat
  n_rx_qsets : Nat
  n_tx_qsets : Nat
  deriving DecidableEq

/-- The physical-function resources `struct pf_resources` read here. -/
structure pf_resources where
  niqflint : Nat := 0
  neq : Nat := 0
  deriving DecidableEq

/-- The virtual-function resources `struct vf_resources` read here. -/
structure vf_resources where
  niqflint : Nat := 0
  nethctrl : Nat := 0
  neq : Nat := 0
  deriving DecidableEq

/-- The part of `struct adapter_params` used here. `chip` is the chip version
(`4` for T4, `5` for T5, `6` for T6); `nports` is a `u8`. -/
structure adapter_params where
  nports : Nat := 0
  portvec : Nat := 0
  chip : Nat := 5
  pfres : pf_resources := {}
  vfres : vf_resources := {}
  filter2_wr_support : Bool := false
  ulptx_memwrite_dsgl : Bool := false
  mtus : List Nat := []
  drv_memwin : Nat := 0
  deriving DecidableEq

/-- The part of `struct adapter` used here. -/
structure adapter where
  sge : sge
  mbox : Nat
  pf : Nat
  flags : Nat := 0
  params : adapter_params := {}
  port : List port_info := []
  l2t_start : Nat := 0
  l2t_end : Nat := 0
  clipt_start : Nat := 0
  clipt_end : Nat := 0
  tids : tid_info := tid_info.zero
  deriving DecidableEq

/-- One iteration of the scan in `closest_timer` / `closest_thres`; the state is
`(match, min_delta)`. The subtraction and the negation are `int` arithmetic,
read modulo `2 ^ 32` where they leave the range of `int`. -/
def closest_step (target : Int) (st : Nat × Int) (i : Nat) (val : Nat) : Nat × Int :=
  let delta := to_int (target - val)
  let delta := if delta < 0 then to_int (-delta) else delta
  if delta < st.2 then (i, delta) else st

/-- The loop `for (i = 0; i < ARRAY_SIZE(tab); i++)` of `closest_timer` /
`closest_thres`, from index `i` on, over the remaining entries. -/
def closest_scan (target : Int) : List Nat → Nat → Nat × Int → Nat × Int
  | [], _, st => st
  | val :: rest, i, st => closest_scan target rest (i + 1) (closest_step target st i val)

/-- `closest_timer`: index of the timer value closest to `time`. -/
def closest_timer (s : sge) (time : Int) : Int :=
  to_int (closest_scan time s.timer_val 0 (0, INT_MAX)).1

/-- `closest_thres`: index of the packet-count threshold closest to `thres`. -/
def closest_thres (s : sge) (thres : Int) : Int :=
  to_int (closest_scan thres s.counter_val 0 (0, INT_MAX)).1

/-- The arguments of a `t4_set_params` call that sets one parameter. -/
structure fw_set_params where
  mbox : Nat
  pf : Nat
  vf : Nat
  nparams : Nat
  param : Nat
  val : Nat
  deriving DecidableEq

/-- What `cxgb4_set_rspq_intr_params` does to the outside, in program order: a
firmware command, or a store into a field of the queue. -/
inductive rspq_event where
  | set_params (cmd : fw_set_params)
  | store_pktcnt_idx (val : Nat)
  | store_intr_params (val : Nat)
  deriving DecidableEq

/-- The command `t4_set_params(adap, adap->mbox, adap->pf, 0, 1, &v, &new_idx)`
built in `cxgb4_set_rspq_intr_params`. -/
def rspq_threshold_cmd (adap : adapter) (q : sge_rspq) (new_idx : Nat) : fw_set_params :=
  { mbox := adap.mbox, pf := adap.pf, vf := 0, nparams := 1,
    param := fw_param_dmaq_iq_intcntthresh q.cntxt_id, val := new_idx }

/-- The value stored in the `u8` field `intr_params` at the end of
`cxgb4_set_rspq_intr_params`: with `timer_val` the restart sentinel for `us == 0`
and `closest_timer` otherwise, it is the every-completion sentinel when
`(us | cnt) == 0` and `V_QINTR_TIMER_IDX(timer_val) | V_QINTR_CNT_EN(cnt > 0)`
otherwise. -/
def rspq_intr_params_word (adap : adapter) (us cnt : Nat) : Nat :=
  let timer_val : Nat :=
    if us = 0 then X_TIMERREG_RESTART_COUNTER
    else to_uint (closest_timer adap.sge (to_int us))
  (if (us ||| cnt) = 0 then V_QINTR_TIMER_IDX X_TIMERREG_UPDATE_CIDX
   else V_QINTR_TIMER_IDX timer_val ||| V_QINTR_CNT_EN (if cnt > 0 then 1 else 0)) % 256

/-- `cxgb4_set_rspq_intr_params`. The mailbox collaborator `t4_set_params` is an
argument: it maps a command to its return code (`0` on success). The result is
the return value, the queue afterwards, and the events in program order. `us`
and `cnt` are `unsigned int`; the stores into `pktcnt_idx` and `intr_params`
narrow to `u8`. -/
def cxgb4_set_rspq_intr_params (adap : adapter) (t4_set_params : fw_set_params → Int)
    (q : sge_rspq) (us cnt : Nat) : Int × sge_rspq × List rspq_event :=
  let w := rspq_intr_params_word adap us cnt
  if cnt ≠ 0 then
    let new_idx : Nat := to_uint (closest_thres adap.sge (to_int cnt))
    if q.desc = true ∧ q.pktcnt_idx ≠ new_idx then
      let err := t4_set_params (rspq_threshold_cmd adap q new_idx)
      if err ≠ 0 then (err, q, [.set_params (rspq_threshold_cmd adap q new_idx)])
      else
        (0, { q with pktcnt_idx := new_idx % 256, intr_params := w },
         [.set_params (rspq_threshold_cmd adap q new_idx),
          .store_pktcnt_idx (new_idx % 256), .store_intr_params w])
    else
      (0, { q with pktcnt_idx := new_idx % 256, intr_params := w },
       [.store_pktcnt_idx (new_idx % 256), .store_intr_params w])
  else (0, { q with intr_params := w }, [.store_intr_params w])

/-- A hold-off table as the C code can index and read it: the number of entries
and every entry are representable as `int` (in the driver the tables are 6
entries of `u16` and 4 entries of `u8`). -/
def table_ok (tab : List Nat) : Prop :=
  (tab.length : Int) ≤ INT_MAX ∧ ∀ x ∈ tab, (x : Int) ≤ INT_MAX

/-- Distance of entry `j` of the table from the requested value. -/
def table_dist (tab : List Nat) (v : Int) (j : Nat) : Int :=
  |((tab.getD j 0 : Nat) : Int) - v|

/-- Index `i` is the closest match for `v`: it is an index of the table, no entry
is strictly closer to `v` than entry `i`, and no lower index is as close. -/
def closest_ok (tab : List Nat) (v : Int) (i : Nat) : Prop :=
  i < tab.length ∧
  (∀ j, j < tab.length → table_dist tab v i ≤ table_dist tab v j) ∧
  (∀ j, j < i → table_dist tab v i < table_dist tab v j)

instance (tab : List Nat) : Decidable (table_ok tab) := by
  unfold table_ok; infer_instance

/-- The tables of the examples: the timer table of the specification and a
packet-count table. -/
def sge_example : sge :=
  { timer_val := [1, 5, 10, 50, 100], counter_val := [1, 8, 16, 32] }

/-- An adapter around `sge_example`. -/
def adapter_example : adapter := { sge := sge_example, mbox := 4, pf := 4 }

/-- A response queue that already exists, with threshold index `0`. -/
def rspq_example : sge_rspq :=
  { desc := true, cntxt_id := 3, pktcnt_idx := 0, intr_params := 0, iqe_len := 64, size := 1024 }

/-! ## Connection TIDs: `cxgbe_insert_tid` and `cxgbe_remove_tid` -/

/-- Modelled from the spec: the filter family `FILTER_TYPE_IPV4`, the only family
with counters of its own; the macro is in a header outside the sources at hand. -/
def FILTER_TYPE_IPV4 : Nat := 0

/-- Modelled from the spec: `rte_atomic32_inc`, the lock-free atomic increment of
a counter by one. The helper is in the EAL headers, outside the sources at hand;
the 32-bit width of the counter is not modelled. -/
def rte_atomic32_inc (v : Int) : Int := v + 1

/-- Modelled from the spec: `rte_atomic32_dec`, the lock-free atomic decrement
of a counter by one. The helper is in the EAL headers, outside the sources at
hand; the 32-bit width of the counter is not modelled. -/
def rte_atomic32_dec (v : Int) : Int := v - 1

/-- Slot `tid` of `tid_tab`: `none` is an empty slot (`NULL`), also read when the
access leaves the table. -/
def tid_info.tid_slot (t : tid_info) (tid : Nat) : Option Nat :=
  ((t.tid_tab.getD [])[tid]?).getD none

/-- The table with slot `tid` of `tid_tab` set to `v`. -/
def tid_info.set_tid_slot (t : tid_info) (tid : Nat) (v : Option Nat) : tid_info :=
  { t with tid_tab := t.tid_tab.map (fun tab => tab.set tid v) }

/-- The slot `tid` lies in the hash region: `t->hash_base && tid >= t->hash_base`. -/
def tid_info.in_hash (t : tid_info) (tid : Nat) : Bool :=
  decide (t.hash_base ≠ 0) && decide (tid ≥ t.hash_base)

/-- `cxgbe_insert_tid`: store `data` in slot `tid`, count an IPv4 entry in the
counter of its region, count the connection. -/
def cxgbe_insert_tid (t : tid_info) (data : Option Nat) (tid : Nat) (family : Nat) : tid_info :=
  let t1 := t.set_tid_slot tid data
  let t2 : tid_info :=
    if t1.in_hash tid then
      if family = FILTER_TYPE_IPV4 then
        { t1 with hash_tids_in_use := rte_atomic32_inc t1.hash_tids_in_use }
      else t1
    else
      if family = FILTER_TYPE_IPV4 then
        { t1 with tids_in_use := rte_atomic32_inc t1.tids_in_use }
      else t1
  { t2 with conns_in_use := rte_atomic32_inc t2.conns_in_use }

/-- A control message handed to `t4_mgmt_tx`: the `CPL_TID_RELEASE` request built
by `mk_tid_release`, which names the TID to release. -/
inductive cpl_msg where
  | tid_release (tid : Nat)
  deriving DecidableEq

/-- A transmission `t4_mgmt_tx(&adap->sge.ctrlq[chan], mbuf)`. -/
structure mgmt_tx where
  chan : Nat
  msg : cpl_msg
  deriving DecidableEq

/-- `mk_tid_release`: fill the message buffer with a `CPL_TID_RELEASE` for `tid`. -/
def mk_tid_release (tid : Nat) : cpl_msg := .tid_release tid

/-- `cxgbe_remove_tid`. `mbuf_ok` says whether `rte_pktmbuf_alloc` returns a
buffer. The result is the table afterwards and the messages transmitted. -/
def cxgbe_remove_tid (t : tid_info) (chan tid family : Nat) (mbuf_ok : Bool) :
    tid_info × List mgmt_tx :=
  let t3 : tid_info :=
    if (t.tid_slot tid).isSome then
      let t1 := t.set_tid_slot tid none
      let t2 : tid_info := { t1 with conns_in_use := rte_atomic32_dec t1.conns_in_use }
      if t2.in_hash tid then
        if family = FILTER_TYPE_IPV4 then
          { t2 with hash_tids_in_use := rte_atomic32_dec t2.hash_tids_in_use }
        else t2
      else
        if family = FILTER_TYPE_IPV4 then
          { t2 with tids_in_use := rte_atomic32_dec t2.tids_in_use }
        else t2
    else t
  (t3, if mbuf_ok then [{ chan := chan, msg := mk_tid_release tid }] else [])

/-- A call on the connection TID table. -/
inductive tid_op where
  | insert (data : Option Nat) (tid : Nat) (family : Nat)
  | remove (chan tid family : Nat) (mbuf_ok : Bool)
  deriving DecidableEq

/-- One call on the table. -/
def tid_step (t : tid_info) : tid_op → tid_info
  | .insert data tid family => cxgbe_insert_tid t data tid family
  | .remove chan tid family mbuf_ok => (cxgbe_remove_tid t chan tid family mbuf_ok).1

/-- Run a sequence of calls on the table. -/
def tid_run (t : tid_info) (ops : List tid_op) : tid_info :=
  ops.foldl tid_step t

/-- The family passed to the latest `cxgbe_insert_tid` of each slot, as the
callers know it (`none` before the first insert and after a removal). -/
def tid_family_step (fam : Nat → Option Nat) : tid_op → Nat → Option Nat
  | .insert _ tid family => fun i => if i = tid then some family else fam i
  | .remove _ tid _ _ => fun i => if i = tid then none else fam i

/-- Every `cxgbe_remove_tid` of the sequence passes the family that the latest
`cxgbe_insert_tid` of that slot passed. -/
def tid_families_match (fam : Nat → Option Nat) : List tid_op → Prop
  | [] => True
  | .insert data tid family :: ops =>
    tid_families_match (tid_family_step fam (.insert data tid family)) ops
  | .remove chan tid family mbuf_ok :: ops =>
    (fam tid = some family ∨ fam tid = none) ∧
    tid_families_match (tid_family_step fam (.remove chan tid family mbuf_ok)) ops

/-! ## Queue topology: `cxgbe_cfg_queues` -/

/-- Modelled from the spec: the adapter flag `CFG_QUEUES` ("queues configured"),
one bit of `adap->flags`; the enumeration is in a header outside the sources at
hand. -/
def CFG_QUEUES : Nat := 32

/-- Modelled from the spec: the capability bit `FW_PORT_CAP32_SPEED_100M`; the
firmware interface header is outside the sources at hand. -/
def FW_PORT_CAP32_SPEED_100M : Nat := 1

/-- Modelled from the spec: the capability bit `FW_PORT_CAP32_SPEED_1G`; the
firmware interface header is outside the sources at hand. -/
def FW_PORT_CAP32_SPEED_1G : Nat := 2

/-- Modelled from the spec: the mask `M_FW_PORT_CAP32_SPEED` of the speed bits of
the port capabilities, which start at bit `0`; the firmware interface header is
outside the sources at hand. -/
def M_FW_PORT_CAP32_SPEED : Nat := 4095

/-- `is_x_1g_port`: the port can run at 1G. -/
def is_x_1g_port (lc : link_config) : Bool :=
  decide (lc.pcaps &&& FW_PORT_CAP32_SPEED_1G ≠ 0)

/-- `is_x_10g_port`: the port has a speed bit above 1G. `speeds` is
`V_FW_PORT_CAP32_SPEED(G_FW_PORT_CAP32_SPEED(pcaps))`; the complement is taken in
32 bits. -/
def is_x_10g_port (lc : link_config) : Bool :=
  let speeds := lc.pcaps &&& M_FW_PORT_CAP32_SPEED
  let high_speeds :=
    speeds &&& (4294967295 - (FW_PORT_CAP32_SPEED_100M ||| FW_PORT_CAP32_SPEED_1G))
  decide (high_speeds ≠ 0)

/-- The condition `is_x_10g_port(&pi->link_cfg) || is_x_1g_port(&pi->link_cfg)`
of `cxgbe_cfg_queues`: the port is capable of 1G or faster. -/
def port_is_fast (pi : port_info) : Bool :=
  is_x_10g_port pi.link_cfg || is_x_1g_port pi.link_cfg

/-- The first loop of `cxgbe_cfg_queues`: `nb_ports`, the number of ports
capable of 1G or faster (an `unsigned int`). -/
def cfg_nb_ports (ports : List port_info) : Nat :=
  (ports.countP port_is_fast) % 4294967296

/-- The value of `q_per_port` in `cxgbe_cfg_queues` after the clamp to
`rte_lcore_count()`. The subtractions are `unsigned int` arithmetic. -/
def cfg_q_per_port (max_ethqsets nports nb_ports lcore_count : Nat) : Nat :=
  let q :=
    if nb_ports ≠ 0 then
      ((max_ethqsets + 4294967296 - (nports + 4294967296 - nb_ports) % 4294967296)
        % 4294967296) / nb_ports
    else 0
  if q > lcore_count then lcore_count else q

/-- The body of the second loop of `cxgbe_cfg_queues` for one port, with `qidx`
the running offset: `first_qset`, `n_rx_qsets` and `n_tx_qsets` are `u8`, and
`n_tx_qsets` is copied before `n_rx_qsets` is clamped to `rss_size`. -/
def cfg_port (q_per_port qidx : Nat) (pi : port_info) : port_info :=
  let n := (if port_is_fast pi then q_per_port else 1) % 256
  { pi with
    first_qset := qidx % 256
    n_rx_qsets := if n > pi.rss_size then pi.rss_size % 256 else n
    n_tx_qsets := n }

/-- The second loop of `cxgbe_cfg_queues` over the ports, from running offset
`qidx` (an `unsigned int`). -/
def cfg_ports (q_per_port : Nat) : List port_info → Nat → List port_info
  | [], _ => []
  | pi :: rest, qidx =>
    cfg_port q_per_port qidx pi ::
      cfg_ports q_per_port rest
        ((qidx + (cfg_port q_per_port qidx pi).n_rx_qsets) % 4294967296)

/-- `init_rspq`: set the hold-off parameters (the return value of
`cxgb4_set_rspq_intr_params` is not looked at), then the entry length and the
size of the queue. -/
def init_rspq (adap : adapter) (t4_set_params : fw_set_params → Int) (q : sge_rspq)
    (us cnt size iqe_size : Nat) : sge_rspq × List rspq_event :=
  let r := cxgb4_set_rspq_intr_params adap t4_set_params q us cnt
  ({ r.2.1 with iqe_len := iqe_size, size := size }, r.2.2)

/-- The body of the third loop of `cxgbe_cfg_queues` for one receive queue. -/
def cfg_ethrxq (adap : adapter) (t4_set_params : fw_set_params → Int) (r : sge_eth_rxq) :
    sge_eth_rxq × List rspq_event :=
  let q := init_rspq adap t4_set_params r.rspq 5 32 1024 64
  ({ rspq := q.1, usembufs := 1, fl := { size := if (1 : Nat) ≠ 0 then 1024 else 72 } }, q.2)

/-- `cxgbe_cfg_queues`, on the adapter of the device. `lcore_count` is the value
of `rte_lcore_count()`, `t4_set_params` the mailbox collaborator reached through
`init_rspq`. The ports walked are the first `nports` entries of `adap->port`.
The result is the adapter afterwards and the events of the hold-off settings in
program order. -/
def cxgbe_cfg_queues (adap : adapter) (t4_set_params : fw_set_params → Int)
    (lcore_count : Nat) : adapter × List rspq_event :=
  if adap.flags &&& CFG_QUEUES = 0 then
    let ports := adap.port.take adap.params.nports
    let nb_ports := cfg_nb_ports ports
    let q_per_port :=
      cfg_q_per_port adap.sge.max_ethqsets adap.params.nports nb_ports lcore_count
    let rx := adap.sge.ethrxq.map (cfg_ethrxq adap t4_set_params)
    let evt := init_rspq adap t4_set_params adap.sge.fw_evtq 0 0 1024 64
    ({ adap with
       port := cfg_ports q_per_port ports 0 ++ adap.port.drop adap.params.nports
       sge :=
         { adap.sge with
           ethrxq := rx.map Prod.fst
           ethtxq := adap.sge.ethtxq.map (fun _ => { q_size := 1024 })
           fw_evtq := evt.1 }
       flags := adap.flags ||| CFG_QUEUES },
     (rx.map Prod.snd).join ++ evt.2)
  else (adap, [])

/-- The number of ports capable of 1G or faster among the ports of the adapter. -/
def active_ports (adap : adapter) : Nat :=
  (adap.port.take adap.params.nports).countP port_is_fast

/-- The per-port quota `q_per_port` that `cxgbe_cfg_queues` computes for the
adapter. -/
def cfg_quota (adap : adapter) (lcore_count : Nat) : Nat :=
  cfg_q_per_port adap.sge.max_ethqsets adap.params.nports
    (cfg_nb_ports (adap.port.take adap.params.nports)) lcore_count

/-- Modelled from the spec: the capacity `MAX_ETH_QSETS` of the Ethernet queue
arrays, the ceiling `cxgbe_configure_max_ethqsets` puts on `max_ethqsets`; the
macro is in a header outside the sources at hand. -/
def MAX_ETH_QSETS : Nat := 64

/-- The queue-set counts the ports before port `i` received: the sum of their
`n_rx_qsets`. -/
def qsets_before (ports : List port_info) (i : Nat) : Nat :=
  ((ports.take i).map (fun pi => pi.n_rx_qsets)).sum

/-- A port as the examples use it. -/
def port_example (pcaps rss_size : Nat) : port_info :=
  { link_cfg := { pcaps := pcaps }, flags := 0, rss_size := rss_size, first_qset := 0,
    n_rx_qsets := 0, n_tx_qsets := 0 }

/-- The adapter of the end-to-end scenario of the specification: 16 queue sets,
two 10G ports with an RSS slice of 4 entries each. -/
def adapter_two_ports : adapter :=
  { sge := { sge_example with max_ethqsets := 16 }, mbox := 4, pf := 4,
    params := { nports := 2 }, port := [port_example 4 4, port_example 4 4] }

/-! ## Firmware bring-up: `adap_init0` -/

/-- Error number `ENOENT`. -/
def ENOENT : Int := 2

/-- Error number `EIO`. -/
def EIO : Int := 5

/-- Error number `ETIMEDOUT`. -/
def ETIMEDOUT : Int := 110

/-- Modelled from the spec: the adapter flag `FW_OK` ("firmware usable"), one bit
of `adap->flags`; the enumeration is in a header outside the sources at hand. -/
def FW_OK : Nat := 16

/-- Modelled from the spec: the adapter flag `MASTER_PF` ("this function won
master ownership"), one bit of `adap->flags`; the enumeration is in a header
outside the sources at hand. -/
def MASTER_PF : Nat := 64

/-- Modelled from the spec: the device state `DEV_STATE_UNINIT` (uninitialized)
of `enum dev_state`, declared in a header outside the sources at hand. -/
def DEV_STATE_UNINIT : Nat := 0

/-- Modelled from the spec: the device state `DEV_STATE_INIT` (the firmware
reports the adapter as initialized) of `enum dev_state`, declared in a header
outside the sources at hand. -/
def DEV_STATE_INIT : Nat := 1

/-- Modelled from the spec: the ceiling `MAX_ATIDS` on the number of active-open
ids; the macro is in a header outside the sources at hand. -/
def MAX_ATIDS : Nat := 8192

/-- Modelled from the spec: the memory window `MEMWIN_NIC` of the driver; the
enumeration is in a header outside the sources at hand. -/
def MEMWIN_NIC : Nat := 0

/-- Modelled from the spec: `is_pf4`, the adapter is driven through physical
function 4; the macro is in a header outside the sources at hand. -/
def is_pf4 (adap : adapter) : Bool := adap.pf == 4

/-- Modelled from the spec: `is_t4`, the chip is a T4; the helper is in a header
outside the sources at hand. -/
def is_t4 (chip : Nat) : Bool := chip == 4

/-- Modelled from the spec: `is_t6`, the chip is a T6; the helper is in a header
outside the sources at hand. -/
def is_t6 (chip : Nat) : Bool := chip == 6

/-- Modelled from the spec: `hweight32`, the number of bits set in a 32-bit
word; the helper is in a header outside the sources at hand. -/
def hweight32 (w : Nat) : Nat := (List.range 32).countP (fun i => w.testBit i)

/-- `cxgbe_configure_max_ethqsets`: one ingress queue is kept for the firmware
event queue and every queue set needs two egress contexts; the result is capped
by `MAX_ETH_QSETS`. The arithmetic is `unsigned int`, the field a `u16`. -/
def cxgbe_configure_max_ethqsets (adap : adapter) : adapter :=
  let ethqsets : Nat :=
    if is_pf4 adap then
      let e := (adap.params.pfres.niqflint + 4294967296 - 1) % 4294967296
      if adap.params.pfres.neq < (e * 2) % 4294967296 then adap.params.pfres.neq / 2 else e
    else
      let e := (adap.params.vfres.niqflint + 4294967296 - 1) % 4294967296
      let e := if adap.params.vfres.nethctrl ≠ e then min adap.params.vfres.nethctrl e else e
      if adap.params.vfres.neq < (e * 2) % 4294967296 then adap.params.vfres.neq / 2 else e
  let ethqsets := if ethqsets > MAX_ETH_QSETS then MAX_ETH_QSETS else ethqsets
  { adap with sge := { adap.sge with max_ethqsets := ethqsets % 65536 } }

/-- The calls `adap_init0` and `adap_init0_config` make to collaborators that
return a status, named after the collaborator or, for mailbox commands and
parameter queries, after what is asked. -/
inductive fw_step where
  | hello
  | halt
  | restart
  | get_core_clock
  | reset
  | flash_cfg_addr
  | caps_read_flash
  | caps_read_embedded
  | caps_write
  | fw_init
  | get_pfres
  | query_portvec
  | sge_init
  | query_l2t_filter
  | query_clip
  | caps_read
  | init_hash_filter
  | query_filter2_wr
  | query_ntid
  | set_cplfw4msg_encap
  | query_ulptx_memwrite_dsgl
  | bye
  deriving DecidableEq

/-- What the collaborators answer during one bring-up: the status `ret` each call
returns, the device state `state` that `t4_fw_hello` reports, the values `val`
each parameter query returns, the port vector, whether the capabilities read
back include `FW_CAPS_CONFIG_NIC_HASHFILTER`, the resources `t4_get_pfres`
stores, the MTU table `t4_read_mtu_tbl` reads, and what `cxgbe_init_hash_filter`
does to the TID counts of the adapter. -/
structure fw_replies where
  ret : fw_step → Int
  state : Nat
  val : fw_step → Nat → Nat
  port_vec : Nat
  niccaps_hashfilter : Bool
  pfres : pf_resources
  mtus : List Nat
  hash_filter : tid_info → tid_info

/-- The outcome of `adap_init0`: its return value, the adapter afterwards, and
the collaborator calls in program order. -/
structure init0_result where
  ret : Int
  adap : adapter
  trace : List fw_step

/-- `adap_init0_config` with `reset` set: the return value and the collaborator
calls in program order. `adap_init0_tweaks` writes registers only and returns
`0`. -/
def adap_init0_config (o : fw_replies) (reset : Nat) : Int × List fw_step :=
  let tr0 : List fw_step := if reset ≠ 0 then [.reset] else []
  if reset ≠ 0 ∧ o.ret .reset < 0 then (o.ret .reset, tr0)
  else if o.ret .flash_cfg_addr < 0 then (o.ret .flash_cfg_addr, tr0 ++ [.flash_cfg_addr])
  else
    let tr2 := tr0 ++ [.flash_cfg_addr, .caps_read_flash]
    let rd : Int × List fw_step :=
      if o.ret .caps_read_flash = -ENOENT then
        (o.ret .caps_read_embedded, tr2 ++ [.caps_read_embedded])
      else (o.ret .caps_read_flash, tr2)
    if rd.1 < 0 then rd
    else if o.ret .caps_write < 0 then (o.ret .caps_write, rd.2 ++ [.caps_write])
    else if o.ret .fw_init < 0 then
      (o.ret .fw_init, rd.2 ++ [.caps_write, .fw_init])
    else (0, rd.2 ++ [.caps_write, .fw_init])

/-- The label `bye` of `adap_init0`: tell the firmware goodbye unless the error
is a timeout or an I/O error, and return `ret`. -/
def adap_init0_bye (ret : Int) (adap : adapter) (trace : List fw_step) : init0_result :=
  { ret := ret, adap := adap,
    trace := if ret ≠ -ETIMEDOUT ∧ ret ≠ - EIO then trace ++ [.bye] else trace }

/-- The MTU table after the adjustment loop of `adap_init0`: the first entry
`1492` becomes `1488`. -/
def mtus_adjust : List Nat → List Nat
  | [] => []
  | m :: rest => if m = 1492 then 1488 :: rest else m :: mtus_adjust rest

/-- `adap_init0` from the capability read on (the part after the CLIP range
query): capabilities, hash filter, optional capabilities, TID counts, MTU table,
queue-set capacity, and the successful return. `state` is the local device
state. -/
def adap_init0_caps (o : fw_replies) (adap : adapter) (state : Nat) (trace : List fw_step) :
    init0_result :=
  let tr := trace ++ [.caps_read]
  if o.ret .caps_read < 0 then adap_init0_bye (o.ret .caps_read) adap tr
  else
    let hash := o.niccaps_hashfilter && is_t6 adap.params.chip
    if hash ∧ o.ret .init_hash_filter < 0 then
      adap_init0_bye (o.ret .caps_read) adap (tr ++ [.init_hash_filter])
    else
      let adap1 : adapter :=
        if hash then { adap with tids := o.hash_filter adap.tids } else adap
      let tr1 := if hash then tr ++ [.init_hash_filter] else tr
      let adap2 : adapter :=
        if is_t4 adap1.params.chip then
          { adap1 with params := { adap1.params with filter2_wr_support := false } }
        else
          { adap1 with params := { adap1.params with
              filter2_wr_support :=
                decide (o.ret .query_filter2_wr = 0) &&
                decide (o.val .query_filter2_wr 0 ≠ 0) } }
      let tr2 := if is_t4 adap1.params.chip then tr1 else tr1 ++ [.query_filter2_wr]
      let tr3 := tr2 ++ [.query_ntid]
      if o.ret .query_ntid < 0 then adap_init0_bye (o.ret .query_ntid) adap2 tr3
      else
        let adap3 : adapter :=
          { adap2 with tids := { adap2.tids with
              ntids := o.val .query_ntid 0
              natids := min (o.val .query_ntid 0 / 2) MAX_ATIDS } }
        let tr4 := tr3 ++ [.set_cplfw4msg_encap]
        let adap4 : adapter :=
          if is_t4 adap3.params.chip then
            { adap3 with params := { adap3.params with ulptx_memwrite_dsgl := false } }
          else
            { adap3 with params := { adap3.params with
                ulptx_memwrite_dsgl :=
                  decide (o.ret .query_ulptx_memwrite_dsgl = 0) &&
                  decide (o.val .query_ulptx_memwrite_dsgl 0 ≠ 0) } }
        let tr5 :=
          if is_t4 adap3.params.chip then tr4 else tr4 ++ [.query_ulptx_memwrite_dsgl]
        let adap5 : adapter :=
          { adap4 with params := { adap4.params with
              mtus := if state ≠ DEV_STATE_INIT then mtus_adjust o.mtus else o.mtus } }
        let adap6 := cxgbe_configure_max_ethqsets adap5
        { ret := 0,
          adap := { adap6 with
            params := { adap6.params with drv_memwin := MEMWIN_NIC }
            flags := adap6.flags ||| FW_OK },
          trace := tr5 }

/-- `adap_init0` from the call of `t4_get_pfres` on: provisioned resources, port
vector, SGE initialisation, L2T / filter and CLIP ranges. -/
def adap_init0_queries (o : fw_replies) (adap : adapter) (state : Nat)
    (trace : List fw_step) : init0_result :=
  let tr := trace ++ [.get_pfres]
  if o.ret .get_pfres ≠ 0 then adap_init0_bye (o.ret .get_pfres) adap tr
  else
    let adap1 : adapter := { adap with params := { adap.params with pfres := o.pfres } }
    let tr1 := tr ++ [.query_portvec]
    if o.ret .query_portvec < 0 then adap_init0_bye (o.ret .query_portvec) adap1 tr1
    else
      let adap2 : adapter :=
        { adap1 with params := { adap1.params with
            nports := hweight32 (o.port_vec % 4294967296) % 256
            portvec := o.port_vec % 4294967296 } }
      let tr2 := tr1 ++ [.sge_init]
      if o.ret .sge_init < 0 then adap_init0_bye (o.ret .sge_init) adap2 tr2
      else
        let tr3 := tr2 ++ [.query_l2t_filter]
        if o.ret .query_l2t_filter < 0 then
          adap_init0_bye (o.ret .query_l2t_filter) adap2 tr3
        else
          let adap3 : adapter :=
            { adap2 with
              l2t_start := o.val .query_l2t_filter 0
              l2t_end := o.val .query_l2t_filter 1
              tids := { adap2.tids with
                ftid_base := o.val .query_l2t_filter 2
                nftids :=
                  (o.val .query_l2t_filter 3 + 4294967296 - o.val .query_l2t_filter 2 + 1)
                    % 4294967296 } }
          let tr4 := tr3 ++ [.query_clip]
          if o.ret .query_clip < 0 then adap_init0_bye (o.ret .query_clip) adap3 tr4
          else
            adap_init0_caps o
              { adap3 with
                clipt_start := o.val .query_clip 0
                clipt_end := o.val .query_clip 1 }
              state tr4

/-- `adap_init0` from the call of `t4_get_core_clock` on, with the local device
state `state`: the core clock, then either the note that the adapter is already
initialized or `adap_init0_config`, then the queries. -/
def adap_init0_clock (o : fw_replies) (adap : adapter) (state : Nat) (trace : List fw_step) :
    init0_result :=
  let tr := trace ++ [.get_core_clock]
  if o.ret .get_core_clock < 0 then adap_init0_bye (o.ret .get_core_clock) adap tr
  else if state = DEV_STATE_INIT then adap_init0_queries o adap state tr
  else
    let c := adap_init0_config o 1
    if c.1 = -ENOENT then adap_init0_bye c.1 adap (tr ++ c.2)
    else if c.1 < 0 then adap_init0_bye c.1 adap (tr ++ c.2)
    else adap_init0_queries o adap state (tr ++ c.2)

/-- `adap_init0`: contact the firmware, halt and restart it when it reports the
adapter as initialized (clearing that state), then continue with the core clock.
The `unsigned` complement is taken in 32 bits. -/
def adap_init0 (o : fw_replies) (adap : adapter) : init0_result :=
  if o.ret .hello < 0 then adap_init0_bye (o.ret .hello) adap [.hello]
  else
    let adap1 : adapter :=
      if o.ret .hello = adap.mbox then { adap with flags := adap.flags ||| MASTER_PF }
      else adap
    if o.state = DEV_STATE_INIT then
      if o.ret .halt < 0 then adap_init0_bye (o.ret .halt) adap1 [.hello, .halt]
      else if o.ret .restart < 0 then
        adap_init0_bye (o.ret .restart) adap1 [.hello, .halt, .restart]
      else
        adap_init0_clock o adap1 (o.state &&& (4294967295 - DEV_STATE_INIT))
          [.hello, .halt, .restart]
    else adap_init0_clock o adap1 o.state [.hello]

/-- The steps whose status `adap_init0` and `adap_init0_config` look at and leave
on: every step but the hash-filter set-up (whose status is tested but not kept),
the three optional capability probes, and the goodbye itself. -/
def fw_step.checked : fw_step → Bool
  | .init_hash_filter => false
  | .query_filter2_wr => false
  | .set_cplfw4msg_encap => false
  | .query_ulptx_memwrite_dsgl => false
  | .bye => false
  | _ => true

/-- A status that makes the firmware unusable: a timeout or an I/O error. -/
def fw_fatal (ret : Int) : Prop := ret = -ETIMEDOUT ∨ ret = - EIO

instance (ret : Int) : Decidable (fw_fatal ret) := by
  unfold fw_fatal; infer_instance

/-- Replies of a firmware that reports the adapter as initialized, answers the
hello from mailbox `0` (the master is another function) and lets every step
succeed. -/
def replies_initialized : fw_replies :=
  { ret := fun _ => 0, state := DEV_STATE_INIT, val := fun _ i => 10 * (i + 1),
    port_vec := 3, niccaps_hashfilter := false, pfres := { niqflint := 34, neq := 70 },
    mtus := [1492, 1500], hash_filter := fun t => t }

/-- Replies of a firmware on an uninitialized adapter where every step succeeds
except the optional `FILTER2_WR` query, which times out. -/
def replies_probe_timeout : fw_replies :=
  { replies_initialized with
    state := DEV_STATE_UNINIT
    ret := fun s => if s = .query_filter2_wr then -ETIMEDOUT else 0 }

/-- Replies of a firmware on an uninitialized adapter where the SGE
initialisation times out. -/
def replies_sge_timeout : fw_replies :=
  { replies_initialized with
    state := DEV_STATE_UNINIT
    ret := fun s => if s = .sge_init then -ETIMEDOUT else 0 }

/-- Replies of a firmware on an uninitialized adapter that offers hash filters
and whose every mailbox command succeeds, while `cxgbe_init_hash_filter` fails
with `-ENOMEM`. -/
def replies_hash_failure : fw_replies :=
  { replies_initialized with
    state := DEV_STATE_UNINIT
    niccaps_hashfilter := true
    ret := fun s => if s = .init_hash_filter then -ENOMEM else 0 }

/-- The adapter `adapter_example` on a T6 chip. -/
def adapter_t6 : adapter := { adapter_example with params := { chip := 6 } }

/-- Replies of a firmware on an uninitialized adapter without a configuration
file: both capability reads of `adap_init0_config` answer `-ENOENT`. -/
def replies_no_config : fw_replies :=
  { replies_initialized with
    state := DEV_STATE_UNINIT
    ret := fun s =>
      if s = .caps_read_flash ∨ s = .caps_read_embedded then -ENOENT else 0 }

/-! ## Probe: `cxgbe_init_rss` and `cxgbe_probe` -/

/-- The loop of `cxgbe_init_rss` over the ports: the first port whose RSS table
cannot be allocated ends it with `-ENOMEM`. -/
def init_rss_ports (rss_ok : Nat → Bool) : List Nat → Int
  | [] => 0
  | i :: rest => if !rss_ok i then -ENOMEM else init_rss_ports rss_ok rest

/-- `cxgbe_init_rss`: on physical function 4 the status `rss_mode` of
`t4_init_rss_mode` is returned when it is not `0`; then one RSS table is
allocated per port, `rss_ok i` telling whether the allocation for port `i`
succeeds. -/
def cxgbe_init_rss (adap : adapter) (rss_mode : Int) (rss_ok : Nat → Bool) : Int :=
  if is_pf4 adap ∧ rss_mode ≠ 0 then rss_mode
  else init_rss_ports rss_ok (List.range adap.params.nports)

/-- How `cxgbe_probe` leaves: by one of the two `return`s before `adap_init0`,
by `return 0` at the end, or through the label `out_free`. -/
inductive probe_exit where
  | early
  | done
  | out_free
  deriving DecidableEq

/-- What the collaborators of `cxgbe_probe` answer: the chip type, the function
number read from `PL_WHOAMI`, the status of `t4_prep_adapter`, the firmware
replies for `adap_init0`, whether BAR2 is mapped, per port whether the ethdev
entry, the private data and the MAC storage can be allocated, the status of
`t4_port_init`, the firmware answers and core count for `cxgbe_cfg_queues`, the
allocation outcomes of `tid_init`, the hash base register when hash filtering is
enabled, and for `cxgbe_init_rss` the status of `t4_init_rss_mode` and the
per-port allocation outcomes. -/
structure probe_replies where
  chip : Int
  func : Nat
  prep : Int
  fw : fw_replies
  bar2 : Bool
  eth_dev_ok : Nat → Bool
  priv_ok : Nat → Bool
  mac_ok : Nat → Bool
  port_init : Int
  set_params : fw_set_params → Int
  lcore_count : Nat
  tab_ok : Bool
  array_ok : Bool
  bmap_ok : Bool
  hash_base : Option Nat
  rss_mode : Int
  rss_ok : Nat → Bool

/-- The outcome of `cxgbe_probe`: its return value, the way it left, and the
adapter afterwards. -/
structure probe_result where
  ret : Int
  path : probe_exit
  adap : adapter

/-- The label `out_free` of `cxgbe_probe`: the ports are released, the firmware
is told goodbye when `FW_OK` is set, and `-err` is returned. -/
def probe_out_free (err : Int) (adap : adapter) : probe_result :=
  { ret := -err, path := .out_free, adap := adap }

/-- The port loop of `cxgbe_probe`, entered with the local `err`: `none` when
every port was set up, `some e` when the loop left for `out_free` with `err = e`.
Port `0` uses the ethdev entry allocated by the caller; a failed ethdev entry or
private-data allocation leaves `err` as it is, a failed MAC storage allocation
sets it to `-1`. -/
def probe_ports (r : probe_replies) (err : Int) : List Nat → Option Int
  | [] => none
  | i :: rest =>
    if i ≠ 0 ∧ r.eth_dev_ok i = false then some err
    else if i ≠ 0 ∧ r.priv_ok i = false then some err
    else if r.mac_ok i = false then some (-1)
    else probe_ports r err rest

/-- `cxgbe_probe`. The chip parameters that `t4_prep_adapter` fills in are taken
as present in `adap`, and the port records as those `t4_port_init` leaves; the
CLIP, L2T and MPS TCAM tables, whose absence is tolerated, are left out. -/
def cxgbe_probe (r : probe_replies) (adap : adapter) : probe_result :=
  if r.chip < 0 then { ret := r.chip, path := .early, adap := adap }
  else
    let a1 : adapter := { adap with mbox := r.func, pf := r.func }
    if r.prep ≠ 0 then { ret := r.prep, path := .early, adap := a1 }
    else
      let i0 := adap_init0 r.fw a1
      if i0.ret ≠ 0 then probe_out_free i0.ret i0.adap
      else if is_t4 i0.adap.params.chip = false ∧ r.bar2 = false then
        probe_out_free (-ENOMEM) i0.adap
      else
        match probe_ports r i0.ret (List.range i0.adap.params.nports) with
        | some err => probe_out_free err i0.adap
        | none =>
          if i0.adap.flags &&& FW_OK ≠ 0 ∧ r.port_init ≠ 0 then
            probe_out_free r.port_init i0.adap
          else
            let a2 := (cxgbe_cfg_queues i0.adap r.set_params r.lcore_count).1
            let a3 : adapter :=
              { a2 with tids := (tid_init a2.tids r.tab_ok r.array_ok r.bmap_ok).2 }
            let a4 : adapter :=
              match r.hash_base with
              | some hb => { a3 with tids := { a3.tids with hash_base := hb / 4 } }
              | none => a3
            let err := cxgbe_init_rss a4 r.rss_mode r.rss_ok
            if err ≠ 0 then probe_out_free err a4
            else { ret := 0, path := .done, adap := a4 }

/-- Collaborators of a probe on physical function 4 in which everything
succeeds, the firmware answering as in `replies_initialized` (two ports). -/
def probe_replies_ok : probe_replies :=
  { chip := 5, func := 4, prep := 0, fw := replies_initialized, bar2 := true,
    eth_dev_ok := fun _ => true, priv_ok := fun _ => true, mac_ok := fun _ => true,
    port_init := 0, set_params := fun _ => 0, lcore_count := 8,
    tab_ok := true, array_ok := true, bmap_ok := true, hash_base := none,
    rss_mode := 0, rss_ok := fun _ => true }

/-- As `probe_replies_ok`, but no ethdev entry can be reserved for the second
port. -/
def probe_replies_no_ethdev : probe_replies :=
  { probe_replies_ok with eth_dev_ok := fun i => decide (i ≠ 1) }

/-- As `probe_replies_ok`, but the table storage of `tid_init` cannot be
allocated. -/
def probe_replies_no_tids : probe_replies :=
  { probe_replies_ok with tab_ok := false }

/-! ## Queue counts of a port: `cxgbe_cfg_queue_count` -/

/-- Error number `EINVAL`. -/
def EINVAL : Int := 22

/-- Modelled from the spec: the port flag `PORT_RSS_DONE` (the RSS table of the
port is programmed), one bit of `pi->flags`; the enumeration is in a header
outside the sources at hand. -/
def PORT_RSS_DONE : Nat := 1

/-- `cxgbe_cfg_queue_count` for the port `pi` of `adap`, with the queue counts
`nb_rx_queues` and `nb_tx_queues` of the device data: the return value and the
port afterwards. `max_queues` is an `unsigned int`, the complement is taken in
the 64 bits of `pi->flags`, and the two counts are stored in `u8` fields. -/
def cxgbe_cfg_queue_count (adap : adapter) (pi : port_info)
    (nb_rx_queues nb_tx_queues : Nat) : Int × port_info :=
  let max_queues := adap.sge.max_ethqsets / adap.params.nports
  if nb_rx_queues < 1 ∨ nb_tx_queues < 1 then (-EINVAL, pi)
  else if nb_rx_queues > max_queues ∨ nb_tx_queues > max_queues then (-EINVAL, pi)
  else if nb_rx_queues > pi.rss_size then (-EINVAL, pi)
  else
    (0, { pi with
          flags := pi.flags &&& (18446744073709551615 - PORT_RSS_DONE)
          n_rx_qsets := nb_rx_queues % 256
          n_tx_qsets := nb_tx_queues % 256 })

/-! ## Storage obtained and released by `tid_init` -/

/-- A call to a storage collaborator that took effect, in program order:
storage obtained from `t4_os_alloc` (for the three tables, for the filter
bitmap), the bitmap set up by `rte_bitmap_init`, and the releases made by
`tid_free`. -/
inductive mem_event where
  | alloc_tid_tab
  | alloc_bmap_array
  | bitmap_init
  | bitmap_free
  | free_bmap_array
  | free_tid_tab
  deriving DecidableEq

/-- The releases made by `tid_free`: only when `tid_tab` is set, the bitmap if
set, then the bitmap storage if set, then the table storage. -/
def tid_free_mem (t : tid_info) : List mem_event :=
  if t.tid_tab.isSome then
    (if t.ftid_bmap then [mem_event.bitmap_free] else []) ++
    (if t.ftid_bmap_array then [mem_event.free_bmap_array] else []) ++
    [mem_event.free_tid_tab]
  else []

/-- The storage calls of `tid_init`, for the same collaborator outcomes as
`tid_init`: the table storage, then the bitmap storage, then the bitmap, with the
releases of `tid_free` on the two failure paths that call it. -/
def tid_init_mem (t : tid_info) (tab_ok array_ok bmap_ok : Bool) : List mem_event :=
  if !tab_ok then []
  else
    let t1 : tid_info :=
      { t with
        tid_tab := some (List.replicate t.ntids none)
        atid_tab := some (List.replicate t.natids (.next none))
        ftid_tab := some t.nftids
        ftid_bmap_array := array_ok }
    if !array_ok then mem_event.alloc_tid_tab :: tid_free_mem t1
    else
      let t4 : tid_info := { t1 with ftid_bmap := bmap_ok }
      if !bmap_ok then
        mem_event.alloc_tid_tab :: mem_event.alloc_bmap_array :: tid_free_mem t4
      else [mem_event.alloc_tid_tab, mem_event.alloc_bmap_array, mem_event.bitmap_init]

/-- The table pointers of the structure are all `NULL`, as in the zeroed adapter
structure `tid_init` is called on. -/
def tid_info.no_tables (t : tid_info) : Prop :=
  t.tid_tab = none ∧ t.atid_tab = none ∧ t.ftid_tab = none ∧ t.afree = none ∧
  t.ftid_bmap = false ∧ t.ftid_bmap_array = false

instance (t : tid_info) : Decidable t.no_tables := by
  unfold tid_info.no_tables; infer_instance

/-! ## Invariants used in the proofs -/

/-- The free list of `tab` that starts at `p` visits exactly the entries `l`, in
this order, and ends in `NULL`. -/
inductive free_chain (tab : List aopen_entry) : Option Nat → List Nat → Prop
  | nil : free_chain tab none []
  | cons (i : Nat) (p : Option Nat) (l : List Nat) :
      tab[i]? = some (.next p) → free_chain tab p l → free_chain tab (some i) (i :: l)

/-- The invariant of the allocator on a table of `n` active-open ids: the free
list is a chain through the table, and the free ids together with the ids held
by clients are exactly `n` distinct ids below `n`; the counter is the number of
held ids. -/
structure atid_inv (n : Nat) (s : atid_state) : Prop where
  bound : n ≤ 2147483648
  natids : s.t.natids = n
  chain : ∃ tab l, s.t.atid_tab = some tab ∧ tab.length = n ∧ free_chain tab s.t.afree l ∧
    (l.map (fun i : Nat => (i : Int)) ++ s.held).Nodup ∧ (∀ i ∈ l, i < n) ∧
    l.length + s.held.length = n
  held_range : ∀ a ∈ s.held, 0 ≤ a ∧ a < n
  count : s.t.atids_in_use = s.held.length

/-- The scan state `(m, md)` after the entries below index `i`. -/
structure scan_inv (tab : List Nat) (v : Int) (i : Nat) (st : Nat × Int) : Prop where
  le_all : ∀ j, j < i → st.2 ≤ table_dist tab v j
  lt_before : ∀ j, j < st.1 → st.2 < table_dist tab v j
  start : i = 0 → st.1 = 0 ∧ st.2 = INT_MAX
  found : 0 < i → st.1 < i ∧ table_dist tab v st.1 = st.2

/-- Slot `i` is occupied, lies in the hash region (`hash = true`) or outside it
(`hash = false`), and its latest insert passed the IPv4 family. -/
def ipv4_slot (t : tid_info) (fam : Nat → Option Nat) (hash : Bool) (i : Nat) : Bool :=
  (t.tid_slot i).isSome && decide (fam i = some FILTER_TYPE_IPV4) && (t.in_hash i == hash)

/-- Number of occupied IPv4 slots of a region. -/
def ipv4_count (t : tid_info) (fam : Nat → Option Nat) (hash : Bool) : Nat :=
  (List.range (t.tid_tab.getD []).length).countP (ipv4_slot t fam hash)

/-- The invariant behind the family counters: the family of every occupied slot
is known, and each family counter is at least the number of occupied IPv4 slots
of its region. -/
structure tid_counter_inv (t : tid_info) (fam : Nat → Option Nat) : Prop where
  known : ∀ i, (t.tid_slot i).isSome = true → fam i ≠ none
  general : (ipv4_count t fam false : Int) ≤ t.tids_in_use
  hash : (ipv4_count t fam true : Int) ≤ t.hash_tids_in_use

/-- No step of the trace whose status is looked at was answered with a timeout or
an I/O error. -/
def steps_pass (o : fw_replies) (tr : List fw_step) : Prop :=
  ∀ s ∈ tr, s.checked = true → ¬ fw_fatal (o.ret s)

/-- The state of a bring-up that is still running: no fatal status so far, no
goodbye sent, and the `FW_OK` flag as it was in the adapter `adap0` on entry. -/
structure init0_inv (o : fw_replies) (adap0 adap : adapter) (tr : List fw_step) : Prop where
  pass : steps_pass o tr
  no_bye : fw_step.bye ∉ tr
  flags : adap.flags &&& FW_OK = adap0.flags &&& FW_OK

/-- A result that honours the abort policy: a fatal status of a step whose
status is looked at is returned, ends the trace, is not followed by a goodbye,
and leaves `FW_OK` as it was. -/
def aborts_on_fatal (o : fw_replies) (adap0 : adapter) (r : init0_result) : Prop :=
  ∀ s, s.checked = true → s ∈ r.trace → fw_fatal (o.ret s) →
    r.ret = o.ret s ∧ r.trace.getLast? = some s ∧ fw_step.bye ∉ r.trace ∧
    r.adap.flags &&& FW_OK = adap0.flags &&& FW_OK

/-- What a bring-up whose every step succeeds leaves behind: success, `FW_OK`,
and the resource limits as the firmware reported them. -/
structure init0_populated (o : fw_replies) (r : init0_result) : Prop where
  ret : r.ret = 0
  fw_ok : r.adap.flags &&& FW_OK = FW_OK
  pfres : r.adap.params.pfres = o.pfres
  portvec : r.adap.params.portvec = o.port_vec % 4294967296
  nports : r.adap.params.nports = hweight32 (o.port_vec % 4294967296) % 256
  l2t_start : r.adap.l2t_start = o.val .query_l2t_filter 0
  l2t_end : r.adap.l2t_end = o.val .query_l2t_filter 1
  clipt_start : r.adap.clipt_start = o.val .query_clip 0
  clipt_end : r.adap.clipt_end = o.val .query_clip 1
  ntids : r.adap.tids.ntids = o.val .query_ntid 0
  natids : r.adap.tids.natids = min (o.val .query_ntid 0 / 2) MAX_ATIDS

/-- A result that is a success only with a usable firmware: a return value of
`0` comes with `FW_OK` set, or the hash-filter set-up was called and failed. -/
def zero_only_ok (o : fw_replies) (r : init0_result) : Prop :=
  r.ret = 0 → r.adap.flags &&& FW_OK = FW_OK ∨
    (fw_step.init_hash_filter ∈ r.trace ∧ o.ret .init_hash_filter < 0)

/-- A table with `natids = 10` as in the end-to-end scenario of the specification. -/
def tid_example : tid_info :=
  { tid_info.zero with ntids := 100, natids := 10, nftids := 20, hash_base := 80 }

/-! ## Machine integers: conversions -/

theorem to_int_of_nat_lt (i : Nat) (h : i < 2147483648) : to_int (i : Int) = i := by
  unfold to_int; omega

theorem to_uint_of_nat_lt (i : Nat) (h : i < 4294967296) : to_uint (i : Int) = i := by
  unfold to_uint; omega

theorem to_uint_to_int (i : Nat) (h : i < 4294967296) : to_uint (to_int (i : Int)) = i := by
  unfold to_uint to_int; omega

theorem free_chain_set {tab : List aopen_entry} {p : Option Nat} {l : List Nat}
    (h : free_chain tab p l) (j : Nat) (e : aopen_entry) (hj : j ∉ l) :
    free_chain (tab.set j e) p l := by
  induction h with
  | nil => exact free_chain.nil
  | cons i p l hi _ ih =>
    have hne : j ≠ i := fun hji => hj (by simp [hji])
    have hl : j ∉ l := fun hjl => hj (by simp [hjl])
    refine free_chain.cons i p l ?_ (ih hl)
    rw [List.getElem?_set_ne hne]; exact hi

theorem tid_init_thread_length (k : Nat) (tab : List aopen_entry) :
    (tid_init_thread k tab).length = tab.length := by
  induction k generalizing tab with
  | zero => rfl
  | succ m ih =>
    unfold tid_init_thread
    split
    · rfl
    · rw [ih]; simp

theorem tid_init_thread_get (k : Nat) (tab : List aopen_entry) (i : Nat) (hk : k ≤ tab.length) :
    (tid_init_thread k tab)[i]? =
      if i + 1 < k then some (.next (some (i + 1))) else tab[i]? := by
  induction k generalizing tab with
  | zero => simp [tid_init_thread]
  | succ m ih =>
    unfold tid_init_thread
    by_cases hm : m = 0
    · subst hm; simp
    · simp only [hm, if_false]
      rw [ih _ (by simp; omega)]
      by_cases h1 : i + 1 < m
      · have : i + 1 < m + 1 := by omega
        simp [h1, this]
      · simp only [h1, if_false]
        by_cases h2 : i + 1 = m
        · have h3 : m - 1 = i := by omega
          have h4 : i < tab.length := by omega
          rw [h3, List.getElem?_set_self (by omega)]
          simp [h4, ← h2]
        · have h3 : m - 1 ≠ i := by omega
          have h4 : ¬ (i + 1 < m + 1) := by omega
          rw [List.getElem?_set_ne h3]; simp [h4]

theorem free_chain_init (tab : List aopen_entry) (n : Nat)
    (htab : ∀ j, j < n → tab[j]? = some (.next (if j + 1 < n then some (j + 1) else none)))
    (k i : Nat) (hk : 0 < k) (hik : i + k = n) :
    free_chain tab (some i) (List.range' i k) := by
  induction k generalizing i with
  | zero => omega
  | succ m ih =>
    rw [List.range'_succ]
    by_cases hm : m = 0
    · subst hm
      have h := htab i (by omega)
      have h1 : ¬ (i + 1 < n) := by omega
      simp only [h1, if_false] at h
      exact free_chain.cons i none [] h free_chain.nil
    · have h := htab i (by omega)
      have h1 : i + 1 < n := by omega
      simp only [h1, if_true] at h
      exact free_chain.cons i (some (i + 1)) _ h (ih (i + 1) (by omega) (by omega))

theorem tid_init_ok (t0 t : tid_info) (a b c : Bool) (h : tid_init t0 a b c = (0, t)) :
    t = (tid_init t0 true true true).2 := by
  cases a <;> cases b <;> cases c <;> simp [tid_init, ENOMEM] at h ⊢
  exact h.symm

theorem atid_inv_init (t0 : tid_info) (hs : t0.sized) :
    atid_inv t0.natids ⟨(tid_init t0 true true true).2, []⟩ := by
  obtain ⟨h1, h2⟩ := hs
  have hb : t0.natids < 2147483648 := by omega
  by_cases hn : t0.natids = 0
  · refine ⟨by omega, ?_, ?_, ?_, ?_⟩
    · simp [tid_init, hn]
    · refine ⟨[], [], ?_, ?_, ?_, ?_, ?_, ?_⟩ <;> simp [tid_init, hn]
      exact free_chain.nil
    · simp
    · simp [tid_init, hn]
  · refine ⟨by omega, ?_, ?_, ?_, ?_⟩
    · simp [tid_init, hn]
    · refine ⟨tid_init_thread t0.natids (List.replicate t0.natids (.next none)),
        List.range' 0 t0.natids, ?_, ?_, ?_, ?_, ?_, ?_⟩
      · simp [tid_init, hn]
      · simp [tid_init_thread_length]
      · have : (tid_init t0 true true true).2.afree = some 0 := by simp [tid_init, hn]
        rw [this]
        apply free_chain_init _ t0.natids _ _ _ (by omega) (by omega)
        intro j hj
        rw [tid_init_thread_get _ _ _ (by simp)]
        by_cases hj1 : j + 1 < t0.natids
        · simp [hj1]
        · simp [hj1, hj]
      · simp only [List.append_nil]
        refine (List.nodup_map_iff ?_).2 (List.nodup_range' _ _)
        intro x y hxy; exact Int.ofNat_inj.mp hxy
      · intro i hi; simp [List.mem_range'] at hi; omega
      · simp
    · simp
    · simp [tid_init, hn]

theorem free_chain_none {tab : List aopen_entry} {l : List Nat}
    (h : free_chain tab none l) : l = [] := by
  cases h; rfl

theorem free_chain_some {tab : List aopen_entry} {i : Nat} {l : List Nat}
    (h : free_chain tab (some i) l) :
    ∃ p l2, l = i :: l2 ∧ tab[i]? = some (.next p) ∧ free_chain tab p l2 := by
  cases h with
  | cons _ p l2 hi hrest => exact ⟨p, l2, rfl, hi, hrest⟩

theorem int_natCast_ne_neg_one (i : Nat) : (i : Int) ≠ -1 := by
  omega

theorem alloc_empty (t : tid_info) (d : Nat) (h : t.afree = none) :
    cxgbe_alloc_atid t d = (-1, t) := by
  simp [cxgbe_alloc_atid, h]

/-- What an allocation does in a state that satisfies the invariant. -/
theorem atid_inv_alloc_cases (n : Nat) (s : atid_state) (d : Nat) (hinv : atid_inv n s) :
    (s.held.length = n ∧ cxgbe_alloc_atid s.t d = (-1, s.t)) ∨
    (∃ i : Nat, i < n ∧ s.held.length < n ∧ s.t.afree = some i ∧ (i : Int) ∉ s.held ∧
      (cxgbe_alloc_atid s.t d).1 = (i : Int) ∧
      (cxgbe_alloc_atid s.t d).2.atids_in_use = s.t.atids_in_use + 1 ∧
      atid_inv n ⟨(cxgbe_alloc_atid s.t d).2, (i : Int) :: s.held⟩) := by
  obtain ⟨hb, hnat, ⟨tab, l, htab, hlen, hch, hnd, hlt, hcnt⟩, hr, hc⟩ := hinv
  cases hfree : s.t.afree with
  | none =>
    rw [hfree] at hch
    have hl := free_chain_none hch
    subst hl
    left
    refine ⟨by simpa using hcnt, alloc_empty _ _ hfree⟩
  | some i =>
    rw [hfree] at hch
    obtain ⟨p, l2, hl, hi, hrest⟩ := free_chain_some hch
    subst hl
    right
    have hin : i < n := hlt i (by simp)
    have hi31 : i < 2147483648 := by omega
    have hnd2 : ((i : Int) :: (l2.map (fun j : Nat => (j : Int)) ++ s.held)).Nodup := by
      simpa using hnd
    have hnotin : (i : Int) ∉ l2.map (fun j : Nat => (j : Int)) ++ s.held :=
      (List.nodup_cons.1 hnd2).1
    have hil2 : i ∉ l2 := fun h => hnotin (by
      apply List.mem_append_left; exact List.mem_map.2 ⟨i, h, rfl⟩)
    have hheld : (i : Int) ∉ s.held := fun h => hnotin (List.mem_append_right _ h)
    have hlen2 : s.held.length < n := by simp at hcnt; omega
    have hentry : s.t.atid_entry i = .next p := by
      simp [tid_info.atid_entry, htab, hi]
    refine ⟨i, hin, hlen2, rfl, hheld, ?_, ?_, ?_⟩
    · simp [cxgbe_alloc_atid, hfree, to_int_of_nat_lt i hi31]
    · simp only [cxgbe_alloc_atid, hfree]
      rw [hc]; apply Nat.mod_eq_of_lt; omega
    · refine ⟨hb, ?_, ?_, ?_, ?_⟩
      · simp [cxgbe_alloc_atid, hfree, hnat]
      · refine ⟨tab.set i (.data d), l2, ?_, ?_, ?_, ?_, ?_, ?_⟩
        · simp [cxgbe_alloc_atid, hfree, htab]
        · simpa using hlen
        · simp only [cxgbe_alloc_atid, hfree, hentry, aopen_entry.get_next]
          exact free_chain_set hrest i _ hil2
        · have hperm : (l2.map (fun j : Nat => (j : Int)) ++ (i : Int) :: s.held).Perm
              ((i : Int) :: (l2.map (fun j : Nat => (j : Int)) ++ s.held)) :=
            List.perm_middle
          exact hperm.nodup_iff.2 hnd2
        · intro j hj; exact hlt j (by simp [hj])
        · simp at hcnt ⊢; omega
      · intro a ha
        simp at ha
        rcases ha with rfl | ha
        · omega
        · exact hr a ha
      · simp only [cxgbe_alloc_atid, hfree, List.length_cons]
        rw [hc]; apply Nat.mod_eq_of_lt; omega

theorem atid_inv_free (n : Nat) (s : atid_state) (a : Int) (hinv : atid_inv n s)
    (ha : a ∈ s.held) :
    atid_inv n ⟨cxgbe_free_atid s.t (to_uint a), s.held.erase a⟩ ∧
    (cxgbe_free_atid s.t (to_uint a)).atids_in_use + 1 = s.t.atids_in_use := by
  obtain ⟨hb, hnat, ⟨tab, l, htab, hlen, hch, hnd, hlt, hcnt⟩, hr, hc⟩ := hinv
  obtain ⟨ha0, han⟩ := hr a ha
  obtain ⟨j, rfl⟩ := Int.eq_ofNat_of_zero_le ha0
  have hjn : j < n := by omega
  have hju : to_uint (j : Int) = j := to_uint_of_nat_lt j (by omega)
  have hpos : 0 < s.held.length := List.length_pos_of_mem ha
  have hheldnd : s.held.Nodup := (List.nodup_append.1 hnd).2.1
  have hjl : j ∉ l := by
    intro h
    have hdis := (List.nodup_append.1 hnd).2.2
    exact hdis (List.mem_map.2 ⟨j, h, rfl⟩) ha
  have hcount : (s.t.atids_in_use + 4294967296 - 1) % 4294967296 = s.held.length - 1 := by
    rw [hc]
    have : s.held.length < 4294967296 := by omega
    omega
  rw [hju]
  refine ⟨⟨hb, ?_, ?_, ?_, ?_⟩, ?_⟩
  · simp [cxgbe_free_atid, hnat]
  · refine ⟨tab.set j (.next s.t.afree), j :: l, ?_, ?_, ?_, ?_, ?_, ?_⟩
    · simp [cxgbe_free_atid, htab]
    · simpa using hlen
    · refine free_chain.cons j s.t.afree l ?_ (free_chain_set hch j _ hjl)
      rw [List.getElem?_set_self (by omega)]
    · simp only [List.map_cons, List.cons_append, List.nodup_cons]
      refine ⟨?_, ?_⟩
      · intro h
        rcases List.mem_append.1 h with h | h
        · obtain ⟨x, hx, hxe⟩ := List.mem_map.1 h
          have : x = j := by exact_mod_cast hxe
          exact hjl (this ▸ hx)
        · exact (List.Nodup.mem_erase_iff hheldnd).1 h |>.1 rfl
      · exact List.Nodup.sublist
          (List.Sublist.append (List.Sublist.refl _) (List.erase_sublist _ _)) hnd
    · intro i hi
      simp at hi
      rcases hi with rfl | hi
      · exact hjn
      · exact hlt i hi
    · simp [List.length_erase_of_mem ha] at hcnt ⊢; omega
  · intro b hb2; exact hr b (List.mem_of_mem_erase hb2)
  · simp only [cxgbe_free_atid]
    rw [hcount, List.length_erase_of_mem ha]
  · simp only [cxgbe_free_atid]
    rw [hcount, hc]; omega

theorem tid_init_chain (t0 : tid_info) :
    ∃ tab, (tid_init t0 true true true).2.atid_tab = some tab ∧ tab.length = t0.natids ∧
      free_chain tab (tid_init t0 true true true).2.afree (List.range' 0 t0.natids) := by
  by_cases hn : t0.natids = 0
  · refine ⟨[], ?_, ?_, ?_⟩ <;> simp [tid_init, hn]
    exact free_chain.nil
  · refine ⟨tid_init_thread t0.natids (List.replicate t0.natids (.next none)), ?_, ?_, ?_⟩
    · simp [tid_init, hn]
    · simp [tid_init_thread_length]
    · have : (tid_init t0 true true true).2.afree = some 0 := by simp [tid_init, hn]
      rw [this]
      apply free_chain_init _ t0.natids _ _ _ (by omega) (by omega)
      intro j hj
      rw [tid_init_thread_get _ _ _ (by simp)]
      by_cases hj1 : j + 1 < t0.natids
      · simp [hj1]
      · simp [hj1, hj]

theorem atid_step_alloc_inv (n : Nat) (s : atid_state) (d : Nat) (hinv : atid_inv n s) :
    atid_inv n (atid_step s (.alloc d)) := by
  rcases atid_inv_alloc_cases n s d hinv with ⟨_, h⟩ | ⟨i, _, _, _, _, h1, _, h3⟩
  · have : atid_step s (.alloc d) = s := by simp [atid_step, h]
    rw [this]; exact hinv
  · have hne : (i : Int) ≠ -1 := by omega
    have : atid_step s (.alloc d) = ⟨(cxgbe_alloc_atid s.t d).2, (i : Int) :: s.held⟩ := by
      simp [atid_step, h1, hne]
    rw [this]; exact h3

theorem atid_inv_run (n : Nat) (ops : List atid_op) (s : atid_state) (hinv : atid_inv n s)
    (hv : atid_valid s ops) : atid_inv n (atid_run s ops) := by
  induction ops generalizing s with
  | nil => exact hinv
  | cons op ops ih =>
    cases op with
    | alloc d => exact ih _ (atid_step_alloc_inv n s d hinv) hv
    | free a => exact ih _ (atid_inv_free n s a hinv hv.1).1 hv.2

theorem atid_valid_take (ops : List atid_op) (s : atid_state) (hv : atid_valid s ops) (k : Nat) :
    atid_valid s (ops.take k) := by
  induction ops generalizing s k with
  | nil => simpa using hv
  | cons op ops ih =>
    cases k with
    | zero => exact trivial
    | succ k =>
      cases op with
      | alloc d => exact ih _ hv k
      | free a => exact ⟨hv.1, ih _ hv.2 k⟩

/-- Every state reached by a prefix of a valid call sequence on a freshly built,
driver-sized table satisfies the allocator invariant. -/
theorem atid_inv_reach (t0 t : tid_info) (a b c : Bool) (hs : t0.sized)
    (hinit : tid_init t0 a b c = (0, t)) (ops : List atid_op)
    (hv : atid_valid ⟨t, []⟩ ops) (k : Nat) :
    atid_inv t0.natids (atid_run ⟨t, []⟩ (ops.take k)) := by
  rw [tid_init_ok t0 t a b c hinit] at hv ⊢
  exact atid_inv_run _ _ _ (atid_inv_init t0 hs) (atid_valid_take _ _ hv k)

theorem alloc_many_inv (n : Nat) (ds : List Nat) (s : atid_state) (hinv : atid_inv n s)
    (hlen : s.held.length + ds.length ≤ n) :
    (∀ r ∈ (alloc_many s.t ds).1, r ≠ -1) ∧ (alloc_many s.t ds).1.length = ds.length ∧
    atid_inv n ⟨(alloc_many s.t ds).2, (alloc_many s.t ds).1.reverse ++ s.held⟩ := by
  induction ds generalizing s with
  | nil => simpa [alloc_many] using hinv
  | cons d ds ih =>
    rcases atid_inv_alloc_cases n s d hinv with ⟨h, _⟩ | ⟨i, _, _, _, _, h1, _, h3⟩
    · simp at hlen; omega
    · have := ih ⟨(cxgbe_alloc_atid s.t d).2, (i : Int) :: s.held⟩ h3
        (by simp at hlen ⊢; omega)
      obtain ⟨g1, g2, g3⟩ := this
      refine ⟨?_, ?_, ?_⟩
      · intro r hr
        simp only [alloc_many, List.mem_cons] at hr
        rcases hr with rfl | hr
        · rw [h1]; omega
        · exact g1 r hr
      · simp [alloc_many, g2]
      · simpa [alloc_many, h1] using g3

theorem alloc_many_chain (ds : List Nat) (t : tid_info) (tab : List aopen_entry) (l : List Nat)
    (htab : t.atid_tab = some tab) (hch : free_chain tab t.afree l) (hnd : l.Nodup)
    (hlt : ∀ i ∈ l, i < 2147483648) (hlen : ds.length ≤ l.length) :
    (alloc_many t ds).1 = (l.take ds.length).map (fun i : Nat => (i : Int)) := by
  induction ds generalizing t tab l with
  | nil => simp [alloc_many]
  | cons d ds ih =>
    cases hfree : t.afree with
    | none =>
      rw [hfree] at hch
      have := free_chain_none hch
      subst this; simp at hlen
    | some i =>
      rw [hfree] at hch
      obtain ⟨p, l2, hl, hi, hrest⟩ := free_chain_some hch
      subst hl
      have hi31 : i < 2147483648 := hlt i (by simp)
      have hil2 : i ∉ l2 := (List.nodup_cons.1 hnd).1
      have hentry : t.atid_entry i = .next p := by
        simp [tid_info.atid_entry, htab, hi]
      have hstep : cxgbe_alloc_atid t d = ((i : Int),
          { t with afree := p, atid_tab := some (tab.set i (.data d)),
                   atids_in_use := (t.atids_in_use + 1) % 4294967296 }) := by
        simp [cxgbe_alloc_atid, hfree, hentry, aopen_entry.get_next, htab,
          to_int_of_nat_lt i hi31]
      have := ih (cxgbe_alloc_atid t d).2
        (tab.set i (.data d)) l2 (by rw [hstep]) (by rw [hstep]; exact free_chain_set hrest i _ hil2)
        (List.nodup_cons.1 hnd).2 (fun j hj => hlt j (by simp [hj]))
        (by simp at hlen; omega)
      simp only [alloc_many, List.length_cons, List.take_succ_cons, List.map_cons]
      rw [← this, hstep]

/-! ## The active-open allocator: claims -/

/-- C1. On a table built by `tid_init`, after every prefix of a call sequence
that never releases an id it does not hold, the number of ids held is at most
`natids`; and when it equals `natids`, every allocation returns `-1` and leaves
the table as it is, so allocations keep returning `-1` until a release. -/
theorem atid_capacity (t0 t : tid_info) (a b c : Bool) (hs : t0.sized)
    (hinit : tid_init t0 a b c = (0, t)) (ops : List atid_op)
    (hv : atid_valid ⟨t, []⟩ ops) (k : Nat) :
    (atid_run ⟨t, []⟩ (ops.take k)).held.length ≤ t0.natids ∧
    ((atid_run ⟨t, []⟩ (ops.take k)).held.length = t0.natids →
      ∀ ds : List Nat, alloc_many (atid_run ⟨t, []⟩ (ops.take k)).t ds =
        (List.replicate ds.length (-1), (atid_run ⟨t, []⟩ (ops.take k)).t)) := by
  have hinv := atid_inv_reach t0 t a b c hs hinit ops hv k
  generalize atid_run ⟨t, []⟩ (ops.take k) = s at hinv ⊢
  constructor
  · obtain ⟨_, _, ⟨tab, l, _, _, _, _, _, hcnt⟩, _, _⟩ := hinv
    omega
  · intro hfull ds
    have hone : ∀ d, cxgbe_alloc_atid s.t d = (-1, s.t) := by
      intro d
      rcases atid_inv_alloc_cases _ s d hinv with ⟨_, h⟩ | ⟨i, _, hlt, _⟩
      · exact h
      · omega
    induction ds with
    | nil => rfl
    | cons d ds ih => simp [alloc_many, hone d, ih, List.replicate_succ]

theorem atid_capacity_witness :
    tid_example.sized ∧
    (atid_run ⟨(tid_init tid_example true true true).2, []⟩
      ([atid_op.alloc 1, .alloc 2, .free 0, .alloc 3].take 4)).held.length ≤ 10 :=
  ⟨by decide,
   (atid_capacity tid_example (tid_init tid_example true true true).2 true true true
      (by decide) rfl [.alloc 1, .alloc 2, .free 0, .alloc 3] (by decide) 4).1⟩

theorem list_set_getElem_self {α : Type} (l : List α) (i : Nat) (h : i < l.length) :
    l.set i (l[i]) = l := by
  apply List.ext_getElem?
  intro j
  by_cases hij : i = j
  · subst hij; simp [h]
  · simp [hij]

theorem alloc_some (t : tid_info) (p d : Nat) (hfree : t.afree = some p) :
    cxgbe_alloc_atid t d = (to_int p,
     { t with
       afree := (t.atid_entry p).get_next
       atid_tab := t.atid_tab.map (fun tab => tab.set p (.data d))
       atids_in_use := (t.atids_in_use + 1) % 4294967296 }) := by
  simp only [cxgbe_alloc_atid, hfree]

/-- C2. LIFO round trip: when the free list is not empty, an allocation followed
by the release of the returned id restores the head of the free list and the
counter; the very next allocation returns the same id. When the head entry is a
link of the table, the whole table is restored. -/
theorem atid_lifo_round_trip (t : tid_info) (p d d2 : Nat) (hfree : t.afree = some p)
    (hp : p < t.natids)
    (hn : t.natids < 4294967296) (hc : t.atids_in_use < 4294967296) :
    (cxgbe_alloc_atid t d).1 ≠ -1 ∧
    (cxgbe_alloc_atid (cxgbe_free_atid (cxgbe_alloc_atid t d).2
      (to_uint (cxgbe_alloc_atid t d).1)) d2).1 = (cxgbe_alloc_atid t d).1 ∧
    (cxgbe_free_atid (cxgbe_alloc_atid t d).2 (to_uint (cxgbe_alloc_atid t d).1)).afree
      = t.afree ∧
    (cxgbe_free_atid (cxgbe_alloc_atid t d).2 (to_uint (cxgbe_alloc_atid t d).1)).atids_in_use
      = t.atids_in_use ∧
    (∀ tab q, t.atid_tab = some tab → tab[p]? = some (.next q) →
      cxgbe_free_atid (cxgbe_alloc_atid t d).2 (to_uint (cxgbe_alloc_atid t d).1) = t) := by
  have hu : to_uint (to_int (p : Int)) = p := to_uint_to_int p (by omega)
  have hne : to_int (p : Int) ≠ -1 := by unfold to_int; omega
  have hcnt : ((t.atids_in_use + 1) % 4294967296 + 4294967296 - 1) % 4294967296
      = t.atids_in_use := by
    omega
  rw [alloc_some t p d hfree]
  simp only [hu]
  refine ⟨hne, ?_, ?_, ?_, ?_⟩
  · rw [alloc_some _ p d2 rfl]
  · rw [hfree]; rfl
  · exact hcnt
  · intro tab q htab hq
    have hlt : p < tab.length := by
      by_contra h
      rw [List.getElem?_eq_none (by omega)] at hq
      exact absurd hq (by simp)
    have hentry : t.atid_entry p = .next q := by
      simp [tid_info.atid_entry, htab, hq]
    have hget : tab[p] = .next q := by
      rw [List.getElem?_eq_getElem hlt] at hq
      exact Option.some.inj hq
    have htab2 : (tab.set p (aopen_entry.data d)).set p (.next q) = tab := by
      rw [List.set_set, ← hget, list_set_getElem_self]
    cases t
    simp only [cxgbe_free_atid] at *
    subst hfree htab
    simp only [hentry, aopen_entry.get_next, hcnt, Option.map_some', htab2]

theorem atid_lifo_round_trip_witness :
    (cxgbe_alloc_atid (tid_init tid_example true true true).2 7).1 ≠ -1 ∧
    (cxgbe_alloc_atid (cxgbe_free_atid (cxgbe_alloc_atid (tid_init tid_example true true true).2 7).2
      (to_uint (cxgbe_alloc_atid (tid_init tid_example true true true).2 7).1)) 8).1
      = (cxgbe_alloc_atid (tid_init tid_example true true true).2 7).1 :=
  ⟨(atid_lifo_round_trip (tid_init tid_example true true true).2 0 7 8 rfl (by decide)
      (by decide) (by decide)).1,
   (atid_lifo_round_trip (tid_init tid_example true true true).2 0 7 8 rfl (by decide)
      (by decide) (by decide)).2.1⟩

/-- C3. On a table freshly built by `tid_init`, `natids` consecutive allocations
all succeed and the next one returns `-1`; after the release of any one of the
ids just allocated, one further allocation succeeds and the one after it returns
`-1` again. -/
theorem atid_drain_refill (t0 t : tid_info) (a b c : Bool) (hs : t0.sized)
    (hinit : tid_init t0 a b c = (0, t)) (ds : List Nat) (hlen : ds.length = t0.natids)
    (d1 d2 d3 : Nat) :
    (alloc_many t ds).1.length = t0.natids ∧
    (∀ r ∈ (alloc_many t ds).1, r ≠ -1) ∧
    (cxgbe_alloc_atid (alloc_many t ds).2 d1).1 = -1 ∧
    (∀ r ∈ (alloc_many t ds).1,
      (cxgbe_alloc_atid (cxgbe_free_atid (alloc_many t ds).2 (to_uint r)) d2).1 ≠ -1 ∧
      (cxgbe_alloc_atid
        (cxgbe_alloc_atid (cxgbe_free_atid (alloc_many t ds).2 (to_uint r)) d2).2 d3).1 = -1) := by
  rw [tid_init_ok t0 t a b c hinit]
  have h0 := atid_inv_init t0 hs
  obtain ⟨g1, g2, g3⟩ := alloc_many_inv t0.natids ds _ h0 (by simp [hlen])
  simp only [List.append_nil] at g3
  generalize alloc_many (tid_init t0 true true true).2 ds = res at g1 g2 g3 ⊢
  have hfull : res.1.reverse.length = t0.natids := by simp [g2, hlen]
  refine ⟨by rw [g2, hlen], g1, ?_, ?_⟩
  · rcases atid_inv_alloc_cases _ _ d1 g3 with ⟨_, h⟩ | ⟨i, _, hlt, _⟩
    · simp only at h; rw [h]
    · simp only at hlt; omega
  · intro r hr
    have hr2 : r ∈ res.1.reverse := List.mem_reverse.2 hr
    obtain ⟨f1, _⟩ := atid_inv_free _ _ r g3 hr2
    simp only at f1
    have hel : (res.1.reverse.erase r).length = t0.natids - 1 := by
      rw [List.length_erase_of_mem hr2, hfull]
    have hpos : 0 < t0.natids := by
      rw [← hfull]; exact List.length_pos_of_mem hr2
    rcases atid_inv_alloc_cases _ _ d2 f1 with ⟨h, _⟩ | ⟨i, _, _, _, _, h1, _, h3⟩
    · simp only at h; omega
    · refine ⟨by rw [h1]; exact int_natCast_ne_neg_one i, ?_⟩
      clear h1
      rcases atid_inv_alloc_cases _ _ d3 h3 with ⟨_, h⟩ | ⟨j, _, hlt, _⟩
      · rw [h]
      · have hlt2 : (res.1.reverse.erase r).length + 1 < t0.natids := hlt
        omega

theorem atid_drain_refill_witness :
    tid_example.sized ∧
    (alloc_many (tid_init tid_example true true true).2 (List.replicate 10 7)).1.length = 10 ∧
    (∀ r ∈ (alloc_many (tid_init tid_example true true true).2 (List.replicate 10 7)).1, r ≠ -1) ∧
    (cxgbe_alloc_atid
      (alloc_many (tid_init tid_example true true true).2 (List.replicate 10 7)).2 7).1 = -1 := by
  have h := atid_drain_refill tid_example (tid_init tid_example true true true).2 true true true
    (by decide) rfl (List.replicate 10 7) rfl 7 7 7
  exact ⟨by decide, h.1, h.2.1, h.2.2.1⟩

/-- C4. On a table built by `tid_init`, after every prefix of a call sequence
that never releases an id it does not hold: the ids held are pairwise distinct
and lie in `[0, natids)`, and an allocation made in that state either returns
`-1` or an id in `[0, natids)` that no client holds. -/
theorem atid_range_unique (t0 t : tid_info) (a b c : Bool) (hs : t0.sized)
    (hinit : tid_init t0 a b c = (0, t)) (ops : List atid_op)
    (hv : atid_valid ⟨t, []⟩ ops) (k d : Nat) :
    (atid_run ⟨t, []⟩ (ops.take k)).held.Nodup ∧
    (∀ x ∈ (atid_run ⟨t, []⟩ (ops.take k)).held, 0 ≤ x ∧ x < t0.natids) ∧
    ((cxgbe_alloc_atid (atid_run ⟨t, []⟩ (ops.take k)).t d).1 = -1 ∨
      (0 ≤ (cxgbe_alloc_atid (atid_run ⟨t, []⟩ (ops.take k)).t d).1 ∧
       (cxgbe_alloc_atid (atid_run ⟨t, []⟩ (ops.take k)).t d).1 < t0.natids ∧
       (cxgbe_alloc_atid (atid_run ⟨t, []⟩ (ops.take k)).t d).1 ∉
         (atid_run ⟨t, []⟩ (ops.take k)).held)) := by
  have hinv := atid_inv_reach t0 t a b c hs hinit ops hv k
  generalize atid_run ⟨t, []⟩ (ops.take k) = s at hinv ⊢
  refine ⟨?_, hinv.held_range, ?_⟩
  · obtain ⟨tab, l, _, _, _, hnd, _, _⟩ := hinv.chain
    exact (List.nodup_append.1 hnd).2.1
  · rcases atid_inv_alloc_cases _ s d hinv with ⟨_, h⟩ | ⟨i, hi, _, _, hnot, h1, _, _⟩
    · left; rw [h]
    · right; rw [h1]
      exact ⟨by omega, by exact_mod_cast hi, hnot⟩

theorem atid_range_unique_witness :
    tid_example.sized ∧
    (atid_run ⟨(tid_init tid_example true true true).2, []⟩
      ([atid_op.alloc 1, .alloc 2, .free 0, .alloc 3].take 3)).held.Nodup :=
  ⟨by decide,
   (atid_range_unique tid_example (tid_init tid_example true true true).2 true true true
      (by decide) rfl [.alloc 1, .alloc 2, .free 0, .alloc 3] (by decide) 3 9).1⟩

/-- C5 (as the code behaves). A freshly built table hands its ids out in
ascending order: draining it by `natids` consecutive allocations returns
`0, 1, ..., natids - 1` in this order, so id `0` is the first id handed out and
`natids - 1` the last. -/
theorem atid_drain_order (t0 t : tid_info) (a b c : Bool) (hs : t0.sized)
    (hinit : tid_init t0 a b c = (0, t)) (ds : List Nat) (hlen : ds.length = t0.natids) :
    (alloc_many t ds).1 = (List.range t0.natids).map (fun i : Nat => (i : Int)) := by
  rw [tid_init_ok t0 t a b c hinit]
  obtain ⟨tab, htab, _, hch⟩ := tid_init_chain t0
  obtain ⟨h1, h2⟩ := hs
  have := alloc_many_chain ds _ tab _ htab hch (List.nodup_range' _ _)
    (by intro i hi; simp [List.mem_range'] at hi; omega) (by simp [hlen])
  rw [this, hlen, List.range_eq_range']
  congr 1
  rw [List.take_of_length_le (by simp)]

theorem atid_drain_order_witness :
    tid_example.sized ∧
    (alloc_many (tid_init tid_example true true true).2 (List.replicate 10 7)).1
      = [0, 1, 2, 3, 4, 5, 6, 7, 8, 9] :=
  ⟨by decide,
   atid_drain_order tid_example (tid_init tid_example true true true).2 true true true
      (by decide) rfl (List.replicate 10 7) rfl⟩

/-- C5 as stated fails: on a table with `natids = 2` the two allocations that
drain it return `0` then `1`, so the last id handed out is `1`, not `0`. -/
theorem atid_drain_last_not_zero :
    (alloc_many (tid_init { tid_info.zero with ntids := 4, natids := 2 } true true true).2
      [7, 8]).1 = [0, 1] ∧
    (alloc_many (tid_init { tid_info.zero with ntids := 4, natids := 2 } true true true).2
      [7, 8]).1.getLast? ≠ some 0 := by
  decide

/-- C6. On a table built by `tid_init`, after every prefix of a call sequence
that never releases an id it does not hold, `atids_in_use` is the number of ids
held (`0` right after `tid_init`); an allocation that returns `-1` leaves the
whole table unchanged, one that returns an id adds exactly one to the counter,
and the release of a held id subtracts exactly one. -/
theorem atid_counter (t0 t : tid_info) (a b c : Bool) (hs : t0.sized)
    (hinit : tid_init t0 a b c = (0, t)) (ops : List atid_op)
    (hv : atid_valid ⟨t, []⟩ ops) (k d : Nat) :
    t.atids_in_use = 0 ∧
    (atid_run ⟨t, []⟩ (ops.take k)).t.atids_in_use
      = (atid_run ⟨t, []⟩ (ops.take k)).held.length ∧
    ((cxgbe_alloc_atid (atid_run ⟨t, []⟩ (ops.take k)).t d).1 = -1 →
      (cxgbe_alloc_atid (atid_run ⟨t, []⟩ (ops.take k)).t d).2
        = (atid_run ⟨t, []⟩ (ops.take k)).t) ∧
    ((cxgbe_alloc_atid (atid_run ⟨t, []⟩ (ops.take k)).t d).1 ≠ -1 →
      (cxgbe_alloc_atid (atid_run ⟨t, []⟩ (ops.take k)).t d).2.atids_in_use
        = (atid_run ⟨t, []⟩ (ops.take k)).t.atids_in_use + 1) ∧
    (∀ x ∈ (atid_run ⟨t, []⟩ (ops.take k)).held,
      (cxgbe_free_atid (atid_run ⟨t, []⟩ (ops.take k)).t (to_uint x)).atids_in_use + 1
        = (atid_run ⟨t, []⟩ (ops.take k)).t.atids_in_use) := by
  have hinv := atid_inv_reach t0 t a b c hs hinit ops hv k
  have h0 : t.atids_in_use = 0 := by
    have := (atid_inv_reach t0 t a b c hs hinit [] trivial 0).count
    simpa [atid_run] using this
  generalize atid_run ⟨t, []⟩ (ops.take k) = s at hinv ⊢
  refine ⟨h0, hinv.count, ?_, ?_, ?_⟩
  · intro hfail
    rcases atid_inv_alloc_cases _ s d hinv with ⟨_, h⟩ | ⟨i, _, _, _, _, h1, _, _⟩
    · rw [h]
    · rw [h1] at hfail; omega
  · intro hok
    rcases atid_inv_alloc_cases _ s d hinv with ⟨_, h⟩ | ⟨i, _, _, _, _, _, h2, _⟩
    · rw [h] at hok; exact absurd rfl hok
    · exact h2
  · intro x hx
    exact (atid_inv_free _ s x hinv hx).2

theorem atid_counter_witness :
    tid_example.sized ∧
    (atid_run ⟨(tid_init tid_example true true true).2, []⟩
      ([atid_op.alloc 1, .alloc 2, .free 0, .alloc 3].take 3)).t.atids_in_use = 1 :=
  ⟨by decide,
   (atid_counter tid_example (tid_init tid_example true true true).2 true true true
      (by decide) rfl [.alloc 1, .alloc 2, .free 0, .alloc 3] (by decide) 3 9).2.1⟩

/-! ## Hold-off selection -/

theorem closest_step_eq (v : Int) (st : Nat × Int) (i x : Nat) (hv0 : 0 ≤ v)
    (hv : v ≤ INT_MAX) (hx : (x : Int) ≤ INT_MAX) :
    closest_step v st i x = if |(x : Int) - v| < st.2 then (i, |(x : Int) - v|) else st := by
  unfold INT_MAX at hv hx
  have habs : (if to_int (v - x) < 0 then to_int (-to_int (v - x)) else to_int (v - x))
      = |(x : Int) - v| := by
    have h1 : to_int (v - x) = v - x := by unfold to_int; omega
    rw [h1]
    by_cases hlt : v - (x : Int) < 0
    · rw [if_pos hlt]
      have : |(x : Int) - v| = x - v := abs_of_nonneg (by omega)
      rw [this]; unfold to_int; omega
    · rw [if_neg hlt]
      have : |(x : Int) - v| = -((x : Int) - v) := abs_of_nonpos (by omega)
      rw [this]; omega
  simp only [closest_step, habs]

theorem closest_scan_inv (tab : List Nat) (v : Int) (hv0 : 0 ≤ v) (hv : v ≤ INT_MAX)
    (htab : ∀ x ∈ tab, (x : Int) ≤ INT_MAX) (rest : List Nat) (i : Nat) (st : Nat × Int)
    (hsplit : ∃ pre, tab = pre ++ rest ∧ pre.length = i) (hinv : scan_inv tab v i st) :
    scan_inv tab v tab.length (closest_scan v rest i st) := by
  induction rest generalizing i st with
  | nil =>
    obtain ⟨pre, h1, h2⟩ := hsplit
    have : tab.length = i := by rw [h1]; simp [h2]
    rw [this]; exact hinv
  | cons x rest ih =>
    obtain ⟨pre, h1, h2⟩ := hsplit
    have hxi : tab.getD i 0 = x := by
      rw [h1, ← h2, List.getD_eq_getElem?_getD, List.getElem?_append_right (le_refl _)]
      simp
    have hxm : (x : Int) ≤ INT_MAX := htab x (by rw [h1]; simp)
    have hd : table_dist tab v i = |(x : Int) - v| := by
      unfold table_dist; rw [hxi]
    have hdle : |(x : Int) - v| ≤ INT_MAX := by
      unfold INT_MAX at *
      rw [abs_le]; constructor <;> omega
    apply ih (i + 1) (closest_step v st i x) ⟨pre ++ [x], by simp [h1], by simp [h2]⟩
    rw [closest_step_eq v st i x hv0 hv hxm]
    obtain ⟨p1, p2, p3, p4⟩ := hinv
    by_cases hlt : |(x : Int) - v| < st.2
    · rw [if_pos hlt]
      refine ⟨?_, ?_, ?_, ?_⟩
      · intro j hj
        by_cases hji : j = i
        · subst hji; simp only; rw [hd]
        · have := p1 j (by omega); simp only; omega
      · intro j hj
        have := p1 j hj
        simp only; omega
      · intro h; omega
      · intro _; exact ⟨by simp, by simp only; exact hd⟩
    · rw [if_neg hlt]
      refine ⟨?_, p2, ?_, ?_⟩
      · intro j hj
        by_cases hji : j = i
        · subst hji; rw [hd]; omega
        · exact p1 j (by omega)
      · intro h; omega
      · intro _
        by_cases hi0 : i = 0
        · obtain ⟨q1, q2⟩ := p3 hi0
          refine ⟨by omega, ?_⟩
          rw [q1, ← hi0, hd]; omega
        · obtain ⟨q1, q2⟩ := p4 (by omega)
          exact ⟨by omega, q2⟩

theorem closest_scan_ok (tab : List Nat) (v : Int) (hv0 : 0 ≤ v) (hv : v ≤ INT_MAX)
    (htab : ∀ x ∈ tab, (x : Int) ≤ INT_MAX) (hne : tab ≠ []) :
    closest_ok tab v (closest_scan v tab 0 (0, INT_MAX)).1 := by
  have h := closest_scan_inv tab v hv0 hv htab tab 0 (0, INT_MAX) ⟨[], by simp, rfl⟩
    ⟨by intro j hj; omega, by intro j hj; simp at hj, by intro _; exact ⟨rfl, rfl⟩,
     by intro h; omega⟩
  obtain ⟨p1, p2, _, p4⟩ := h
  have hpos : 0 < tab.length := List.length_pos.2 hne
  obtain ⟨q1, q2⟩ := p4 hpos
  refine ⟨q1, ?_, ?_⟩
  · intro j hj; rw [q2]; exact p1 j hj
  · intro j hj; rw [q2]; exact p2 j hj

theorem closest_scan_index (v : Int) (rest : List Nat) (i : Nat) (st : Nat × Int) :
    (closest_scan v rest i st).1 = st.1 ∨
    (i ≤ (closest_scan v rest i st).1 ∧ (closest_scan v rest i st).1 < i + rest.length) := by
  induction rest generalizing i st with
  | nil => left; rfl
  | cons x rest ih =>
    have hstep : (closest_step v st i x).1 = st.1 ∨ (closest_step v st i x).1 = i := by
      unfold closest_step
      simp only
      by_cases hc : (if to_int (v - ↑x) < 0 then to_int (-to_int (v - ↑x))
          else to_int (v - ↑x)) < st.2
      · right; rw [if_pos hc]
      · left; rw [if_neg hc]
    simp only [closest_scan, List.length_cons]
    rcases ih (i + 1) (closest_step v st i x) with h | ⟨h1, h2⟩
    · rcases hstep with h3 | h3
      · left; rw [h, h3]
      · right; rw [h, h3]; omega
    · right; omega

theorem closest_scan_lt (v : Int) (tab : List Nat) (n : Nat) (hn : 0 < n) (hlen : tab.length ≤ n) :
    (closest_scan v tab 0 (0, INT_MAX)).1 < n := by
  rcases closest_scan_index v tab 0 (0, INT_MAX) with h | ⟨_, h⟩
  · rw [h]; exact hn
  · omega

/-- C7 (as the code behaves). For a requested value that is a non-negative
`int`, `closest_timer` and `closest_thres` return an index of a table entry at
minimal distance from the value, and the lowest such index. -/
theorem closest_nearest (s : sge) (v : Nat) (hv : (v : Int) ≤ INT_MAX) :
    (table_ok s.timer_val → s.timer_val ≠ [] →
      ∃ i : Nat, closest_timer s (to_int v) = i ∧ closest_ok s.timer_val v i) ∧
    (table_ok s.counter_val → s.counter_val ≠ [] →
      ∃ i : Nat, closest_thres s (to_int v) = i ∧ closest_ok s.counter_val v i) := by
  have hvi : to_int (v : Int) = v := by unfold INT_MAX at hv; unfold to_int; omega
  have key : ∀ tab : List Nat, table_ok tab → tab ≠ [] →
      ∃ i : Nat, to_int (closest_scan (to_int v) tab 0 (0, INT_MAX)).1 = i ∧
        closest_ok tab v i := by
    intro tab htab hne
    rw [hvi]
    have hok := closest_scan_ok tab v (by omega) hv htab.2 hne
    refine ⟨_, ?_, hok⟩
    have h1 := hok.1
    have h2 := htab.1
    unfold INT_MAX at h2
    unfold to_int; omega
  exact ⟨key s.timer_val, key s.counter_val⟩

theorem closest_nearest_witness :
    ((7 : Nat) : Int) ≤ INT_MAX ∧ table_ok sge_example.timer_val ∧
    closest_timer sge_example (to_int (7 : Nat)) = (1 : Nat) ∧
    closest_ok sge_example.timer_val (7 : Nat) 1 := by
  obtain ⟨i, h1, h2⟩ := (closest_nearest sge_example 7 (by decide)).1 (by decide) (by decide)
  have h3 : closest_timer sge_example (to_int (7 : Nat)) = (1 : Nat) := by decide
  have h4 : i = 1 := by
    rw [h3] at h1; exact_mod_cast h1.symm
  subst h4
  exact ⟨by decide, by decide, h3, h2⟩

/-- C7 as stated fails for a requested value above `INT_MAX`: with the timer
table `[1, 5, 10, 50, 100]` and the value `3000000000`, `closest_timer` returns
index `0` (entry `1`), although entry `4` (value `100`) is strictly closer. -/
theorem closest_large_value_not_nearest :
    closest_timer sge_example (to_int (3000000000 : Nat)) = 0 ∧
    table_dist sge_example.timer_val (3000000000 : Nat) 4
      < table_dist sge_example.timer_val (3000000000 : Nat) 0 ∧
    ¬ closest_ok sge_example.timer_val (3000000000 : Nat) 0 := by
  have h1 : table_dist sge_example.timer_val (3000000000 : Nat) 4 = 2999999900 := by
    simp [table_dist, sge_example]
  have h2 : table_dist sge_example.timer_val (3000000000 : Nat) 0 = 2999999999 := by
    simp [table_dist, sge_example]
  refine ⟨by decide, by rw [h1, h2]; decide, ?_⟩
  intro h
  have := h.2.1 4 (by decide)
  rw [h1, h2] at this
  exact absurd this (by decide)

theorem nat_lor_eq_zero (a b : Nat) (h : a ||| b = 0) : a = 0 ∧ b = 0 := by
  have hbit : ∀ i, a.testBit i = false ∧ b.testBit i = false := by
    intro i
    have := congrArg (fun n => Nat.testBit n i) h
    simpa [Nat.testBit_or] using this
  exact ⟨Nat.eq_of_testBit_eq (fun i => by simp [(hbit i).1]),
         Nat.eq_of_testBit_eq (fun i => by simp [(hbit i).2])⟩

/-- C8. For every queue, every adapter (so every content of the timer and
threshold tables) and every behaviour of the firmware,
`cxgb4_set_rspq_intr_params(q, 0, 0)` returns `0`, stores exactly
`V_QINTR_TIMER_IDX(X_TIMERREG_UPDATE_CIDX)` in `intr_params` (counter-enable bit
clear), issues no firmware command, and changes no other field of the queue, in
particular not `pktcnt_idx`. -/
theorem set_rspq_intr_params_zero (adap : adapter) (fw : fw_set_params → Int) (q : sge_rspq) :
    (cxgb4_set_rspq_intr_params adap fw q 0 0).1 = 0 ∧
    (cxgb4_set_rspq_intr_params adap fw q 0 0).2.1.intr_params
      = V_QINTR_TIMER_IDX X_TIMERREG_UPDATE_CIDX ∧
    (cxgb4_set_rspq_intr_params adap fw q 0 0).2.1.intr_params &&& F_QINTR_CNT_EN = 0 ∧
    (∀ cmd, rspq_event.set_params cmd ∉ (cxgb4_set_rspq_intr_params adap fw q 0 0).2.2) ∧
    (cxgb4_set_rspq_intr_params adap fw q 0 0).2.1.pktcnt_idx = q.pktcnt_idx ∧
    (cxgb4_set_rspq_intr_params adap fw q 0 0).2.1
      = { q with intr_params := V_QINTR_TIMER_IDX X_TIMERREG_UPDATE_CIDX } := by
  have hw : rspq_intr_params_word adap 0 0 = V_QINTR_TIMER_IDX X_TIMERREG_UPDATE_CIDX := by
    simp only [rspq_intr_params_word, Nat.zero_or, if_true]
    decide
  have h : cxgb4_set_rspq_intr_params adap fw q 0 0
      = (0, { q with intr_params := V_QINTR_TIMER_IDX X_TIMERREG_UPDATE_CIDX },
         [.store_intr_params (V_QINTR_TIMER_IDX X_TIMERREG_UPDATE_CIDX)]) := by
    simp [cxgb4_set_rspq_intr_params, hw]
  rw [h]
  have hbit : V_QINTR_TIMER_IDX X_TIMERREG_UPDATE_CIDX &&& F_QINTR_CNT_EN = 0 := by decide
  refine ⟨rfl, rfl, hbit, ?_, rfl, rfl⟩
  intro cmd hmem
  simp at hmem

theorem timer_idx_encoding (i b : Nat) (hi : i ≤ 7) (hb : b ≤ 1) :
    G_QINTR_TIMER_IDX ((V_QINTR_TIMER_IDX i ||| V_QINTR_CNT_EN b) % 256) = i ∧
    ((V_QINTR_TIMER_IDX i ||| V_QINTR_CNT_EN b) % 256) &&& F_QINTR_CNT_EN = b := by
  interval_cases i <;> interval_cases b <;> decide

/-- The queue `cxgb4_set_rspq_intr_params` leaves behind when it returns `0`. -/
theorem set_rspq_intr_params_success (adap : adapter) (fw : fw_set_params → Int) (q : sge_rspq)
    (us cnt : Nat) (hret : (cxgb4_set_rspq_intr_params adap fw q us cnt).1 = 0) :
    (cxgb4_set_rspq_intr_params adap fw q us cnt).2.1 =
      { q with
        pktcnt_idx :=
          if cnt ≠ 0 then to_uint (closest_thres adap.sge (to_int cnt)) % 256 else q.pktcnt_idx
        intr_params := rspq_intr_params_word adap us cnt } := by
  unfold cxgb4_set_rspq_intr_params at hret ⊢
  by_cases hc : cnt = 0
  · simp only [hc, ne_eq, not_true_eq_false, if_false]
  · simp only [ne_eq, hc, not_false_eq_true, if_true] at hret ⊢
    by_cases hissue : q.desc = true ∧
        ¬ q.pktcnt_idx = to_uint (closest_thres adap.sge (to_int cnt))
    · rw [if_pos hissue] at hret ⊢
      by_cases herr : fw (rspq_threshold_cmd adap q
          (to_uint (closest_thres adap.sge (to_int cnt)))) = 0
      · simp only [herr, not_true_eq_false, if_false]
      · simp only [herr, not_false_eq_true, if_true] at hret
    · rw [if_neg hissue]

/-- C9. When `cxgb4_set_rspq_intr_params` returns `0` for a request `(us, cnt)`
that is not `(0, 0)`: the timer index encoded in `intr_params` is
`closest_timer(us)` for `us != 0` and `X_TIMERREG_RESTART_COUNTER` for `us == 0`;
`pktcnt_idx` is `closest_thres(cnt)` for `cnt != 0` and is left as it was for
`cnt == 0`; and the counter-enable flag of `intr_params` is set exactly when
`cnt > 0`. The tables have at most 8 timers (the timer index field is 3 bits
wide) and at most 256 thresholds (`pktcnt_idx` is a `u8`). -/
theorem set_rspq_intr_params_encoding (adap : adapter) (fw : fw_set_params → Int)
    (q : sge_rspq) (us cnt : Nat) (hnz : ¬ (us = 0 ∧ cnt = 0))
    (hnt : adap.sge.timer_val.length ≤ 8) (hnc : adap.sge.counter_val.length ≤ 256)
    (hret : (cxgb4_set_rspq_intr_params adap fw q us cnt).1 = 0) :
    ((G_QINTR_TIMER_IDX (cxgb4_set_rspq_intr_params adap fw q us cnt).2.1.intr_params : Int)
      = if us ≠ 0 then closest_timer adap.sge (to_int us) else X_TIMERREG_RESTART_COUNTER) ∧
    (((cxgb4_set_rspq_intr_params adap fw q us cnt).2.1.pktcnt_idx : Int)
      = if cnt ≠ 0 then closest_thres adap.sge (to_int cnt) else q.pktcnt_idx) ∧
    ((cxgb4_set_rspq_intr_params adap fw q us cnt).2.1.intr_params &&& F_QINTR_CNT_EN ≠ 0
      ↔ 0 < cnt) := by
  rw [set_rspq_intr_params_success adap fw q us cnt hret]
  simp only
  have hor : ¬ (us ||| cnt = 0) := fun h => hnz (nat_lor_eq_zero us cnt h)
  have ht := closest_scan_lt (to_int us) adap.sge.timer_val 8 (by decide) hnt
  have hc := closest_scan_lt (to_int cnt) adap.sge.counter_val 256 (by decide) hnc
  have htu : to_uint (closest_timer adap.sge (to_int us))
      = (closest_scan (to_int us) adap.sge.timer_val 0 (0, INT_MAX)).1 := by
    unfold closest_timer; exact to_uint_to_int _ (by omega)
  have hti : closest_timer adap.sge (to_int us)
      = ((closest_scan (to_int us) adap.sge.timer_val 0 (0, INT_MAX)).1 : Nat) := by
    unfold closest_timer; exact to_int_of_nat_lt _ (by omega)
  have hcu : to_uint (closest_thres adap.sge (to_int cnt))
      = (closest_scan (to_int cnt) adap.sge.counter_val 0 (0, INT_MAX)).1 := by
    unfold closest_thres; exact to_uint_to_int _ (by omega)
  have hci : closest_thres adap.sge (to_int cnt)
      = ((closest_scan (to_int cnt) adap.sge.counter_val 0 (0, INT_MAX)).1 : Nat) := by
    unfold closest_thres; exact to_int_of_nat_lt _ (by omega)
  have hb : (if cnt > 0 then 1 else 0) ≤ 1 := by split <;> omega
  have hidx : (if us = 0 then X_TIMERREG_RESTART_COUNTER
      else to_uint (closest_timer adap.sge (to_int us))) ≤ 7 := by
    split
    · decide
    · rw [htu]; omega
  obtain ⟨e1, e2⟩ := timer_idx_encoding _ _ hidx hb
  have hword : rspq_intr_params_word adap us cnt
      = (V_QINTR_TIMER_IDX (if us = 0 then X_TIMERREG_RESTART_COUNTER
          else to_uint (closest_timer adap.sge (to_int us))) |||
         V_QINTR_CNT_EN (if cnt > 0 then 1 else 0)) % 256 := by
    simp only [rspq_intr_params_word, hor, if_false]
  rw [hword, e1, e2]
  refine ⟨?_, ?_, ?_⟩
  · by_cases hus : us = 0
    · simp [hus]
    · simp only [hus, if_false, ne_eq, not_false_eq_true, if_true]
      rw [htu, hti]
  · by_cases hcz : cnt = 0
    · simp [hcz]
    · simp only [hcz, ne_eq, not_false_eq_true, if_true]
      rw [hcu, hci, Nat.mod_eq_of_lt hc]
  · by_cases hcz : cnt = 0
    · simp [hcz]
    · have : 0 < cnt := Nat.pos_of_ne_zero hcz
      simp [this]

theorem set_rspq_intr_params_encoding_witness :
    ¬ ((5 : Nat) = 0 ∧ (32 : Nat) = 0) ∧
    (cxgb4_set_rspq_intr_params adapter_example (fun _ => 0) rspq_example 5 32).1 = 0 ∧
    ((G_QINTR_TIMER_IDX
      (cxgb4_set_rspq_intr_params adapter_example (fun _ => 0) rspq_example 5 32).2.1.intr_params
        : Int) = 1) ∧
    (((cxgb4_set_rspq_intr_params adapter_example (fun _ => 0) rspq_example 5 32).2.1.pktcnt_idx
        : Int) = 3) :=
  ⟨by decide, by decide,
   (set_rspq_intr_params_encoding adapter_example (fun _ => 0) rspq_example 5 32 (by decide)
      (by decide) (by decide) (by decide)).1,
   (set_rspq_intr_params_encoding adapter_example (fun _ => 0) rspq_example 5 32 (by decide)
      (by decide) (by decide) (by decide)).2.1⟩

/-- C10. In `cxgb4_set_rspq_intr_params` with `cnt != 0`, let `new_idx` be
`closest_thres(cnt)`. A firmware parameter-set command is issued exactly when the
queue exists (`desc` set) and `new_idx` differs from the stored `pktcnt_idx`; it
is the single command issued, it carries `new_idx`, and it is the first event,
before any store into the queue. If that command fails, its error code is
returned, nothing is stored, and the queue is unchanged. -/
theorem set_rspq_intr_params_all_or_nothing (adap : adapter) (fw : fw_set_params → Int)
    (q : sge_rspq) (us cnt : Nat) (hcnt : cnt ≠ 0) :
    ((∃ cmd, rspq_event.set_params cmd ∈ (cxgb4_set_rspq_intr_params adap fw q us cnt).2.2) ↔
      (q.desc = true ∧ q.pktcnt_idx ≠ to_uint (closest_thres adap.sge (to_int cnt)))) ∧
    (∃ stores : List rspq_event,
      (∀ e ∈ stores, ∀ cmd, e ≠ rspq_event.set_params cmd) ∧
      (cxgb4_set_rspq_intr_params adap fw q us cnt).2.2 =
        (if q.desc = true ∧ q.pktcnt_idx ≠ to_uint (closest_thres adap.sge (to_int cnt)) then
          [rspq_event.set_params (rspq_threshold_cmd adap q
            (to_uint (closest_thres adap.sge (to_int cnt))))]
         else []) ++ stores) ∧
    (rspq_threshold_cmd adap q (to_uint (closest_thres adap.sge (to_int cnt)))).val
      = to_uint (closest_thres adap.sge (to_int cnt)) ∧
    (q.desc = true → q.pktcnt_idx ≠ to_uint (closest_thres adap.sge (to_int cnt)) →
      fw (rspq_threshold_cmd adap q (to_uint (closest_thres adap.sge (to_int cnt)))) ≠ 0 →
      cxgb4_set_rspq_intr_params adap fw q us cnt =
        (fw (rspq_threshold_cmd adap q (to_uint (closest_thres adap.sge (to_int cnt)))), q,
         [rspq_event.set_params (rspq_threshold_cmd adap q
            (to_uint (closest_thres adap.sge (to_int cnt))))])) := by
  generalize hidx : to_uint (closest_thres adap.sge (to_int cnt)) = new_idx
  have hdef : cxgb4_set_rspq_intr_params adap fw q us cnt =
      if q.desc = true ∧ q.pktcnt_idx ≠ new_idx then
        if fw (rspq_threshold_cmd adap q new_idx) ≠ 0 then
          (fw (rspq_threshold_cmd adap q new_idx), q,
            [.set_params (rspq_threshold_cmd adap q new_idx)])
        else
          (0, { q with pktcnt_idx := new_idx % 256,
                       intr_params := rspq_intr_params_word adap us cnt },
           [.set_params (rspq_threshold_cmd adap q new_idx),
            .store_pktcnt_idx (new_idx % 256),
            .store_intr_params (rspq_intr_params_word adap us cnt)])
      else
        (0, { q with pktcnt_idx := new_idx % 256,
                     intr_params := rspq_intr_params_word adap us cnt },
         [.store_pktcnt_idx (new_idx % 256),
          .store_intr_params (rspq_intr_params_word adap us cnt)]) := by
    unfold cxgb4_set_rspq_intr_params
    simp only [hcnt, ne_eq, not_false_eq_true, if_true, hidx]
  rw [hdef]
  by_cases hissue : q.desc = true ∧ q.pktcnt_idx ≠ new_idx
  · simp only [if_pos hissue]
    by_cases herr : fw (rspq_threshold_cmd adap q new_idx) ≠ 0
    · simp only [if_pos herr]
      refine ⟨⟨fun _ => hissue, fun _ => ⟨_, List.mem_singleton.2 rfl⟩⟩, ⟨[], ?_, rfl⟩, rfl, ?_⟩
      · intro e he; simp at he
      · intro _ _ _; trivial
    · simp only [if_neg herr]
      refine ⟨⟨fun _ => hissue, fun _ => ⟨_, List.mem_cons_self _ _⟩⟩,
        ⟨[.store_pktcnt_idx (new_idx % 256),
          .store_intr_params (rspq_intr_params_word adap us cnt)], ?_, rfl⟩, rfl, ?_⟩
      · intro e he cmd
        simp at he
        rcases he with rfl | rfl <;> simp
      · intro _ _ h; exact absurd h herr
  · simp only [if_neg hissue]
    refine ⟨⟨?_, fun h => absurd h hissue⟩,
      ⟨[.store_pktcnt_idx (new_idx % 256),
        .store_intr_params (rspq_intr_params_word adap us cnt)], ?_, rfl⟩, rfl, ?_⟩
    · rintro ⟨cmd, hmem⟩
      simp at hmem
    · intro e he cmd
      simp at he
      rcases he with rfl | rfl <;> simp
    · intro h1 h2 _; exact absurd ⟨h1, h2⟩ hissue

theorem set_rspq_intr_params_all_or_nothing_witness :
    (32 : Nat) ≠ 0 ∧
    cxgb4_set_rspq_intr_params adapter_example (fun _ => -5) rspq_example 5 32 =
      (-5, rspq_example,
       [rspq_event.set_params (rspq_threshold_cmd adapter_example rspq_example 3)]) :=
  ⟨by decide,
   (set_rspq_intr_params_all_or_nothing adapter_example (fun _ => -5) rspq_example 5 32
      (by decide)).2.2.2 rfl (by decide) (by decide)⟩

/-! ## Connection TIDs: claims -/

theorem tid_slot_set_self (t : tid_info) (tab : List (Option Nat)) (tid : Nat) (v : Option Nat)
    (htab : t.tid_tab = some tab) (htid : tid < tab.length) :
    (t.set_tid_slot tid v).tid_slot tid = v := by
  simp [tid_info.set_tid_slot, tid_info.tid_slot, htab, htid]

theorem tid_slot_set_ne (t : tid_info) (tid j : Nat) (v : Option Nat) (hj : j ≠ tid) :
    (t.set_tid_slot tid v).tid_slot j = t.tid_slot j := by
  cases htab : t.tid_tab with
  | none => simp [tid_info.set_tid_slot, tid_info.tid_slot, htab]
  | some tab =>
    simp [tid_info.set_tid_slot, tid_info.tid_slot, htab, List.getElem?_set_ne (Ne.symm hj)]

/-- C14. For a table with `ntids` slots and `tid < ntids`, `cxgbe_insert_tid`
stores `data` in slot `tid`, adds exactly one to `conns_in_use`, adds exactly one
to the counter of the slot's region when the family is IPv4
(`hash_tids_in_use` if `hash_base != 0` and `tid >= hash_base`, `tids_in_use`
otherwise) and to no family counter otherwise, and leaves every other slot, the
active-open table, its free list and its counter as they were. -/
theorem insert_tid_effect (t : tid_info) (tab : List (Option Nat)) (data : Option Nat)
    (tid family : Nat) (htab : t.tid_tab = some tab) (hlen : tab.length = t.ntids)
    (htid : tid < t.ntids) :
    (cxgbe_insert_tid t data tid family).tid_slot tid = data ∧
    (cxgbe_insert_tid t data tid family).conns_in_use = t.conns_in_use + 1 ∧
    (cxgbe_insert_tid t data tid family).hash_tids_in_use =
      t.hash_tids_in_use + (if family = FILTER_TYPE_IPV4 ∧ t.in_hash tid = true then 1 else 0) ∧
    (cxgbe_insert_tid t data tid family).tids_in_use =
      t.tids_in_use + (if family = FILTER_TYPE_IPV4 ∧ t.in_hash tid = false then 1 else 0) ∧
    (∀ j, j ≠ tid → (cxgbe_insert_tid t data tid family).tid_slot j = t.tid_slot j) ∧
    (cxgbe_insert_tid t data tid family).atid_tab = t.atid_tab ∧
    (cxgbe_insert_tid t data tid family).afree = t.afree ∧
    (cxgbe_insert_tid t data tid family).atids_in_use = t.atids_in_use := by
  have hself := tid_slot_set_self t tab tid data htab (by omega)
  have hne := fun j (hj : j ≠ tid) => tid_slot_set_ne t tid j data hj
  have hh : (t.set_tid_slot tid data).in_hash tid = t.in_hash tid := rfl
  unfold cxgbe_insert_tid
  simp only [hh]
  by_cases hf : family = FILTER_TYPE_IPV4 <;> cases hin : t.in_hash tid <;>
    simp [hf, hin, rte_atomic32_inc, tid_info.tid_slot, tid_info.set_tid_slot] at hself hne ⊢ <;>
    exact ⟨hself, hne⟩


theorem insert_tid_effect_witness :
    tid_example.ntids = 100 ∧
    (cxgbe_insert_tid (tid_init tid_example true true true).2 (some 7) 85 FILTER_TYPE_IPV4).tid_slot 85
      = some 7 ∧
    (cxgbe_insert_tid (tid_init tid_example true true true).2 (some 7) 85
      FILTER_TYPE_IPV4).hash_tids_in_use = 1 := by
  have h := insert_tid_effect (tid_init tid_example true true true).2 (List.replicate 100 none)
    (some 7) 85 FILTER_TYPE_IPV4 rfl rfl (by decide)
  exact ⟨rfl, h.1, h.2.2.1⟩

/-- C15. For a table with `ntids` slots and `tid < ntids`: `cxgbe_remove_tid` on
an occupied slot empties the slot, subtracts one from `conns_in_use` and, for
IPv4, one from the counter of the slot's region, leaving every other slot as it
was; on an empty slot it leaves the whole table, slots and counters, as it was.
The function returns nothing, so no error is reported. -/
theorem remove_tid_effect (t : tid_info) (tab : List (Option Nat)) (chan tid family : Nat)
    (mbuf_ok : Bool) (htab : t.tid_tab = some tab) (hlen : tab.length = t.ntids)
    (htid : tid < t.ntids) :
    ((t.tid_slot tid).isSome = true →
      (cxgbe_remove_tid t chan tid family mbuf_ok).1.tid_slot tid = none ∧
      (cxgbe_remove_tid t chan tid family mbuf_ok).1.conns_in_use = t.conns_in_use - 1 ∧
      (cxgbe_remove_tid t chan tid family mbuf_ok).1.hash_tids_in_use =
        t.hash_tids_in_use -
          (if family = FILTER_TYPE_IPV4 ∧ t.in_hash tid = true then 1 else 0) ∧
      (cxgbe_remove_tid t chan tid family mbuf_ok).1.tids_in_use =
        t.tids_in_use -
          (if family = FILTER_TYPE_IPV4 ∧ t.in_hash tid = false then 1 else 0) ∧
      (∀ j, j ≠ tid →
        (cxgbe_remove_tid t chan tid family mbuf_ok).1.tid_slot j = t.tid_slot j)) ∧
    (t.tid_slot tid = none → (cxgbe_remove_tid t chan tid family mbuf_ok).1 = t) := by
  have hself := tid_slot_set_self t tab tid none htab (by omega)
  have hne := fun j (hj : j ≠ tid) => tid_slot_set_ne t tid j none hj
  have hh : (t.set_tid_slot tid none).in_hash tid = t.in_hash tid := rfl
  constructor
  · intro hocc
    unfold cxgbe_remove_tid
    simp only [hocc, if_true]
    have hh2 : ({ t.set_tid_slot tid none with
        conns_in_use := rte_atomic32_dec (t.set_tid_slot tid none).conns_in_use } : tid_info).in_hash
          tid = t.in_hash tid := rfl
    simp only [hh2]
    by_cases hf : family = FILTER_TYPE_IPV4 <;> cases hin : t.in_hash tid <;>
      simp [hf, hin, rte_atomic32_dec, tid_info.tid_slot, tid_info.set_tid_slot] at hself hne ⊢ <;>
      exact ⟨hself, hne⟩
  · intro hempty
    unfold cxgbe_remove_tid
    simp [hempty]

theorem remove_tid_effect_witness :
    tid_example.ntids = 100 ∧
    (cxgbe_remove_tid (tid_init tid_example true true true).2 0 85 FILTER_TYPE_IPV4 true).1
      = (tid_init tid_example true true true).2 := by
  have h := remove_tid_effect (tid_init tid_example true true true).2 (List.replicate 100 none)
    0 85 FILTER_TYPE_IPV4 true rfl rfl (by decide)
  exact ⟨rfl, h.2 rfl⟩

/-- C16. Whether or not the slot was occupied, `cxgbe_remove_tid` transmits
exactly one message, the `CPL_TID_RELEASE` naming `tid`, on control queue `chan`
when the message buffer allocation succeeds, and transmits nothing when it
fails; the table afterwards is the same in both cases. -/
theorem remove_tid_notification (t : tid_info) (chan tid family : Nat) :
    (cxgbe_remove_tid t chan tid family true).2 = [{ chan := chan, msg := .tid_release tid }] ∧
    (cxgbe_remove_tid t chan tid family false).2 = [] ∧
    (cxgbe_remove_tid t chan tid family true).1 = (cxgbe_remove_tid t chan tid family false).1 := by
  refine ⟨rfl, rfl, rfl⟩

theorem countP_range_update (p q : Nat → Bool) (i : Nat)
    (h : ∀ j, j ≠ i → q j = true → p j = true) (N : Nat) :
    (List.range N).countP q + (if i < N ∧ p i = true then 1 else 0) ≤
      (List.range N).countP p + (if i < N ∧ q i = true then 1 else 0) := by
  induction N with
  | zero => simp
  | succ n ih =>
    rw [List.range_succ, List.countP_append, List.countP_append, List.countP_singleton,
      List.countP_singleton]
    by_cases hin : i = n
    · subst hin
      have h1 : ¬ (i < i) := by omega
      simp only [h1, false_and, if_false] at ih
      have h2 : i < i + 1 := by omega
      simp only [h2, true_and]
      cases hp : p i <;> cases hq : q i <;> simp <;> omega
    · have hlt : i < n + 1 ↔ i < n := by
        constructor <;> intro h3 <;> omega
      simp only [hlt]
      have hqp := h n (Ne.symm hin)
      cases hq : q n
      · cases hp : p n <;> simp <;> omega
      · have hp : p n = true := hqp hq
        simp [hp]; omega

theorem countP_range_mono (p q : Nat → Bool) (h : ∀ j, q j = true → p j = true) (N : Nat) :
    (List.range N).countP q ≤ (List.range N).countP p :=
  List.countP_mono_left (fun j _ hj => h j hj)

theorem insert_tid_eq (t : tid_info) (data : Option Nat) (tid family : Nat) :
    cxgbe_insert_tid t data tid family =
      { t.set_tid_slot tid data with
        hash_tids_in_use := t.hash_tids_in_use +
          (if family = FILTER_TYPE_IPV4 ∧ t.in_hash tid = true then 1 else 0)
        tids_in_use := t.tids_in_use +
          (if family = FILTER_TYPE_IPV4 ∧ t.in_hash tid = false then 1 else 0)
        conns_in_use := t.conns_in_use + 1 } := by
  have hh : (t.set_tid_slot tid data).in_hash tid = t.in_hash tid := rfl
  unfold cxgbe_insert_tid
  simp only [hh]
  by_cases hf : family = FILTER_TYPE_IPV4 <;> cases hin : t.in_hash tid <;>
    simp [hf, hin, rte_atomic32_inc, tid_info.set_tid_slot]

theorem remove_tid_eq_occupied (t : tid_info) (chan tid family : Nat) (mbuf_ok : Bool)
    (hocc : (t.tid_slot tid).isSome = true) :
    (cxgbe_remove_tid t chan tid family mbuf_ok).1 =
      { t.set_tid_slot tid none with
        hash_tids_in_use := t.hash_tids_in_use -
          (if family = FILTER_TYPE_IPV4 ∧ t.in_hash tid = true then 1 else 0)
        tids_in_use := t.tids_in_use -
          (if family = FILTER_TYPE_IPV4 ∧ t.in_hash tid = false then 1 else 0)
        conns_in_use := t.conns_in_use - 1 } := by
  have hh : (t.set_tid_slot tid none).in_hash tid = t.in_hash tid := rfl
  unfold cxgbe_remove_tid
  simp only [hocc, if_true]
  have hh2 : ({ t.set_tid_slot tid none with
      conns_in_use := rte_atomic32_dec (t.set_tid_slot tid none).conns_in_use } : tid_info).in_hash
        tid = t.in_hash tid := rfl
  simp only [hh2]
  by_cases hf : family = FILTER_TYPE_IPV4 <;> cases hin : t.in_hash tid <;>
    simp [hf, hin, rte_atomic32_dec, tid_info.set_tid_slot]

theorem remove_tid_eq_empty (t : tid_info) (chan tid family : Nat) (mbuf_ok : Bool)
    (hempty : t.tid_slot tid = none) :
    (cxgbe_remove_tid t chan tid family mbuf_ok).1 = t := by
  unfold cxgbe_remove_tid
  simp [hempty]

theorem tid_slot_set_none (t : tid_info) (tid : Nat) :
    (t.set_tid_slot tid none).tid_slot tid = none := by
  cases htab : t.tid_tab with
  | none => simp [tid_info.set_tid_slot, tid_info.tid_slot, htab]
  | some tab =>
    by_cases h : tid < tab.length
    · simp [tid_info.set_tid_slot, tid_info.tid_slot, htab, h]
    · have : (tab.set tid none)[tid]? = none :=
        List.getElem?_eq_none (by simp; omega)
      simp [tid_info.set_tid_slot, tid_info.tid_slot, htab, this]

theorem tid_slot_lt (t : tid_info) (tid : Nat) (h : (t.tid_slot tid).isSome = true) :
    tid < (t.tid_tab.getD []).length := by
  by_contra hlt
  have : t.tid_slot tid = none := by
    unfold tid_info.tid_slot
    rw [List.getElem?_eq_none (by omega)]; rfl
  rw [this] at h; exact absurd h (by simp)

theorem set_tid_slot_length (t : tid_info) (tid : Nat) (v : Option Nat) :
    ((t.set_tid_slot tid v).tid_tab.getD []).length = (t.tid_tab.getD []).length := by
  cases htab : t.tid_tab with
  | none => simp [tid_info.set_tid_slot, htab]
  | some tab => simp [tid_info.set_tid_slot, htab]


theorem in_hash_set_tid_slot (t : tid_info) (tid : Nat) (v : Option Nat) (j : Nat) :
    (t.set_tid_slot tid v).in_hash j = t.in_hash j := rfl

theorem ipv4_count_step (t t2 : tid_info) (fam fam2 : Nat → Option Nat) (tid : Nat) (b : Bool)
    (hlen : (t2.tid_tab.getD []).length = (t.tid_tab.getD []).length)
    (hslot : ∀ j, j ≠ tid → t2.tid_slot j = t.tid_slot j)
    (hfam : ∀ j, j ≠ tid → fam2 j = fam j)
    (hhash : ∀ j, t2.in_hash j = t.in_hash j) :
    ipv4_count t2 fam2 b ≤ ipv4_count t fam b + 1 ∧
    (ipv4_slot t2 fam2 b tid = false → ipv4_count t2 fam2 b ≤ ipv4_count t fam b) ∧
    (ipv4_slot t2 fam2 b tid = false → ipv4_slot t fam b tid = true →
      tid < (t.tid_tab.getD []).length → ipv4_count t2 fam2 b + 1 ≤ ipv4_count t fam b) := by
  have hne : ∀ j, j ≠ tid → ipv4_slot t2 fam2 b j = true → ipv4_slot t fam b j = true := by
    intro j hj hq
    unfold ipv4_slot at hq ⊢
    rw [hslot j hj, hfam j hj, hhash j] at hq
    exact hq
  have hupd := countP_range_update (ipv4_slot t fam b) (ipv4_slot t2 fam2 b) tid hne
    (t.tid_tab.getD []).length
  unfold ipv4_count
  rw [hlen]
  refine ⟨?_, ?_, ?_⟩
  · have h2 : (if tid < (t.tid_tab.getD []).length ∧ ipv4_slot t2 fam2 b tid = true
        then 1 else 0) ≤ 1 := by split <;> omega
    omega
  · intro hq
    simp only [hq, Bool.false_eq_true, and_false, if_false] at hupd
    omega
  · intro hq hp hlt
    simp only [hq, hp, hlt, Bool.false_eq_true, and_false, and_self, if_false, if_true] at hupd
    omega

theorem tid_counter_inv_insert (t : tid_info) (fam : Nat → Option Nat) (data : Option Nat)
    (tid family : Nat) (hinv : tid_counter_inv t fam) :
    tid_counter_inv (cxgbe_insert_tid t data tid family)
      (tid_family_step fam (.insert data tid family)) := by
  obtain ⟨hk, hg, hh⟩ := hinv
  have hlen : ((cxgbe_insert_tid t data tid family).tid_tab.getD []).length
      = (t.tid_tab.getD []).length := by
    rw [insert_tid_eq]; exact set_tid_slot_length t tid data
  have hslot : ∀ j, j ≠ tid → (cxgbe_insert_tid t data tid family).tid_slot j = t.tid_slot j := by
    intro j hj; rw [insert_tid_eq]; exact tid_slot_set_ne t tid j data hj
  have hhash : ∀ j, (cxgbe_insert_tid t data tid family).in_hash j = t.in_hash j := by
    intro j; rw [insert_tid_eq]; rfl
  have hfam : ∀ j, j ≠ tid → tid_family_step fam (.insert data tid family) j = fam j := by
    intro j hj; simp [tid_family_step, hj]
  have hfs : tid_family_step fam (.insert data tid family) tid = some family := by
    simp [tid_family_step]
  have hcg : (cxgbe_insert_tid t data tid family).tids_in_use = t.tids_in_use +
      (if family = FILTER_TYPE_IPV4 ∧ t.in_hash tid = false then 1 else 0) := by
    rw [insert_tid_eq]
  have hch : (cxgbe_insert_tid t data tid family).hash_tids_in_use = t.hash_tids_in_use +
      (if family = FILTER_TYPE_IPV4 ∧ t.in_hash tid = true then 1 else 0) := by
    rw [insert_tid_eq]
  have hself : ∀ b, ¬ (family = FILTER_TYPE_IPV4 ∧ t.in_hash tid = b) →
      ipv4_slot (cxgbe_insert_tid t data tid family)
        (tid_family_step fam (.insert data tid family)) b tid = false := by
    intro b hnot
    unfold ipv4_slot
    rw [hfs, hhash]
    by_cases hf : family = FILTER_TYPE_IPV4
    · have : t.in_hash tid ≠ b := fun h => hnot ⟨hf, h⟩
      simp [this]
    · simp [hf]
  generalize cxgbe_insert_tid t data tid family = t2 at *
  generalize tid_family_step fam (.insert data tid family) = fam2 at *
  refine ⟨?_, ?_, ?_⟩
  · intro i hi
    by_cases hit : i = tid
    · subst hit; rw [hfs]; simp
    · rw [hfam i hit]; apply hk; rw [← hslot i hit]; exact hi
  · obtain ⟨s1, s2, _⟩ := ipv4_count_step t t2 fam fam2 tid false hlen hslot hfam hhash
    rw [hcg]
    by_cases hc : family = FILTER_TYPE_IPV4 ∧ t.in_hash tid = false
    · rw [if_pos hc]; omega
    · rw [if_neg hc]
      have := s2 (hself false hc)
      omega
  · obtain ⟨s1, s2, _⟩ := ipv4_count_step t t2 fam fam2 tid true hlen hslot hfam hhash
    rw [hch]
    by_cases hc : family = FILTER_TYPE_IPV4 ∧ t.in_hash tid = true
    · rw [if_pos hc]; omega
    · rw [if_neg hc]
      have := s2 (hself true hc)
      omega

theorem tid_counter_inv_remove (t : tid_info) (fam : Nat → Option Nat) (chan tid family : Nat)
    (mbuf_ok : Bool) (hinv : tid_counter_inv t fam)
    (hm : fam tid = some family ∨ fam tid = none) :
    tid_counter_inv (cxgbe_remove_tid t chan tid family mbuf_ok).1
      (tid_family_step fam (.remove chan tid family mbuf_ok)) := by
  obtain ⟨hk, hg, hh⟩ := hinv
  have hfam : ∀ j, j ≠ tid → tid_family_step fam (.remove chan tid family mbuf_ok) j = fam j := by
    intro j hj; simp [tid_family_step, hj]
  have hfs : tid_family_step fam (.remove chan tid family mbuf_ok) tid = none := by
    simp [tid_family_step]
  have hq : ∀ t2 b, ipv4_slot t2 (tid_family_step fam (.remove chan tid family mbuf_ok)) b tid
      = false := by
    intro t2 b; unfold ipv4_slot; rw [hfs]; simp
  cases hocc : (t.tid_slot tid).isSome with
  | false =>
    have hempty : t.tid_slot tid = none := by
      cases h : t.tid_slot tid with
      | none => rfl
      | some v => rw [h] at hocc; exact absurd hocc (by simp)
    rw [remove_tid_eq_empty t chan tid family mbuf_ok hempty]
    generalize tid_family_step fam (.remove chan tid family mbuf_ok) = fam2 at *
    refine ⟨?_, ?_, ?_⟩
    · intro i hi
      by_cases hit : i = tid
      · subst hit; rw [hempty] at hi; exact absurd hi (by simp)
      · rw [hfam i hit]; exact hk i hi
    · obtain ⟨_, s2, _⟩ := ipv4_count_step t t fam fam2 tid false rfl (fun _ _ => rfl) hfam
        (fun _ => rfl)
      have := s2 (hq t false)
      omega
    · obtain ⟨_, s2, _⟩ := ipv4_count_step t t fam fam2 tid true rfl (fun _ _ => rfl) hfam
        (fun _ => rfl)
      have := s2 (hq t true)
      omega
  | true =>
    have hknown : fam tid = some family := by
      rcases hm with h | h
      · exact h
      · exact absurd h (hk tid hocc)
    have hlt := tid_slot_lt t tid hocc
    have hlen : ((cxgbe_remove_tid t chan tid family mbuf_ok).1.tid_tab.getD []).length
        = (t.tid_tab.getD []).length := by
      rw [remove_tid_eq_occupied t chan tid family mbuf_ok hocc]
      exact set_tid_slot_length t tid none
    have hslot : ∀ j, j ≠ tid →
        (cxgbe_remove_tid t chan tid family mbuf_ok).1.tid_slot j = t.tid_slot j := by
      intro j hj
      rw [remove_tid_eq_occupied t chan tid family mbuf_ok hocc]
      exact tid_slot_set_ne t tid j none hj
    have hsl0 : (cxgbe_remove_tid t chan tid family mbuf_ok).1.tid_slot tid = none := by
      rw [remove_tid_eq_occupied t chan tid family mbuf_ok hocc]
      exact tid_slot_set_none t tid
    have hhash : ∀ j, (cxgbe_remove_tid t chan tid family mbuf_ok).1.in_hash j = t.in_hash j := by
      intro j; rw [remove_tid_eq_occupied t chan tid family mbuf_ok hocc]; rfl
    have hcg : (cxgbe_remove_tid t chan tid family mbuf_ok).1.tids_in_use = t.tids_in_use -
        (if family = FILTER_TYPE_IPV4 ∧ t.in_hash tid = false then 1 else 0) := by
      rw [remove_tid_eq_occupied t chan tid family mbuf_ok hocc]
    have hch : (cxgbe_remove_tid t chan tid family mbuf_ok).1.hash_tids_in_use
        = t.hash_tids_in_use -
        (if family = FILTER_TYPE_IPV4 ∧ t.in_hash tid = true then 1 else 0) := by
      rw [remove_tid_eq_occupied t chan tid family mbuf_ok hocc]
    have hp : ∀ b, family = FILTER_TYPE_IPV4 ∧ t.in_hash tid = b →
        ipv4_slot t fam b tid = true := by
      intro b hc
      unfold ipv4_slot
      rw [hocc, hknown, hc.1, hc.2]; simp
    have hq2 := fun b => hq (cxgbe_remove_tid t chan tid family mbuf_ok).1 b
    generalize (cxgbe_remove_tid t chan tid family mbuf_ok).1 = t2 at *
    generalize tid_family_step fam (.remove chan tid family mbuf_ok) = fam2 at *
    refine ⟨?_, ?_, ?_⟩
    · intro i hi
      by_cases hit : i = tid
      · subst hit; rw [hsl0] at hi; exact absurd hi (by simp)
      · rw [hfam i hit]; apply hk; rw [← hslot i hit]; exact hi
    · obtain ⟨_, s2, s3⟩ := ipv4_count_step t t2 fam fam2 tid false hlen hslot hfam hhash
      rw [hcg]
      by_cases hc : family = FILTER_TYPE_IPV4 ∧ t.in_hash tid = false
      · rw [if_pos hc]
        have := s3 (hq2 false) (hp false hc) hlt
        omega
      · rw [if_neg hc]
        have := s2 (hq2 false)
        omega
    · obtain ⟨_, s2, s3⟩ := ipv4_count_step t t2 fam fam2 tid true hlen hslot hfam hhash
      rw [hch]
      by_cases hc : family = FILTER_TYPE_IPV4 ∧ t.in_hash tid = true
      · rw [if_pos hc]
        have := s3 (hq2 true) (hp true hc) hlt
        omega
      · rw [if_neg hc]
        have := s2 (hq2 true)
        omega


theorem tid_counter_inv_run (ops : List tid_op) (t : tid_info) (fam : Nat → Option Nat)
    (hinv : tid_counter_inv t fam) (hm : tid_families_match fam ops) :
    ∃ fam2, tid_counter_inv (tid_run t ops) fam2 := by
  induction ops generalizing t fam with
  | nil => exact ⟨fam, hinv⟩
  | cons op ops ih =>
    cases op with
    | insert data tid family =>
      exact ih _ _ (tid_counter_inv_insert t fam data tid family hinv) hm
    | remove chan tid family mbuf_ok =>
      exact ih _ _ (tid_counter_inv_remove t fam chan tid family mbuf_ok hinv hm.1) hm.2

theorem tid_families_match_take (ops : List tid_op) (fam : Nat → Option Nat)
    (hm : tid_families_match fam ops) (k : Nat) : tid_families_match fam (ops.take k) := by
  induction ops generalizing fam k with
  | nil => simpa using hm
  | cons op ops ih =>
    cases k with
    | zero => exact trivial
    | succ k =>
      cases op with
      | insert data tid family => exact ih _ hm k
      | remove chan tid family mbuf_ok => exact ⟨hm.1, ih _ hm.2 k⟩

theorem tid_counter_inv_empty (t : tid_info) (hempty : ∀ i, t.tid_slot i = none)
    (hg : 0 ≤ t.tids_in_use) (hh : 0 ≤ t.hash_tids_in_use) :
    tid_counter_inv t (fun _ => none) := by
  have hz : ∀ b, ipv4_count t (fun _ => none) b = 0 := by
    intro b
    unfold ipv4_count
    rw [List.countP_eq_zero]
    intro j _
    simp [ipv4_slot, hempty j]
  refine ⟨?_, ?_, ?_⟩
  · intro i hi; rw [hempty i] at hi; exact absurd hi (by simp)
  · rw [hz]; exact_mod_cast hg
  · rw [hz]; exact_mod_cast hh

theorem tid_init_slots_empty (t0 : tid_info) (i : Nat) :
    (tid_init t0 true true true).2.tid_slot i = none := by
  have htab : (tid_init t0 true true true).2.tid_tab = some (List.replicate t0.ntids none) := by
    by_cases hn : t0.natids = 0 <;> simp [tid_init, hn]
  unfold tid_info.tid_slot
  rw [htab]
  simp only [Option.getD_some, List.getElem?_replicate]
  split <;> rfl

/-- C17 (as the code behaves). The family counters are plain counters, not
saturating ones. Starting from a table with empty slots and non-negative
counters, `tids_in_use` and `hash_tids_in_use` stay non-negative after every
prefix of a sequence of `cxgbe_insert_tid` / `cxgbe_remove_tid` calls in which
every removal passes the family that the latest insert of that slot passed. -/
theorem tid_counters_nonneg (t : tid_info) (ops : List tid_op) (k : Nat)
    (hempty : ∀ i, t.tid_slot i = none) (hg : 0 ≤ t.tids_in_use)
    (hh : 0 ≤ t.hash_tids_in_use) (hm : tid_families_match (fun _ => none) ops) :
    0 ≤ (tid_run t (ops.take k)).tids_in_use ∧
    0 ≤ (tid_run t (ops.take k)).hash_tids_in_use := by
  obtain ⟨fam2, hk, h1, h2⟩ := tid_counter_inv_run (ops.take k) t _
    (tid_counter_inv_empty t hempty hg hh) (tid_families_match_take ops _ hm k)
  constructor
  · have : (0 : Int) ≤ ipv4_count (tid_run t (ops.take k)) fam2 false := Int.ofNat_nonneg _
    exact le_trans this h1
  · have : (0 : Int) ≤ ipv4_count (tid_run t (ops.take k)) fam2 true := Int.ofNat_nonneg _
    exact le_trans this h2

theorem tid_counters_nonneg_witness :
    tid_families_match (fun _ => none)
      [tid_op.insert (some 7) 1 FILTER_TYPE_IPV4, .remove 0 1 FILTER_TYPE_IPV4 true] ∧
    0 ≤ (tid_run (tid_init tid_example true true true).2
      ([tid_op.insert (some 7) 1 FILTER_TYPE_IPV4, .remove 0 1 FILTER_TYPE_IPV4 true].take
        2)).tids_in_use := by
  have hm : tid_families_match (fun _ => none)
      [tid_op.insert (some 7) 1 FILTER_TYPE_IPV4, .remove 0 1 FILTER_TYPE_IPV4 true] :=
    ⟨Or.inl rfl, trivial⟩
  have hempty := tid_init_slots_empty tid_example
  have h := tid_counters_nonneg (tid_init tid_example true true true).2
    [tid_op.insert (some 7) 1 FILTER_TYPE_IPV4, .remove 0 1 FILTER_TYPE_IPV4 true] 2
    hempty (by decide) (by decide) hm
  exact ⟨hm, h.1⟩

/-- C17 as stated fails: after an insert of slot `1` with a family other than
IPv4, a removal of that slot with the IPv4 family takes `tids_in_use` from `0`
to `-1`. -/
theorem tid_counter_drops_below_zero :
    (tid_init tid_example true true true).2.tids_in_use = 0 ∧
    (tid_run (tid_init tid_example true true true).2
      [tid_op.insert (some 7) 1 1, .remove 0 1 FILTER_TYPE_IPV4 true]).tids_in_use = -1 := by
  decide

/-! ## Failure of `tid_init` -/

/-- C18 (as the code behaves). Called on a structure without tables, a
`tid_init` in which a backing allocation fails returns `-ENOMEM`, leaves
`tid_tab`, `atid_tab`, `ftid_tab`, the free-list head and the filter bitmap
`NULL`, and has released every storage block it obtained. When the first
allocation fails the structure is left exactly as it was on entry (the counts
`ntids`, `natids`, `nftids` are kept); when a later step fails the whole
structure, counts included, is zeroed by `tid_free`. -/
theorem tid_init_failure (t : tid_info) (tab_ok array_ok bmap_ok : Bool)
    (hfresh : t.no_tables) (hfail : (tab_ok && array_ok && bmap_ok) = false) :
    (tid_init t tab_ok array_ok bmap_ok).1 = -ENOMEM ∧
    (tid_init t tab_ok array_ok bmap_ok).2.no_tables ∧
    (tid_init_mem t tab_ok array_ok bmap_ok).count mem_event.free_tid_tab =
      (tid_init_mem t tab_ok array_ok bmap_ok).count mem_event.alloc_tid_tab ∧
    (tid_init_mem t tab_ok array_ok bmap_ok).count mem_event.free_bmap_array =
      (tid_init_mem t tab_ok array_ok bmap_ok).count mem_event.alloc_bmap_array ∧
    (tab_ok = false → (tid_init t tab_ok array_ok bmap_ok).2 = t) ∧
    (tab_ok = true → (tid_init t tab_ok array_ok bmap_ok).2 = tid_info.zero) := by
  obtain ⟨h1, h2, h3, h4, h5, h6⟩ := hfresh
  have hsame : ({ t with tid_tab := none } : tid_info) = t := by
    cases t; simp only at h1; subst h1; rfl
  cases tab_ok
  · refine ⟨by simp [tid_init], ?_, by simp [tid_init_mem], by simp [tid_init_mem],
      fun _ => by simp [tid_init, hsame], fun h => absurd h (by simp)⟩
    simp only [tid_init, Bool.not_false, if_true, hsame]
    exact ⟨h1, h2, h3, h4, h5, h6⟩
  · cases array_ok
    · refine ⟨by simp [tid_init], by simp [tid_init, tid_free]; decide,
        by simp [tid_init_mem, tid_free_mem, h5], by simp [tid_init_mem, tid_free_mem, h5],
        fun h => absurd h (by simp), fun _ => by simp [tid_init, tid_free]⟩
    · cases bmap_ok
      · refine ⟨by simp [tid_init], by simp [tid_init, tid_free]; decide,
          by simp [tid_init_mem, tid_free_mem], by simp [tid_init_mem, tid_free_mem],
          fun h => absurd h (by simp), fun _ => by simp [tid_init, tid_free]⟩
      · simp at hfail

theorem tid_init_failure_witness :
    tid_example.no_tables ∧
    (tid_init tid_example true false true).1 = -ENOMEM ∧
    (tid_init tid_example true false true).2 = tid_info.zero := by
  have h := tid_init_failure tid_example true false true (by decide) rfl
  exact ⟨by decide, h.1, h.2.2.2.2.2 rfl⟩

/-- C18 as stated fails: the structure left behind depends on which allocation
failed. After a failure of the first allocation the counts are kept
(`ntids = 100`), after a failure of the second they are zeroed. -/
theorem tid_init_failure_not_uniform :
    (tid_init tid_example false true true).2.ntids = 100 ∧
    (tid_init tid_example true false true).2.ntids = 0 ∧
    (tid_init tid_example false true true).2 ≠ (tid_init tid_example true false true).2 := by
  decide

/-! ## Queue topology: claims -/

theorem cfg_queues_flag_set (f : Nat) : (f ||| CFG_QUEUES) &&& CFG_QUEUES ≠ 0 := by
  rw [Nat.and_distrib_right]
  intro h
  have := (nat_lor_eq_zero _ _ h).2
  exact absurd this (by decide)

theorem cfg_queues_configured (adap : adapter) (fw : fw_set_params → Int) (cores : Nat)
    (h : adap.flags &&& CFG_QUEUES ≠ 0) : cxgbe_cfg_queues adap fw cores = (adap, []) := by
  unfold cxgbe_cfg_queues
  rw [if_neg h]

theorem cfg_queues_sets_flag (adap : adapter) (fw : fw_set_params → Int) (cores : Nat) :
    (cxgbe_cfg_queues adap fw cores).1.flags &&& CFG_QUEUES ≠ 0 := by
  by_cases h : adap.flags &&& CFG_QUEUES = 0
  · unfold cxgbe_cfg_queues
    rw [if_pos h]
    exact cfg_queues_flag_set adap.flags
  · rw [cfg_queues_configured adap fw cores h]; exact h

/-- C11. `cxgbe_cfg_queues` is idempotent: whatever the firmware answers and
whatever the core count is on either call, a second call returns the adapter
left by the first call unchanged and issues no event (no firmware command, no
store); and a call made while `CFG_QUEUES` is set changes nothing and issues no
event. -/
theorem cfg_queues_idempotent (adap : adapter) (fw fw2 : fw_set_params → Int)
    (cores cores2 : Nat) :
    cxgbe_cfg_queues (cxgbe_cfg_queues adap fw cores).1 fw2 cores2
      = ((cxgbe_cfg_queues adap fw cores).1, []) ∧
    (adap.flags &&& CFG_QUEUES ≠ 0 → cxgbe_cfg_queues adap fw cores = (adap, [])) :=
  ⟨cfg_queues_configured _ fw2 cores2 (cfg_queues_sets_flag adap fw cores),
   cfg_queues_configured adap fw cores⟩

theorem cfg_queues_idempotent_witness :
    ({ adapter_two_ports with flags := CFG_QUEUES } : adapter).flags &&& CFG_QUEUES ≠ 0 ∧
    cxgbe_cfg_queues { adapter_two_ports with flags := CFG_QUEUES } (fun _ => 0) 8
      = ({ adapter_two_ports with flags := CFG_QUEUES }, []) := by
  have h := cfg_queues_idempotent { adapter_two_ports with flags := CFG_QUEUES }
    (fun _ => 0) (fun _ => 0) 8 8
  exact ⟨by decide, h.2 (by decide)⟩

theorem cfg_q_per_port_eq (max_ethqsets nports active cores : Nat) (hact : active ≤ nports)
    (hn : nports < 4294967296) (hmax : max_ethqsets < 4294967296)
    (hund : nports - active ≤ max_ethqsets) :
    cfg_q_per_port max_ethqsets nports active cores =
      if active = 0 then 0 else min ((max_ethqsets - (nports - active)) / active) cores := by
  unfold cfg_q_per_port
  by_cases ha : active = 0
  · simp [ha]
  · have h1 : (nports + 4294967296 - active) % 4294967296 = nports - active := by omega
    have h2 : (max_ethqsets + 4294967296 - (nports - active)) % 4294967296
        = max_ethqsets - (nports - active) := by omega
    simp only [ne_eq, ha, not_false_eq_true, if_true, if_false, h1, h2]
    by_cases hc : (max_ethqsets - (nports - active)) / active > cores
    · rw [if_pos hc, Nat.min_eq_right (by omega)]
    · rw [if_neg hc, Nat.min_eq_left (by omega)]

theorem cfg_quota_eq (adap : adapter) (cores : Nat)
    (hports : adap.params.nports ≤ adap.port.length) (hn : adap.params.nports < 256)
    (hmax : adap.sge.max_ethqsets < 65536)
    (hund : adap.params.nports - active_ports adap ≤ adap.sge.max_ethqsets) :
    cfg_quota adap cores =
      if active_ports adap = 0 then 0
      else min ((adap.sge.max_ethqsets - (adap.params.nports - active_ports adap))
        / active_ports adap) cores := by
  have hle : active_ports adap ≤ adap.params.nports := by
    unfold active_ports
    calc (adap.port.take adap.params.nports).countP port_is_fast
        ≤ (adap.port.take adap.params.nports).length := List.countP_le_length _
      _ ≤ adap.params.nports := by simp
  have hnb : cfg_nb_ports (adap.port.take adap.params.nports) = active_ports adap := by
    unfold cfg_nb_ports active_ports at *
    omega
  unfold cfg_quota
  rw [hnb]
  exact cfg_q_per_port_eq _ _ _ _ hle (by omega) (by omega) hund

/-- C12 (as the code behaves). For an adapter whose `max_ethqsets` is at least
the number of its ports below 1G, the per-port quota computed by
`cxgbe_cfg_queues` is `min((max_ethqsets - (nports - active)) / active, cores)`
with integer division when the number `active` of ports capable of 1G or faster
is positive, and `0` when `active` is `0`. -/
theorem cfg_quota_formula (adap : adapter) (cores : Nat)
    (hports : adap.params.nports ≤ adap.port.length) (hn : adap.params.nports < 256)
    (hmax : adap.sge.max_ethqsets < 65536)
    (hund : adap.params.nports - active_ports adap ≤ adap.sge.max_ethqsets) :
    cfg_quota adap cores =
      if active_ports adap = 0 then 0
      else min ((adap.sge.max_ethqsets - (adap.params.nports - active_ports adap))
        / active_ports adap) cores :=
  cfg_quota_eq adap cores hports hn hmax hund

theorem cfg_quota_formula_witness :
    adapter_two_ports.params.nports - active_ports adapter_two_ports
      ≤ adapter_two_ports.sge.max_ethqsets ∧
    cfg_quota adapter_two_ports 8 = 8 := by
  have h := cfg_quota_formula adapter_two_ports 8 (by decide) (by decide) (by decide)
    (by decide)
  exact ⟨by decide, h.trans (by decide)⟩

/-- C12 as stated fails when `max_ethqsets` is below the number of ports below
1G: with `max_ethqsets = 0`, two ports of which one is capable of 1G or faster,
and 8 cores, the unsigned subtraction wraps and the quota is `8`, while the
formula gives `-1` over the integers and `0` over the naturals. -/
theorem cfg_quota_underflow :
    cfg_q_per_port 0 2 1 8 = 8 ∧
    min (((0 : Int) - (2 - 1)) / 1) 8 = -1 ∧
    min (((0 : Nat) - (2 - 1)) / 1) 8 = 0 := by
  decide


/-- The receive queue-set count `cfg_port` gives a port (it does not depend on
the running offset). -/
theorem cfg_port_n_rx (q x y : Nat) (pi : port_info) :
    (cfg_port q x pi).n_rx_qsets = (cfg_port q y pi).n_rx_qsets := rfl

theorem cfg_port_mod (q x y : Nat) (pi : port_info) (h : x % 256 = y % 256) :
    cfg_port q x pi = cfg_port q y pi := by
  unfold cfg_port; rw [h]

theorem cfg_ports_length (q : Nat) (ports : List port_info) (qidx : Nat) :
    (cfg_ports q ports qidx).length = ports.length := by
  induction ports generalizing qidx with
  | nil => rfl
  | cons pi rest ih => simp [cfg_ports, ih]

theorem cfg_ports_n_rx (q : Nat) (ports : List port_info) (qidx : Nat) :
    (cfg_ports q ports qidx).map (fun pi => pi.n_rx_qsets)
      = ports.map (fun pi => (cfg_port q 0 pi).n_rx_qsets) := by
  induction ports generalizing qidx with
  | nil => rfl
  | cons pi rest ih =>
    simp only [cfg_ports, List.map_cons, ih]
    rw [cfg_port_n_rx q qidx 0 pi]

theorem cfg_ports_get (q : Nat) (ports : List port_info) (qidx i : Nat) :
    (cfg_ports q ports qidx)[i]? =
      (ports[i]?).map (cfg_port q
        (qidx + ((ports.take i).map (fun pi => (cfg_port q 0 pi).n_rx_qsets)).sum)) := by
  induction ports generalizing qidx i with
  | nil => simp [cfg_ports]
  | cons pi rest ih =>
    cases i with
    | zero => simp [cfg_ports]
    | succ i =>
      simp only [cfg_ports, List.getElem?_cons_succ, List.take_succ_cons, List.map_cons,
        List.sum_cons]
      rw [ih]
      cases hri : rest[i]? with
      | none => rfl
      | some pj =>
        simp only [Option.map_some', Option.some.injEq]
        apply cfg_port_mod
        rw [cfg_port_n_rx q qidx 0 pi]
        omega

theorem cfg_port_n_rx_eq (q : Nat) (pi : port_info) :
    (cfg_port q 0 pi).n_rx_qsets =
      min ((if port_is_fast pi then q else 1) % 256) pi.rss_size := by
  unfold cfg_port
  simp only
  have hn : (if port_is_fast pi then q else 1) % 256 < 256 := Nat.mod_lt _ (by decide)
  generalize (if port_is_fast pi then q else 1) % 256 = n at hn
  by_cases h : n > pi.rss_size
  · rw [if_pos h, Nat.min_eq_right (by omega)]
    omega
  · rw [if_neg h, Nat.min_eq_left (by omega)]

theorem cfg_port_n_rx_le (q : Nat) (pi : port_info) :
    (cfg_port q 0 pi).n_rx_qsets ≤ if port_is_fast pi then q else 1 := by
  rw [cfg_port_n_rx_eq]
  have hm : (if port_is_fast pi then q else 1) % 256 ≤ (if port_is_fast pi then q else 1) :=
    Nat.mod_le _ _
  have := Nat.min_le_left ((if port_is_fast pi then q else 1) % 256) pi.rss_size
  omega

theorem cfg_ports_total_le (q : Nat) (ports : List port_info) :
    (ports.map (fun pi => (cfg_port q 0 pi).n_rx_qsets)).sum
      ≤ ports.countP port_is_fast * q + (ports.length - ports.countP port_is_fast) := by
  induction ports with
  | nil => simp
  | cons pi rest ih =>
    have h1 := cfg_port_n_rx_le q pi
    have hc : rest.countP port_is_fast ≤ rest.length := List.countP_le_length _
    simp only [List.map_cons, List.sum_cons, List.length_cons]
    cases hf : port_is_fast pi
    · rw [List.countP_cons_of_neg _ _ (by simp [hf])]
      simp only [hf, Bool.false_eq_true, if_false] at h1
      omega
    · rw [List.countP_cons_of_pos _ _ hf]
      simp only [hf, if_true] at h1
      rw [Nat.add_mul]
      omega

theorem list_sum_take_le (l : List Nat) (i : Nat) : (l.take i).sum ≤ l.sum := by
  have h := congrArg List.sum (List.take_append_drop i l)
  rw [List.sum_append] at h
  omega


theorem cfg_quota_total (adap : adapter) (cores : Nat)
    (hports : adap.params.nports ≤ adap.port.length) (hn : adap.params.nports < 256)
    (hmax : adap.sge.max_ethqsets ≤ MAX_ETH_QSETS)
    (hund : adap.params.nports - active_ports adap ≤ adap.sge.max_ethqsets) :
    cfg_quota adap cores ≤ adap.sge.max_ethqsets ∧
    ((adap.port.take adap.params.nports).map
      (fun pi => (cfg_port (cfg_quota adap cores) 0 pi).n_rx_qsets)).sum
        ≤ adap.sge.max_ethqsets := by
  have hmax2 : adap.sge.max_ethqsets ≤ 64 := hmax
  have hq := cfg_quota_eq adap cores hports hn (by omega) hund
  have hlen : (adap.port.take adap.params.nports).length = adap.params.nports := by
    simp; omega
  have htot := cfg_ports_total_le (cfg_quota adap cores) (adap.port.take adap.params.nports)
  rw [hlen] at htot
  have hA : (adap.port.take adap.params.nports).countP port_is_fast = active_ports adap := rfl
  rw [hA] at htot
  have hle : active_ports adap ≤ adap.params.nports := by
    have h := List.countP_le_length port_is_fast (l := adap.port.take adap.params.nports)
    rw [hlen, hA] at h
    exact h
  generalize cfg_quota adap cores = q at hq htot ⊢
  generalize active_ports adap = A at hq htot hle hund
  generalize adap.params.nports = n at hq htot hle hund
  generalize adap.sge.max_ethqsets = m at hq htot hund hmax2
  by_cases hA0 : A = 0
  · simp only [hA0, if_true] at hq
    subst hq; subst hA0
    rw [Nat.zero_mul] at htot
    exact ⟨by omega, by omega⟩
  · simp only [hA0, if_false] at hq
    have h1 : q ≤ (m - (n - A)) / A := by rw [hq]; exact Nat.min_le_left _ _
    have h2 : A * ((m - (n - A)) / A) ≤ m - (n - A) := Nat.mul_div_le _ _
    have h3 : A * q ≤ A * ((m - (n - A)) / A) := Nat.mul_le_mul_left _ h1
    have h4 : (m - (n - A)) / A ≤ m - (n - A) := Nat.div_le_self _ _
    constructor
    · omega
    · have : A * q + (n - A) ≤ m := by omega
      omega

/-- C13 (as the code behaves). After `cxgbe_cfg_queues` on an unconfigured
adapter whose `max_ethqsets` is at most `MAX_ETH_QSETS` and at least the number
of its ports below 1G: for every port `i` in index order, `first_qset` is the sum
of the receive queue-set counts of ports `0..i-1` (port 0 starts at 0, the ranges
are contiguous); a port capable of 1G or faster gets
`min(per_port_quota, rss_size)` queue sets and every other port gets
`min(1, rss_size)`, which is `1` unless its RSS slice is empty. -/
theorem cfg_queues_plan (adap : adapter) (fw : fw_set_params → Int) (cores i : Nat)
    (pi : port_info) (hflag : adap.flags &&& CFG_QUEUES = 0)
    (hports : adap.params.nports ≤ adap.port.length) (hn : adap.params.nports < 256)
    (hmax : adap.sge.max_ethqsets ≤ MAX_ETH_QSETS)
    (hund : adap.params.nports - active_ports adap ≤ adap.sge.max_ethqsets)
    (hi : i < adap.params.nports) (hpi : adap.port[i]? = some pi) :
    ∃ pi2, (cxgbe_cfg_queues adap fw cores).1.port[i]? = some pi2 ∧
      pi2.first_qset = qsets_before (cxgbe_cfg_queues adap fw cores).1.port i ∧
      pi2.n_rx_qsets =
        (if port_is_fast pi then min (cfg_quota adap cores) pi.rss_size
         else min 1 pi.rss_size) := by
  have hmax2 : adap.sge.max_ethqsets ≤ 64 := hmax
  obtain ⟨hq, htot⟩ := cfg_quota_total adap cores hports hn hmax hund
  have hport : (cxgbe_cfg_queues adap fw cores).1.port =
      cfg_ports (cfg_quota adap cores) (adap.port.take adap.params.nports) 0 ++
        adap.port.drop adap.params.nports := by
    unfold cxgbe_cfg_queues
    rw [if_pos hflag]
    rfl
  have hlen : (adap.port.take adap.params.nports).length = adap.params.nports := by
    simp; omega
  have hclen := cfg_ports_length (cfg_quota adap cores) (adap.port.take adap.params.nports) 0
  have htake : (adap.port.take adap.params.nports)[i]? = some pi := by
    rw [List.getElem?_take_of_lt hi]; exact hpi
  have hsum : qsets_before (cxgbe_cfg_queues adap fw cores).1.port i =
      ((adap.port.take adap.params.nports).take i |>.map
        (fun pi => (cfg_port (cfg_quota adap cores) 0 pi).n_rx_qsets)).sum := by
    unfold qsets_before
    rw [hport, List.take_append_of_le_length (by omega), List.map_take, cfg_ports_n_rx,
      ← List.map_take]
  have hget : (cxgbe_cfg_queues adap fw cores).1.port[i]? =
      some (cfg_port (cfg_quota adap cores)
        (0 + ((adap.port.take adap.params.nports).take i |>.map
          (fun pi => (cfg_port (cfg_quota adap cores) 0 pi).n_rx_qsets)).sum) pi) := by
    rw [hport, List.getElem?_append_left (by omega), cfg_ports_get, htake]
    rfl
  have hpre : ((adap.port.take adap.params.nports).take i |>.map
      (fun pi => (cfg_port (cfg_quota adap cores) 0 pi).n_rx_qsets)).sum ≤ 64 := by
    rw [List.map_take]
    have := list_sum_take_le ((adap.port.take adap.params.nports).map
      (fun pi => (cfg_port (cfg_quota adap cores) 0 pi).n_rx_qsets)) i
    omega
  refine ⟨_, hget, ?_, ?_⟩
  · rw [hsum]
    show (0 + _) % 256 = _
    omega
  · rw [cfg_port_n_rx (cfg_quota adap cores) _ 0 pi, cfg_port_n_rx_eq]
    cases hf : port_is_fast pi
    · simp
    · have : cfg_quota adap cores % 256 = cfg_quota adap cores :=
        Nat.mod_eq_of_lt (by omega)
      simp [this]

theorem cfg_queues_plan_witness :
    adapter_two_ports.flags &&& CFG_QUEUES = 0 ∧
    adapter_two_ports.sge.max_ethqsets = 16 ∧
    cfg_quota adapter_two_ports 8 = 8 ∧
    ((cxgbe_cfg_queues adapter_two_ports (fun _ => 0) 8).1.port.map
      (fun p => (p.first_qset, p.n_rx_qsets))) = [(0, 4), (4, 4)] ∧
    (∃ pi2, (cxgbe_cfg_queues adapter_two_ports (fun _ => 0) 8).1.port[1]? = some pi2 ∧
      pi2.first_qset = qsets_before (cxgbe_cfg_queues adapter_two_ports (fun _ => 0) 8).1.port 1 ∧
      pi2.n_rx_qsets =
        (if port_is_fast (port_example 4 4) then
          min (cfg_quota adapter_two_ports 8) (port_example 4 4).rss_size
         else min 1 (port_example 4 4).rss_size)) := by
  have h := cfg_queues_plan adapter_two_ports (fun _ => 0) 8 1 (port_example 4 4) (by decide)
    (by decide) (by decide) (by decide) (by decide) (by decide) rfl
  exact ⟨by decide, rfl, by decide, by decide, h⟩

/-- C13 as stated fails for a port below 1G whose RSS slice is empty: with one
100M port of `rss_size = 0` the clamp to `rss_size` leaves the port `0` queue
sets, not `1`. -/
theorem cfg_queues_slow_port_empty_rss :
    port_is_fast (port_example 1 0) = false ∧
    ((cxgbe_cfg_queues
      { adapter_two_ports with params := { nports := 1 }, port := [port_example 1 0] }
      (fun _ => 0) 8).1.port.map (fun p => p.n_rx_qsets)) = [0] := by
  decide

/-! ## Firmware bring-up: claims -/

theorem not_fatal_of_nonneg (x : Int) (h : 0 ≤ x) : ¬ fw_fatal x := by
  unfold fw_fatal ETIMEDOUT EIO; omega

theorem fatal_neg (x : Int) (h : fw_fatal x) : x < 0 := by
  unfold fw_fatal ETIMEDOUT EIO at h; omega

theorem steps_pass_append (o : fw_replies) (tr tr2 : List fw_step) (h1 : steps_pass o tr)
    (h2 : steps_pass o tr2) : steps_pass o (tr ++ tr2) := by
  intro s hs hc
  rcases List.mem_append.1 hs with h | h
  · exact h1 s h hc
  · exact h2 s h hc

theorem steps_pass_one (o : fw_replies) (s : fw_step)
    (h : s.checked = true → ¬ fw_fatal (o.ret s)) : steps_pass o [s] := by
  intro s2 hs hc
  rw [List.mem_singleton] at hs
  subst hs
  exact h hc

theorem init0_inv_snoc (o : fw_replies) (adap0 adap : adapter) (tr : List fw_step)
    (s : fw_step) (hinv : init0_inv o adap0 adap tr) (hne : s ≠ .bye)
    (h : s.checked = true → ¬ fw_fatal (o.ret s)) : init0_inv o adap0 adap (tr ++ [s]) := by
  refine ⟨steps_pass_append o tr [s] hinv.pass (steps_pass_one o s h), ?_, hinv.flags⟩
  intro hmem
  rcases List.mem_append.1 hmem with h1 | h1
  · exact hinv.no_bye h1
  · rw [List.mem_singleton] at h1; exact hne h1.symm

theorem init0_inv_adap (o : fw_replies) (adap0 adap adap2 : adapter) (tr : List fw_step)
    (hinv : init0_inv o adap0 adap tr) (hf : adap2.flags = adap.flags) :
    init0_inv o adap0 adap2 tr :=
  ⟨hinv.pass, hinv.no_bye, by rw [hf]; exact hinv.flags⟩

theorem aborts_of_pass (o : fw_replies) (adap0 : adapter) (r : init0_result)
    (h : steps_pass o r.trace) : aborts_on_fatal o adap0 r := by
  intro s hc hs hf
  exact absurd hf (h s hs hc)

theorem bye_trace_pass (o : fw_replies) (ret : Int) (adap : adapter) (tr : List fw_step)
    (h : steps_pass o tr) : steps_pass o (adap_init0_bye ret adap tr).trace := by
  unfold adap_init0_bye
  simp only
  split
  · exact steps_pass_append o tr [.bye] h (steps_pass_one o .bye (fun hc => by simp [fw_step.checked] at hc))
  · exact h

theorem aborts_of_fail (o : fw_replies) (adap0 adap : adapter) (tr : List fw_step)
    (s : fw_step) (hinv : init0_inv o adap0 adap tr) (hne : s ≠ .bye) :
    aborts_on_fatal o adap0 (adap_init0_bye (o.ret s) adap (tr ++ [s])) := by
  by_cases hf : fw_fatal (o.ret s)
  · have htr : (adap_init0_bye (o.ret s) adap (tr ++ [s])).trace = tr ++ [s] := by
      unfold adap_init0_bye
      simp only
      rw [if_neg]
      unfold fw_fatal at hf
      intro hh
      rcases hf with h | h
      · exact hh.1 h
      · exact hh.2 h
    intro s2 hc hs hf2
    rw [htr] at hs ⊢
    have hs2 : s2 = s := by
      rcases List.mem_append.1 hs with h | h
      · exact absurd hf2 (hinv.pass s2 h hc)
      · exact List.mem_singleton.1 h
    subst hs2
    refine ⟨rfl, by simp, ?_, hinv.flags⟩
    intro hmem
    rcases List.mem_append.1 hmem with h1 | h1
    · exact hinv.no_bye h1
    · rw [List.mem_singleton] at h1; exact hne h1.symm
  · apply aborts_of_pass
    apply bye_trace_pass
    exact steps_pass_append o tr [s] hinv.pass (steps_pass_one o s (fun _ => hf))


theorem not_fatal_of_not_neg (x : Int) (h : ¬ x < 0) : ¬ fw_fatal x :=
  not_fatal_of_nonneg x (by omega)

theorem aborts_caps (o : fw_replies) (adap0 adap : adapter) (state : Nat) (tr : List fw_step)
    (hinv : init0_inv o adap0 adap tr) :
    aborts_on_fatal o adap0 (adap_init0_caps o adap state tr) := by
  unfold adap_init0_caps
  simp only
  split_ifs
  all_goals first
    | (refine aborts_of_fail o adap0 _ _ _ ?_ (by decide)
       refine init0_inv_adap o adap0 adap _ _ ?_ rfl
       repeat (first
         | exact hinv
         | refine init0_inv_snoc _ _ _ _ _ ?_ (by decide) ?_)
       all_goals first
         | (intro hc; exact absurd hc (by decide))
         | (intro _; exact not_fatal_of_not_neg _ (by assumption)))
    | (apply aborts_of_pass
       first | apply bye_trace_pass | skip
       refine @init0_inv.pass o adap0 adap _ ?_
       repeat (first
         | exact hinv
         | refine init0_inv_snoc _ _ _ _ _ ?_ (by decide) ?_)
       all_goals first
         | (intro hc; exact absurd hc (by decide))
         | (intro _; exact not_fatal_of_not_neg _ (by assumption)))

theorem aborts_queries (o : fw_replies) (adap0 adap : adapter) (state : Nat)
    (tr : List fw_step) (hinv : init0_inv o adap0 adap tr) :
    aborts_on_fatal o adap0 (adap_init0_queries o adap state tr) := by
  unfold adap_init0_queries
  simp only
  split_ifs with h1 h2 h3 h4 h5
  · exact aborts_of_fail o adap0 _ _ _ hinv (by decide)
  · have h1' : o.ret .get_pfres = 0 := not_not.1 h1
    refine aborts_of_fail o adap0 _ _ _ ?_ (by decide)
    refine init0_inv_adap o adap0 adap _ _ ?_ rfl
    exact init0_inv_snoc _ _ _ _ _ hinv (by decide)
      (fun _ => not_fatal_of_nonneg _ (by omega))
  · have h1' : o.ret .get_pfres = 0 := not_not.1 h1
    refine aborts_of_fail o adap0 _ _ _ ?_ (by decide)
    refine init0_inv_adap o adap0 adap _ _ ?_ rfl
    refine init0_inv_snoc _ _ _ _ _ ?_ (by decide) (fun _ => not_fatal_of_not_neg _ h2)
    exact init0_inv_snoc _ _ _ _ _ hinv (by decide)
      (fun _ => not_fatal_of_nonneg _ (by omega))
  · have h1' : o.ret .get_pfres = 0 := not_not.1 h1
    refine aborts_of_fail o adap0 _ _ _ ?_ (by decide)
    refine init0_inv_adap o adap0 adap _ _ ?_ rfl
    refine init0_inv_snoc _ _ _ _ _ ?_ (by decide) (fun _ => not_fatal_of_not_neg _ h3)
    refine init0_inv_snoc _ _ _ _ _ ?_ (by decide) (fun _ => not_fatal_of_not_neg _ h2)
    exact init0_inv_snoc _ _ _ _ _ hinv (by decide)
      (fun _ => not_fatal_of_nonneg _ (by omega))
  · have h1' : o.ret .get_pfres = 0 := not_not.1 h1
    refine aborts_of_fail o adap0 _ _ _ ?_ (by decide)
    refine init0_inv_adap o adap0 adap _ _ ?_ rfl
    refine init0_inv_snoc _ _ _ _ _ ?_ (by decide) (fun _ => not_fatal_of_not_neg _ h4)
    refine init0_inv_snoc _ _ _ _ _ ?_ (by decide) (fun _ => not_fatal_of_not_neg _ h3)
    refine init0_inv_snoc _ _ _ _ _ ?_ (by decide) (fun _ => not_fatal_of_not_neg _ h2)
    exact init0_inv_snoc _ _ _ _ _ hinv (by decide)
      (fun _ => not_fatal_of_nonneg _ (by omega))
  · have h1' : o.ret .get_pfres = 0 := not_not.1 h1
    apply aborts_caps
    refine init0_inv_adap o adap0 adap _ _ ?_ rfl
    refine init0_inv_snoc _ _ _ _ _ ?_ (by decide) (fun _ => not_fatal_of_not_neg _ h5)
    refine init0_inv_snoc _ _ _ _ _ ?_ (by decide) (fun _ => not_fatal_of_not_neg _ h4)
    refine init0_inv_snoc _ _ _ _ _ ?_ (by decide) (fun _ => not_fatal_of_not_neg _ h3)
    refine init0_inv_snoc _ _ _ _ _ ?_ (by decide) (fun _ => not_fatal_of_not_neg _ h2)
    exact init0_inv_snoc _ _ _ _ _ hinv (by decide)
      (fun _ => not_fatal_of_nonneg _ (by omega))

/-- The outcome of `adap_init0_config`: no goodbye in its calls; on success all
calls passed, on failure the status is that of the last call and the calls before
it passed. -/
theorem config_outcome (o : fw_replies) :
    fw_step.bye ∉ (adap_init0_config o 1).2 ∧
    ((0 ≤ (adap_init0_config o 1).1 ∧ steps_pass o (adap_init0_config o 1).2) ∨
     ((adap_init0_config o 1).1 < 0 ∧ ∃ t s, (adap_init0_config o 1).2 = t ++ [s] ∧
        (adap_init0_config o 1).1 = o.ret s ∧ steps_pass o t)) := by
  unfold adap_init0_config
  simp only [ne_eq, one_ne_zero, not_false_eq_true, true_and, if_true]
  have single : ∀ s : fw_step, ¬ o.ret s < 0 → steps_pass o [s] := fun s h =>
    steps_pass_one o s (fun _ => not_fatal_of_not_neg _ h)
  have nil : steps_pass o [] := fun s hs => absurd hs (List.not_mem_nil s)
  split_ifs with h1 h2 h3 h4 h5 h6 h7 h8 h9
  all_goals try simp only [List.append_assoc, List.cons_append, List.nil_append]
  · exact ⟨by simp, Or.inr ⟨h1, [], .reset, rfl, rfl, nil⟩⟩
  · exact ⟨by simp, Or.inr ⟨h2, [.reset], .flash_cfg_addr, rfl, rfl, single _ h1⟩⟩
  · refine ⟨by simp, Or.inr ⟨h4, [.reset, .flash_cfg_addr, .caps_read_flash],
      .caps_read_embedded, rfl, rfl, ?_⟩⟩
    intro s hs hc
    simp only [List.mem_cons, List.mem_singleton, List.not_mem_nil, or_false] at hs
    rcases hs with rfl | rfl | rfl
    · exact not_fatal_of_not_neg _ h1
    · exact not_fatal_of_not_neg _ h2
    · rw [h3]; unfold fw_fatal ENOENT ETIMEDOUT EIO; omega
  · refine ⟨by simp, Or.inr ⟨h5, [.reset, .flash_cfg_addr, .caps_read_flash,
      .caps_read_embedded], .caps_write, rfl, rfl, ?_⟩⟩
    intro s hs hc
    simp only [List.mem_cons, List.mem_singleton, List.not_mem_nil, or_false] at hs
    rcases hs with rfl | rfl | rfl | rfl
    · exact not_fatal_of_not_neg _ h1
    · exact not_fatal_of_not_neg _ h2
    · rw [h3]; unfold fw_fatal ENOENT ETIMEDOUT EIO; omega
    · exact not_fatal_of_not_neg _ h4
  · refine ⟨by simp, Or.inr ⟨h6, [.reset, .flash_cfg_addr, .caps_read_flash,
      .caps_read_embedded, .caps_write], .fw_init, rfl, rfl, ?_⟩⟩
    intro s hs hc
    simp only [List.mem_cons, List.mem_singleton, List.not_mem_nil, or_false] at hs
    rcases hs with rfl | rfl | rfl | rfl | rfl
    · exact not_fatal_of_not_neg _ h1
    · exact not_fatal_of_not_neg _ h2
    · rw [h3]; unfold fw_fatal ENOENT ETIMEDOUT EIO; omega
    · exact not_fatal_of_not_neg _ h4
    · exact not_fatal_of_not_neg _ h5
  · refine ⟨by simp, Or.inl ⟨le_refl 0, ?_⟩⟩
    intro s hs hc
    simp only [List.mem_cons, List.mem_singleton, List.not_mem_nil, or_false] at hs
    rcases hs with rfl | rfl | rfl | rfl | rfl | rfl
    · exact not_fatal_of_not_neg _ h1
    · exact not_fatal_of_not_neg _ h2
    · rw [h3]; unfold fw_fatal ENOENT ETIMEDOUT EIO; omega
    · exact not_fatal_of_not_neg _ h4
    · exact not_fatal_of_not_neg _ h5
    · exact not_fatal_of_not_neg _ h6
  · exact ⟨by simp, Or.inr ⟨h7, [.reset, .flash_cfg_addr], .caps_read_flash, rfl, rfl, by
      intro s hs hc
      simp only [List.mem_cons, List.mem_singleton, List.not_mem_nil, or_false] at hs
      rcases hs with rfl | rfl
      · exact not_fatal_of_not_neg _ h1
      · exact not_fatal_of_not_neg _ h2⟩⟩
  · refine ⟨by simp, Or.inr ⟨h8, [.reset, .flash_cfg_addr, .caps_read_flash],
      .caps_write, rfl, rfl, ?_⟩⟩
    intro s hs hc
    simp only [List.mem_cons, List.mem_singleton, List.not_mem_nil, or_false] at hs
    rcases hs with rfl | rfl | rfl
    · exact not_fatal_of_not_neg _ h1
    · exact not_fatal_of_not_neg _ h2
    · exact not_fatal_of_not_neg _ h7
  · refine ⟨by simp, Or.inr ⟨h9, [.reset, .flash_cfg_addr, .caps_read_flash,
      .caps_write], .fw_init, rfl, rfl, ?_⟩⟩
    intro s hs hc
    simp only [List.mem_cons, List.mem_singleton, List.not_mem_nil, or_false] at hs
    rcases hs with rfl | rfl | rfl | rfl
    · exact not_fatal_of_not_neg _ h1
    · exact not_fatal_of_not_neg _ h2
    · exact not_fatal_of_not_neg _ h7
    · exact not_fatal_of_not_neg _ h8
  · refine ⟨by simp, Or.inl ⟨le_refl 0, ?_⟩⟩
    intro s hs hc
    simp only [List.mem_cons, List.mem_singleton, List.not_mem_nil, or_false] at hs
    rcases hs with rfl | rfl | rfl | rfl | rfl
    · exact not_fatal_of_not_neg _ h1
    · exact not_fatal_of_not_neg _ h2
    · exact not_fatal_of_not_neg _ h7
    · exact not_fatal_of_not_neg _ h8
    · exact not_fatal_of_not_neg _ h9

theorem init0_inv_append (o : fw_replies) (adap0 adap : adapter) (tr t : List fw_step)
    (hinv : init0_inv o adap0 adap tr) (hp : steps_pass o t) (hb : fw_step.bye ∉ t) :
    init0_inv o adap0 adap (tr ++ t) := by
  refine ⟨steps_pass_append o tr t hinv.pass hp, ?_, hinv.flags⟩
  intro hmem
  rcases List.mem_append.1 hmem with h1 | h1
  · exact hinv.no_bye h1
  · exact hb h1

theorem aborts_clock (o : fw_replies) (adap0 adap : adapter) (state : Nat)
    (tr : List fw_step) (hinv : init0_inv o adap0 adap tr) :
    aborts_on_fatal o adap0 (adap_init0_clock o adap state tr) := by
  have hcfg := config_outcome o
  have key : ¬ fw_fatal (o.ret .get_core_clock) → (adap_init0_config o 1).1 < 0 →
      aborts_on_fatal o adap0 (adap_init0_bye (adap_init0_config o 1).1 adap
        (tr ++ [.get_core_clock] ++ (adap_init0_config o 1).2)) := by
    intro hclk hneg
    rcases hcfg with ⟨hb, h | h⟩
    · omega
    · obtain ⟨_, t, s, ht, hs, hp⟩ := h
      rw [ht] at hb
      have hb1 : fw_step.bye ∉ t := fun hm => hb (List.mem_append.2 (Or.inl hm))
      have hb2 : s ≠ .bye := fun he => hb (List.mem_append.2 (Or.inr (by simp [he])))
      rw [ht, hs, ← List.append_assoc]
      refine aborts_of_fail o adap0 adap _ s ?_ hb2
      refine init0_inv_append o adap0 adap _ t ?_ hp hb1
      exact init0_inv_snoc _ _ _ _ _ hinv (by decide) (fun _ => hclk)
  unfold adap_init0_clock
  simp only
  split_ifs with h1 h2 h3 h4
  · exact aborts_of_fail o adap0 _ _ _ hinv (by decide)
  · apply aborts_queries
    exact init0_inv_snoc _ _ _ _ _ hinv (by decide) (fun _ => not_fatal_of_not_neg _ h1)
  · exact key (not_fatal_of_not_neg _ h1) (by rw [h3]; unfold ENOENT; omega)
  · exact key (not_fatal_of_not_neg _ h1) h4
  · apply aborts_queries
    rcases hcfg with ⟨hb, h | h⟩
    · exact init0_inv_append o adap0 adap _ _
        (init0_inv_snoc _ _ _ _ _ hinv (by decide) (fun _ => not_fatal_of_not_neg _ h1)) h.2 hb
    · exact absurd h.1 h4

theorem nat_or_and_disjoint (x : Nat) : (x ||| MASTER_PF) &&& FW_OK = x &&& FW_OK := by
  rw [Nat.and_distrib_right]
  have : MASTER_PF &&& FW_OK = 0 := by decide
  rw [this, Nat.or_zero]

theorem aborts_init0 (o : fw_replies) (adap : adapter) :
    aborts_on_fatal o adap (adap_init0 o adap) := by
  have h0 : init0_inv o adap adap [] :=
    ⟨fun s hs => absurd hs (List.not_mem_nil s), List.not_mem_nil _, rfl⟩
  unfold adap_init0
  simp only
  split_ifs with h1 h2 h3 h4 h5 h6
  all_goals first
    | exact aborts_of_fail o adap _ [] .hello h0 (by decide)
    | (refine aborts_of_fail o adap _ [.hello] .halt ?_ (by decide)
       refine ⟨steps_pass_one o _ (fun _ => not_fatal_of_not_neg _ h1), by decide, ?_⟩
       first | exact nat_or_and_disjoint _ | rfl)
    | (refine aborts_of_fail o adap _ [.hello, .halt] .restart ?_ (by decide)
       refine ⟨?_, by decide, ?_⟩
       · intro s hs hc
         simp only [List.mem_cons, List.mem_singleton, List.not_mem_nil, or_false] at hs
         rcases hs with rfl | rfl
         · exact not_fatal_of_not_neg _ h1
         · exact not_fatal_of_not_neg _ (by assumption)
       · first | exact nat_or_and_disjoint _ | rfl)
    | (apply aborts_clock
       refine ⟨?_, by decide, ?_⟩
       · intro s hs hc
         simp only [List.mem_cons, List.mem_singleton, List.not_mem_nil, or_false] at hs
         rcases hs with rfl | rfl | rfl
         · exact not_fatal_of_not_neg _ h1
         · exact not_fatal_of_not_neg _ (by assumption)
         · exact not_fatal_of_not_neg _ (by assumption)
       · first | exact nat_or_and_disjoint _ | rfl)
    | (apply aborts_clock
       refine ⟨steps_pass_one o _ (fun _ => not_fatal_of_not_neg _ h1), by decide, ?_⟩
       first | exact nat_or_and_disjoint _ | rfl)

/-- C19 (amended): in `adap_init0`, `adap_init0_config` included, a timeout
(`-ETIMEDOUT`) or I/O error (`-EIO`) of any step whose status the code looks at
and keeps aborts the bring-up at once: `adap_init0` returns that error, the
failing step is the last collaborator call, no goodbye is sent, and `FW_OK` is
as it was on entry. -/
theorem init0_abort_on_fatal (o : fw_replies) (adap : adapter) (s : fw_step)
    (hc : s.checked = true) (hs : s ∈ (adap_init0 o adap).trace)
    (hf : fw_fatal (o.ret s)) :
    (adap_init0 o adap).ret = o.ret s ∧
    (adap_init0 o adap).trace.getLast? = some s ∧
    fw_step.bye ∉ (adap_init0 o adap).trace ∧
    (adap_init0 o adap).adap.flags &&& FW_OK = adap.flags &&& FW_OK :=
  aborts_init0 o adap s hc hs hf

theorem init0_abort_on_fatal_witness :
    fw_step.sge_init ∈ (adap_init0 replies_sge_timeout adapter_example).trace ∧
    fw_fatal (replies_sge_timeout.ret .sge_init) ∧
    (adap_init0 replies_sge_timeout adapter_example).ret = -ETIMEDOUT ∧
    (adap_init0 replies_sge_timeout adapter_example).trace.getLast? = some .sge_init ∧
    fw_step.bye ∉ (adap_init0 replies_sge_timeout adapter_example).trace ∧
    (adap_init0 replies_sge_timeout adapter_example).adap.flags &&& FW_OK = 0 := by
  have h := init0_abort_on_fatal replies_sge_timeout adapter_example .sge_init
    (by decide) (by decide) (by decide)
  exact ⟨by decide, by decide, h.1, h.2.1, h.2.2.1, h.2.2.2⟩

/-- C19 as stated fails for the optional capability probes: on a T5 adapter
whose `FILTER2_WR` query times out while every other step succeeds, `adap_init0`
goes on with further mailbox commands, sets `FW_OK` and returns `0`. -/
theorem init0_probe_timeout_ignored :
    replies_probe_timeout.ret .query_filter2_wr = -ETIMEDOUT ∧
    (adap_init0 replies_probe_timeout adapter_example).ret = 0 ∧
    (adap_init0 replies_probe_timeout adapter_example).adap.flags &&& FW_OK = FW_OK ∧
    (adap_init0 replies_probe_timeout adapter_example).trace =
      [.hello, .get_core_clock, .reset, .flash_cfg_addr, .caps_read_flash, .caps_write,
       .fw_init, .get_pfres, .query_portvec, .sge_init, .query_l2t_filter, .query_clip,
       .caps_read, .query_filter2_wr, .query_ntid, .set_cplfw4msg_encap,
       .query_ulptx_memwrite_dsgl] := by
  decide

theorem nat_or_and_self (x m : Nat) : (x ||| m) &&& m = m := by
  apply Nat.eq_of_testBit_eq
  intro i
  simp only [Nat.testBit_and, Nat.testBit_or]
  cases x.testBit i <;> cases m.testBit i <;> rfl

theorem caps_success (o : fw_replies) (a : adapter) (st : Nat) (tr : List fw_step)
    (hok : ∀ s, 0 ≤ o.ret s) (h1 : a.params.pfres = o.pfres)
    (h2 : a.params.portvec = o.port_vec % 4294967296)
    (h3 : a.params.nports = hweight32 (o.port_vec % 4294967296) % 256)
    (h4 : a.l2t_start = o.val .query_l2t_filter 0)
    (h5 : a.l2t_end = o.val .query_l2t_filter 1)
    (h6 : a.clipt_start = o.val .query_clip 0)
    (h7 : a.clipt_end = o.val .query_clip 1) :
    init0_populated o (adap_init0_caps o a st tr) ∧
    (tr ++ [.caps_read]) <+: (adap_init0_caps o a st tr).trace := by
  have n1 : ¬ o.ret .caps_read < 0 := by have := hok .caps_read; omega
  have n2 : ¬ o.ret .init_hash_filter < 0 := by have := hok .init_hash_filter; omega
  have n3 : ¬ o.ret .query_ntid < 0 := by have := hok .query_ntid; omega
  unfold adap_init0_caps
  simp only [n1, n2, n3, if_false, and_false]
  split_ifs
  all_goals
    refine ⟨⟨rfl, ?_, h1, h2, h3, h4, h5, h6, h7, rfl, rfl⟩, by simp [List.append_assoc]⟩
    exact nat_or_and_self _ _

theorem queries_success (o : fw_replies) (a : adapter) (st : Nat) (tr : List fw_step)
    (hok : ∀ s, 0 ≤ o.ret s) (hpf : o.ret .get_pfres = 0) :
    init0_populated o (adap_init0_queries o a st tr) ∧
    (tr ++ [.get_pfres, .query_portvec, .sge_init, .query_l2t_filter, .query_clip,
      .caps_read]) <+: (adap_init0_queries o a st tr).trace := by
  have n1 : ¬ o.ret .query_portvec < 0 := by have := hok .query_portvec; omega
  have n2 : ¬ o.ret .sge_init < 0 := by have := hok .sge_init; omega
  have n3 : ¬ o.ret .query_l2t_filter < 0 := by have := hok .query_l2t_filter; omega
  have n4 : ¬ o.ret .query_clip < 0 := by have := hok .query_clip; omega
  unfold adap_init0_queries
  simp only [n1, n2, n3, n4, hpf, if_false, ne_eq, not_true_eq_false]
  have h := caps_success o
    { a with
      params := { a.params with
        pfres := o.pfres
        nports := hweight32 (o.port_vec % 4294967296) % 256
        portvec := o.port_vec % 4294967296 }
      l2t_start := o.val .query_l2t_filter 0
      l2t_end := o.val .query_l2t_filter 1
      tids := { a.tids with
        ftid_base := o.val .query_l2t_filter 2
        nftids :=
          (o.val .query_l2t_filter 3 + 4294967296 - o.val .query_l2t_filter 2 + 1)
            % 4294967296 }
      clipt_start := o.val .query_clip 0
      clipt_end := o.val .query_clip 1 }
    st (tr ++ [.get_pfres] ++ [.query_portvec] ++ [.sge_init] ++ [.query_l2t_filter] ++
      [.query_clip]) hok rfl rfl rfl rfl rfl rfl rfl
  refine ⟨h.1, ?_⟩
  have e : tr ++ [fw_step.get_pfres, .query_portvec, .sge_init, .query_l2t_filter,
      .query_clip, .caps_read] =
      tr ++ [.get_pfres] ++ [.query_portvec] ++ [.sge_init] ++ [.query_l2t_filter] ++
        [.query_clip] ++ [.caps_read] := by simp
  rw [e]
  exact h.2

theorem config_success (o : fw_replies) (hok : ∀ s, 0 ≤ o.ret s) :
    adap_init0_config o 1 =
      (0, [.reset, .flash_cfg_addr, .caps_read_flash, .caps_write, .fw_init]) := by
  have n1 : ¬ o.ret .reset < 0 := by have := hok .reset; omega
  have n2 : ¬ o.ret .flash_cfg_addr < 0 := by have := hok .flash_cfg_addr; omega
  have n3 : ¬ o.ret .caps_read_flash = -ENOENT := by
    have := hok .caps_read_flash; unfold ENOENT; omega
  have n4 : ¬ o.ret .caps_read_flash < 0 := by have := hok .caps_read_flash; omega
  have n5 : ¬ o.ret .caps_write < 0 := by have := hok .caps_write; omega
  have n6 : ¬ o.ret .fw_init < 0 := by have := hok .fw_init; omega
  unfold adap_init0_config
  simp only [n1, n2, n3, n4, n5, n6, if_false, and_false, ne_eq, one_ne_zero,
    not_false_eq_true, if_true, List.cons_append, List.nil_append]

theorem init0_success_initialized (o : fw_replies) (adap : adapter)
    (hst : o.state = DEV_STATE_INIT) (hok : ∀ s, 0 ≤ o.ret s) (hpf : o.ret .get_pfres = 0) :
    init0_populated o (adap_init0 o adap) ∧
    [.hello, .halt, .restart, .get_core_clock, .reset, .flash_cfg_addr, .caps_read_flash,
      .caps_write, .fw_init, .get_pfres, .query_portvec, .sge_init, .query_l2t_filter,
      .query_clip, .caps_read] <+: (adap_init0 o adap).trace := by
  have n1 : ¬ o.ret .hello < 0 := by have := hok .hello; omega
  have n2 : ¬ o.ret .halt < 0 := by have := hok .halt; omega
  have n3 : ¬ o.ret .restart < 0 := by have := hok .restart; omega
  have n4 : ¬ o.ret .get_core_clock < 0 := by have := hok .get_core_clock; omega
  have hs : ¬ (DEV_STATE_INIT &&& (4294967295 - DEV_STATE_INIT)) = DEV_STATE_INIT := by decide
  unfold adap_init0 adap_init0_clock
  simp only [n1, n2, n3, n4, hst, hs, if_false, if_true, config_success o hok]
  have e1 : ¬ ((0 : Int) = -ENOENT) := by decide
  have e2 : ¬ ((0 : Int) < 0) := by decide
  simp only [e1, e2, if_false]
  have h := queries_success o
    (if o.ret .hello = adap.mbox then { adap with flags := adap.flags ||| MASTER_PF }
      else adap)
    (DEV_STATE_INIT &&& (4294967295 - DEV_STATE_INIT))
    ([.hello, .halt, .restart] ++ [.get_core_clock] ++
      [.reset, .flash_cfg_addr, .caps_read_flash, .caps_write, .fw_init]) hok hpf
  exact h

/-- C20 (as the code behaves). When the hello step succeeds and the firmware
reports the adapter as initialized, `adap_init0` (master or not) halts and
restarts the firmware, reads the core clock and then runs all of
`adap_init0_config` (reset, configuration address, capability read, capability
write, firmware-initialize) before the resource queries; when every step
succeeds it returns `0` with `FW_OK` set and the resource limits as the queries
reported them. -/
theorem init0_initialized_reconfigures (o : fw_replies) (adap : adapter)
    (hst : o.state = DEV_STATE_INIT) (hok : ∀ s, 0 ≤ o.ret s)
    (hpf : o.ret .get_pfres = 0) :
    (adap_init0 o adap).ret = 0 ∧
    (adap_init0 o adap).adap.flags &&& FW_OK = FW_OK ∧
    [.hello, .halt, .restart, .get_core_clock, .reset, .flash_cfg_addr, .caps_read_flash,
      .caps_write, .fw_init, .get_pfres, .query_portvec, .sge_init, .query_l2t_filter,
      .query_clip, .caps_read] <+: (adap_init0 o adap).trace ∧
    (adap_init0 o adap).adap.params.pfres = o.pfres ∧
    (adap_init0 o adap).adap.params.portvec = o.port_vec % 4294967296 ∧
    (adap_init0 o adap).adap.params.nports = hweight32 (o.port_vec % 4294967296) % 256 ∧
    (adap_init0 o adap).adap.l2t_start = o.val .query_l2t_filter 0 ∧
    (adap_init0 o adap).adap.l2t_end = o.val .query_l2t_filter 1 ∧
    (adap_init0 o adap).adap.clipt_start = o.val .query_clip 0 ∧
    (adap_init0 o adap).adap.clipt_end = o.val .query_clip 1 ∧
    (adap_init0 o adap).adap.tids.ntids = o.val .query_ntid 0 ∧
    (adap_init0 o adap).adap.tids.natids = min (o.val .query_ntid 0 / 2) MAX_ATIDS := by
  have h := init0_success_initialized o adap hst hok hpf
  exact ⟨h.1.ret, h.1.fw_ok, h.2, h.1.pfres, h.1.portvec, h.1.nports, h.1.l2t_start,
    h.1.l2t_end, h.1.clipt_start, h.1.clipt_end, h.1.ntids, h.1.natids⟩

theorem init0_initialized_reconfigures_witness :
    replies_initialized.state = DEV_STATE_INIT ∧
    (adap_init0 replies_initialized adapter_example).ret = 0 ∧
    (adap_init0 replies_initialized adapter_example).adap.flags &&& FW_OK = FW_OK ∧
    [.hello, .halt, .restart, .get_core_clock, .reset, .flash_cfg_addr, .caps_read_flash,
      .caps_write, .fw_init, .get_pfres, .query_portvec, .sge_init, .query_l2t_filter,
      .query_clip, .caps_read] <+: (adap_init0 replies_initialized adapter_example).trace ∧
    (adap_init0 replies_initialized adapter_example).adap.params.nports = 2 ∧
    (adap_init0 replies_initialized adapter_example).adap.tids.ntids = 10 := by
  have h := init0_initialized_reconfigures replies_initialized adapter_example rfl
    (fun _ => le_refl 0) rfl
  exact ⟨rfl, h.1, h.2.1, h.2.2.1, by decide, h.2.2.2.2.2.2.2.2.2.2.1⟩

/-- C20 as stated fails: with a successful hello answered for another function
(the caller is not the master) and the device state reported as initialized,
`adap_init0` issues the halt and the restart and all of `adap_init0_config`
(reset, capability write, firmware-initialize) before the resource queries. -/
theorem init0_initialized_not_skipped :
    replies_initialized.state = DEV_STATE_INIT ∧
    replies_initialized.ret .hello ≠ adapter_example.mbox ∧
    (adap_init0 replies_initialized adapter_example).adap.flags &&& MASTER_PF = 0 ∧
    (adap_init0 replies_initialized adapter_example).ret = 0 ∧
    (adap_init0 replies_initialized adapter_example).trace =
      [.hello, .halt, .restart, .get_core_clock, .reset, .flash_cfg_addr, .caps_read_flash,
       .caps_write, .fw_init, .get_pfres, .query_portvec, .sge_init, .query_l2t_filter,
       .query_clip, .caps_read, .query_filter2_wr, .query_ntid, .set_cplfw4msg_encap,
       .query_ulptx_memwrite_dsgl] := by
  decide

/-! ## Configuration fallback and failure exits: claims -/

/-- C21. In `adap_init0_config` each of the two capability reads is issued at
most once; the read of the embedded configuration is issued exactly when the
read from flash was issued and answered `-ENOENT`, and then directly after it;
and when the read in effect (the embedded one after `-ENOENT`, the flash one
otherwise) fails, a second `-ENOENT` included, the function returns that status
with the read as its last command: no capability write, no
firmware-initialize. -/
theorem config_fallback_once (o : fw_replies) (reset : Nat) :
    (adap_init0_config o reset).2.count .caps_read_flash ≤ 1 ∧
    (adap_init0_config o reset).2.count .caps_read_embedded ≤ 1 ∧
    (fw_step.caps_read_embedded ∈ (adap_init0_config o reset).2 ↔
      fw_step.caps_read_flash ∈ (adap_init0_config o reset).2 ∧
        o.ret .caps_read_flash = -ENOENT) ∧
    (fw_step.caps_read_embedded ∈ (adap_init0_config o reset).2 →
      [.caps_read_flash, .caps_read_embedded] <:+: (adap_init0_config o reset).2) ∧
    (fw_step.caps_read_flash ∈ (adap_init0_config o reset).2 →
      (if o.ret .caps_read_flash = -ENOENT then o.ret .caps_read_embedded
        else o.ret .caps_read_flash) < 0 →
      (adap_init0_config o reset).1 =
        (if o.ret .caps_read_flash = -ENOENT then o.ret .caps_read_embedded
          else o.ret .caps_read_flash) ∧
      (adap_init0_config o reset).2.getLast? =
        some (if o.ret .caps_read_flash = -ENOENT then fw_step.caps_read_embedded
          else fw_step.caps_read_flash) ∧
      fw_step.caps_write ∉ (adap_init0_config o reset).2 ∧
      fw_step.fw_init ∉ (adap_init0_config o reset).2) := by
  unfold adap_init0_config
  simp only
  by_cases hr : reset = 0
  · simp only [hr, ne_eq, not_true_eq_false, if_false, false_and, List.nil_append]
    split_ifs with h2 h3 h4 h5 h6 h7 h8 h9 <;>
      simp_all [List.count_cons] <;> decide
  · simp only [hr, ne_eq, not_false_eq_true, if_true, true_and]
    split_ifs with h1 h2 h3 h4 h5 h6 h7 h8 h9 <;>
      simp_all [List.count_cons] <;> decide

theorem config_fallback_once_witness :
    fw_step.caps_read_flash ∈ (adap_init0_config replies_no_config 1).2 ∧
    (adap_init0_config replies_no_config 1).1 = -ENOENT ∧
    (adap_init0_config replies_no_config 1).2.count .caps_read_embedded ≤ 1 ∧
    fw_step.caps_write ∉ (adap_init0_config replies_no_config 1).2 ∧
    fw_step.fw_init ∉ (adap_init0_config replies_no_config 1).2 := by
  have h := config_fallback_once replies_no_config 1
  have h2 := h.2.2.2.2 (by decide) (by decide)
  exact ⟨by decide, h2.1.trans (by decide), h.2.1, h2.2.2.1, h2.2.2.2⟩

theorem zero_bye (o : fw_replies) (ret : Int) (a : adapter) (t : List fw_step)
    (h : ret ≠ 0) : zero_only_ok o (adap_init0_bye ret a t) :=
  fun h0 => absurd h0 h

theorem mem_bye_trace (ret : Int) (a : adapter) (t : List fw_step) (s : fw_step)
    (h : s ∈ t) : s ∈ (adap_init0_bye ret a t).trace := by
  unfold adap_init0_bye
  simp only
  split
  · exact List.mem_append.2 (Or.inl h)
  · exact h

theorem zero_caps (o : fw_replies) (a : adapter) (st : Nat) (tr : List fw_step) :
    zero_only_ok o (adap_init0_caps o a st tr) := by
  unfold adap_init0_caps
  simp only
  split_ifs with h1 h2
  all_goals first
    | exact zero_bye o _ _ _ (by omega)
    | exact fun _ => Or.inr ⟨mem_bye_trace _ _ _ _ (by simp), h2.2⟩
    | exact fun _ => Or.inl (nat_or_and_self _ _)

theorem zero_queries (o : fw_replies) (a : adapter) (st : Nat) (tr : List fw_step) :
    zero_only_ok o (adap_init0_queries o a st tr) := by
  unfold adap_init0_queries
  simp only
  split_ifs
  all_goals first
    | exact zero_bye o _ _ _ (by omega)
    | exact zero_bye o _ _ _ (by assumption)
    | exact zero_caps o _ _ _

theorem zero_clock (o : fw_replies) (a : adapter) (st : Nat) (tr : List fw_step) :
    zero_only_ok o (adap_init0_clock o a st tr) := by
  unfold adap_init0_clock
  simp only
  split_ifs with h1 h2 h3 h4
  · exact zero_bye o _ _ _ (by omega)
  · exact zero_queries o _ _ _
  · exact zero_bye o _ _ _ (by rw [h3]; decide)
  · exact zero_bye o _ _ _ (by omega)
  · exact zero_queries o _ _ _

theorem zero_init0 (o : fw_replies) (adap : adapter) :
    zero_only_ok o (adap_init0 o adap) := by
  unfold adap_init0
  simp only
  split_ifs
  all_goals first
    | exact zero_bye o _ _ _ (by omega)
    | exact zero_clock o _ _ _

/-- C22: the failure exit of `adap_init0` can return `0`. On a T6 adapter whose
firmware offers hash filters, with every mailbox command succeeding and
`cxgbe_init_hash_filter` failing, `adap_init0` leaves through `bye` (the goodbye
is its last call), does not set `FW_OK`, and returns `0`. This is the only such
exit: for all step outcomes, a return value of `0` comes with `FW_OK` set or with
a failed hash-filter set-up. -/
theorem init0_hash_filter_failure_returns_zero :
    (replies_hash_failure.ret .init_hash_filter < 0 ∧
     (adap_init0 replies_hash_failure adapter_t6).ret = 0 ∧
     (adap_init0 replies_hash_failure adapter_t6).adap.flags &&& FW_OK = 0 ∧
     fw_step.init_hash_filter ∈ (adap_init0 replies_hash_failure adapter_t6).trace ∧
     (adap_init0 replies_hash_failure adapter_t6).trace.getLast? = some .bye) ∧
    (∀ (o : fw_replies) (adap : adapter), (adap_init0 o adap).ret = 0 →
      (adap_init0 o adap).adap.flags &&& FW_OK = FW_OK ∨
      (fw_step.init_hash_filter ∈ (adap_init0 o adap).trace ∧
        o.ret .init_hash_filter < 0)) :=
  ⟨by decide, fun o adap => zero_init0 o adap⟩

/-! ## Probe: claims -/

theorem probe_ports_zero (r : probe_replies) (l : List Nat) (e : Int)
    (h : probe_ports r 0 l = some e) (he : -e = 0) :
    ∃ i ∈ l, i ≠ 0 ∧ (r.eth_dev_ok i = false ∨ r.priv_ok i = false) := by
  induction l with
  | nil => simp [probe_ports] at h
  | cons i rest ih =>
    unfold probe_ports at h
    split_ifs at h with h1 h2 h3
    · exact ⟨i, List.mem_cons_self _ _, h1.1, Or.inl h1.2⟩
    · exact ⟨i, List.mem_cons_self _ _, h2.1, Or.inr h2.2⟩
    · simp only [Option.some.injEq] at h
      omega
    · obtain ⟨j, hj, hne, hf⟩ := ih h
      exact ⟨j, List.mem_cons_of_mem _ hj, hne, hf⟩

theorem init_rss_ports_tid (rss_ok : Nat → Bool) (l : List Nat) :
    init_rss_ports rss_ok l = 0 ∨ init_rss_ports rss_ok l = -ENOMEM := by
  induction l with
  | nil => exact Or.inl rfl
  | cons i rest ih =>
    unfold init_rss_ports
    split_ifs
    · exact Or.inr rfl
    · exact ih

/-- C23: the failure path of `cxgbe_probe` can return `0`. With two ports and
every other step succeeding, a failed `rte_eth_dev_allocate` for the second port
sends the probe to `out_free` with `err` still `0`, so the probe returns `0`. A
failed ethdev entry or private-data allocation of a port other than the first is
the only way to leave through `out_free` with `0`; and a failed `tid_init` alone
leaves the probe successful. -/
theorem probe_failure_returns_zero :
    ((cxgbe_probe probe_replies_no_ethdev adapter_two_ports).path = .out_free ∧
     (cxgbe_probe probe_replies_no_ethdev adapter_two_ports).ret = 0) ∧
    (∀ (r : probe_replies) (adap : adapter),
      (cxgbe_probe r adap).path = .out_free → (cxgbe_probe r adap).ret = 0 →
      ∃ i, i ≠ 0 ∧ i < (cxgbe_probe r adap).adap.params.nports ∧
        (r.eth_dev_ok i = false ∨ r.priv_ok i = false)) ∧
    ((cxgbe_probe probe_replies_no_tids adapter_two_ports).path = .done ∧
     (cxgbe_probe probe_replies_no_tids adapter_two_ports).ret = 0 ∧
     (cxgbe_probe probe_replies_no_tids adapter_two_ports).adap.tids.tid_tab = none) := by
  refine ⟨by decide, ?_, by decide⟩
  intro r adap
  unfold cxgbe_probe
  simp only
  by_cases h1 : r.chip < 0
  · rw [if_pos h1]; intro hp; simp at hp
  rw [if_neg h1]
  by_cases h2 : r.prep ≠ 0
  · rw [if_pos h2]; intro hp; simp at hp
  rw [if_neg h2]
  generalize adap_init0 r.fw _ = i0
  by_cases h3 : i0.ret ≠ 0
  · rw [if_pos h3]
    intro _ hr
    simp only [probe_out_free] at hr
    omega
  rw [if_neg h3]
  have h3' : i0.ret = 0 := not_not.1 h3
  by_cases h4 : is_t4 i0.adap.params.chip = false ∧ r.bar2 = false
  · rw [if_pos h4]
    intro _ hr
    simp only [probe_out_free, ENOMEM] at hr
    omega
  rw [if_neg h4, h3']
  cases hpp : probe_ports r 0 (List.range i0.adap.params.nports) with
  | some err =>
    simp only
    intro _ hr
    obtain ⟨i, hi, hne, hf⟩ := probe_ports_zero r _ err hpp hr
    exact ⟨i, hne, List.mem_range.1 hi, hf⟩
  | none =>
    simp only
    split_ifs with h5 h6
    · intro _ hr
      simp only [probe_out_free] at hr
      omega
    · intro _ hr
      simp only [probe_out_free] at hr
      omega
    · intro hp; simp at hp

/-! ## Queue-set capacity: claims -/

/-- C24 (as the code behaves). On physical function 4, for a resource record
with `1 <= niqflint <= 2^31` (so that neither `niqflint - 1` nor its double
wraps in `unsigned int`), the capacity `q = max_ethqsets` computed by
`cxgbe_configure_max_ethqsets` satisfies `q <= MAX_ETH_QSETS`,
`q + 1 <= niqflint` and `2 * q <= neq`. -/
theorem max_ethqsets_ceilings (adap : adapter) (hpf : is_pf4 adap = true)
    (hlo : 1 ≤ adap.params.pfres.niqflint)
    (hhi : adap.params.pfres.niqflint ≤ 2147483648) :
    (cxgbe_configure_max_ethqsets adap).sge.max_ethqsets ≤ MAX_ETH_QSETS ∧
    (cxgbe_configure_max_ethqsets adap).sge.max_ethqsets + 1 ≤ adap.params.pfres.niqflint ∧
    2 * (cxgbe_configure_max_ethqsets adap).sge.max_ethqsets ≤ adap.params.pfres.neq := by
  unfold cxgbe_configure_max_ethqsets MAX_ETH_QSETS
  simp only [hpf, if_true]
  generalize adap.params.pfres.niqflint = n at hlo hhi ⊢
  generalize adap.params.pfres.neq = m
  split_ifs <;> omega

theorem max_ethqsets_ceilings_witness :
    is_pf4 { adapter_example with params := { pfres := { niqflint := 34, neq := 70 } } } = true ∧
    (cxgbe_configure_max_ethqsets
      { adapter_example with params := { pfres := { niqflint := 34, neq := 70 } } }
      ).sge.max_ethqsets = 33 ∧
    (cxgbe_configure_max_ethqsets
      { adapter_example with params := { pfres := { niqflint := 34, neq := 70 } } }
      ).sge.max_ethqsets + 1 ≤ 34 := by
  have h := max_ethqsets_ceilings
    { adapter_example with params := { pfres := { niqflint := 34, neq := 70 } } }
    (by decide) (by decide) (by decide)
  exact ⟨by decide, by decide, h.2.1⟩

/-- C24 as stated fails at the edges of `unsigned int`. With `niqflint = 0` the
subtraction `niqflint - 1` wraps and the capacity is `64`, so `q + 1 <= niqflint`
fails; with `niqflint = 2^31 + 1` the product `ethqsets * 2` wraps to `0`, the
test against `neq` is skipped and for `neq = 5` the capacity is `64`, so
`2 * q <= neq` fails. -/
theorem max_ethqsets_wraps :
    (cxgbe_configure_max_ethqsets
      { adapter_example with params := { pfres := { niqflint := 0, neq := 200 } } }
      ).sge.max_ethqsets = 64 ∧
    (cxgbe_configure_max_ethqsets
      { adapter_example with params := { pfres := { niqflint := 2147483649, neq := 5 } } }
      ).sge.max_ethqsets = 64 := by
  decide

/-! ## Queue topology: transmit counts and capacity -/

/-- The port record `cxgbe_cfg_queues` leaves at index `i` of an unconfigured
adapter: `cfg_port` at the quota of the adapter and the sum of the receive counts
of the ports before. -/
theorem cfg_queues_port_get (adap : adapter) (fw : fw_set_params → Int) (cores i : Nat)
    (pi : port_info) (hflag : adap.flags &&& CFG_QUEUES = 0)
    (hi : i < adap.params.nports) (hpi : adap.port[i]? = some pi) :
    (cxgbe_cfg_queues adap fw cores).1.port[i]? =
      some (cfg_port (cfg_quota adap cores)
        (0 + (((adap.port.take adap.params.nports).take i).map
          (fun pi => (cfg_port (cfg_quota adap cores) 0 pi).n_rx_qsets)).sum) pi) := by
  have hport : (cxgbe_cfg_queues adap fw cores).1.port =
      cfg_ports (cfg_quota adap cores) (adap.port.take adap.params.nports) 0 ++
        adap.port.drop adap.params.nports := by
    unfold cxgbe_cfg_queues
    rw [if_pos hflag]
    rfl
  have hil : i < adap.port.length := by
    rcases List.getElem?_eq_some_iff.1 hpi with ⟨h, _⟩
    exact h
  have hlen : i < (adap.port.take adap.params.nports).length := by
    rw [List.length_take]; omega
  have hclen := cfg_ports_length (cfg_quota adap cores) (adap.port.take adap.params.nports) 0
  have htake : (adap.port.take adap.params.nports)[i]? = some pi := by
    rw [List.getElem?_take_of_lt hi]; exact hpi
  rw [hport, List.getElem?_append_left (by omega), cfg_ports_get, htake]
  rfl

/-- C25 (as the code behaves). After `cxgbe_cfg_queues` has planned an
unconfigured adapter, every port has as `n_tx_qsets` its share before the clamp
(the per-port quota for a port capable of 1G or faster, `1` otherwise, stored in
a `u8`) and as `n_rx_qsets` the smaller of `n_tx_qsets` and its `rss_size`: the
two counts are equal exactly when the share does not exceed `rss_size`, and
`n_rx_qsets` is the smaller one otherwise. -/
theorem cfg_queues_tx_rx (adap : adapter) (fw : fw_set_params → Int) (cores i : Nat)
    (pi : port_info) (hflag : adap.flags &&& CFG_QUEUES = 0)
    (hi : i < adap.params.nports) (hpi : adap.port[i]? = some pi) :
    ∃ pi2, (cxgbe_cfg_queues adap fw cores).1.port[i]? = some pi2 ∧
      pi2.n_tx_qsets = (if port_is_fast pi then cfg_quota adap cores else 1) % 256 ∧
      pi2.n_rx_qsets = min pi2.n_tx_qsets pi.rss_size ∧
      (pi2.n_tx_qsets = pi2.n_rx_qsets ↔ pi2.n_tx_qsets ≤ pi.rss_size) := by
  refine ⟨_, cfg_queues_port_get adap fw cores i pi hflag hi hpi, rfl, ?_, ?_⟩
  · rw [cfg_port_n_rx (cfg_quota adap cores) _ 0 pi, cfg_port_n_rx_eq]
    rfl
  · rw [cfg_port_n_rx (cfg_quota adap cores) _ 0 pi, cfg_port_n_rx_eq]
    show (if port_is_fast pi then cfg_quota adap cores else 1) % 256 = _ ↔
      (if port_is_fast pi then cfg_quota adap cores else 1) % 256 ≤ _
    generalize (if port_is_fast pi then cfg_quota adap cores else 1) % 256 = n
    omega

theorem cfg_queues_tx_rx_witness :
    adapter_two_ports.flags &&& CFG_QUEUES = 0 ∧
    (∃ pi2, (cxgbe_cfg_queues adapter_two_ports (fun _ => 0) 3).1.port[1]? = some pi2 ∧
      pi2.n_tx_qsets =
        (if port_is_fast (port_example 4 4) then cfg_quota adapter_two_ports 3 else 1) % 256 ∧
      pi2.n_rx_qsets = min pi2.n_tx_qsets (port_example 4 4).rss_size ∧
      (pi2.n_tx_qsets = pi2.n_rx_qsets ↔ pi2.n_tx_qsets ≤ (port_example 4 4).rss_size)) ∧
    ((cxgbe_cfg_queues adapter_two_ports (fun _ => 0) 3).1.port.map
      (fun p => (p.n_rx_qsets, p.n_tx_qsets))) = [(3, 3), (3, 3)] := by
  have h := cfg_queues_tx_rx adapter_two_ports (fun _ => 0) 3 1 (port_example 4 4)
    (by decide) (by decide) rfl
  exact ⟨by decide, h, by decide⟩

/-- C25 as stated fails when the quota exceeds the RSS slice: in the end-to-end
scenario of the specification (16 queue sets, two ports of 10G, 8 cores,
`rss_size = 4`) every port ends with `n_rx_qsets = 4` and `n_tx_qsets = 8`. -/
theorem cfg_queues_tx_exceeds_rx :
    adapter_two_ports.flags &&& CFG_QUEUES = 0 ∧
    ((cxgbe_cfg_queues adapter_two_ports (fun _ => 0) 8).1.port.map
      (fun p => (p.n_rx_qsets, p.n_tx_qsets))) = [(4, 8), (4, 8)] := by
  decide

theorem cfg_quota_total_u16 (adap : adapter) (cores : Nat)
    (hports : adap.params.nports ≤ adap.port.length) (hn : adap.params.nports < 256)
    (hmax : adap.sge.max_ethqsets < 65536)
    (hund : adap.params.nports - active_ports adap ≤ adap.sge.max_ethqsets) :
    cfg_quota adap cores ≤ adap.sge.max_ethqsets ∧
    ((adap.port.take adap.params.nports).map
      (fun pi => (cfg_port (cfg_quota adap cores) 0 pi).n_rx_qsets)).sum
        ≤ adap.sge.max_ethqsets := by
  have hq := cfg_quota_eq adap cores hports hn hmax hund
  have hlen : (adap.port.take adap.params.nports).length = adap.params.nports := by
    simp; omega
  have htot := cfg_ports_total_le (cfg_quota adap cores) (adap.port.take adap.params.nports)
  rw [hlen] at htot
  have hA : (adap.port.take adap.params.nports).countP port_is_fast = active_ports adap := rfl
  rw [hA] at htot
  have hle : active_ports adap ≤ adap.params.nports := by
    have h := List.countP_le_length port_is_fast (l := adap.port.take adap.params.nports)
    rw [hlen, hA] at h
    exact h
  generalize cfg_quota adap cores = q at hq htot ⊢
  generalize active_ports adap = A at hq htot hle hund
  generalize adap.params.nports = n at hq htot hle hund
  generalize adap.sge.max_ethqsets = m at hq htot hund
  by_cases hA0 : A = 0
  · simp only [hA0, if_true] at hq
    subst hq; subst hA0
    rw [Nat.zero_mul] at htot
    exact ⟨by omega, by omega⟩
  · simp only [hA0, if_false] at hq
    have h1 : q ≤ (m - (n - A)) / A := by rw [hq]; exact Nat.min_le_left _ _
    have h2 : A * ((m - (n - A)) / A) ≤ m - (n - A) := Nat.mul_div_le _ _
    have h3 : A * q ≤ A * ((m - (n - A)) / A) := Nat.mul_le_mul_left _ h1
    have h4 : (m - (n - A)) / A ≤ m - (n - A) := Nat.div_le_self _ _
    constructor
    · omega
    · have : A * q + (n - A) ≤ m := by omega
      omega

theorem list_sum_take_succ_le (l : List Nat) (i x : Nat) (h : l[i]? = some x) :
    (l.take i).sum + x ≤ l.sum := by
  have h1 : l.take (i + 1) = l.take i ++ [x] := by
    rw [List.take_succ, h]; rfl
  have h2 := list_sum_take_le l (i + 1)
  rw [h1, List.sum_append] at h2
  simpa using h2

theorem cfg_quota_pos (adap : adapter) (cores : Nat)
    (hports : adap.params.nports ≤ adap.port.length) (hn : adap.params.nports < 256)
    (hmax : adap.sge.max_ethqsets ≤ MAX_ETH_QSETS)
    (hge : adap.params.nports ≤ adap.sge.max_ethqsets) (hcores : 1 ≤ cores)
    (hact : 0 < active_ports adap) : 1 ≤ cfg_quota adap cores := by
  have hmax2 : adap.sge.max_ethqsets ≤ 64 := hmax
  have hq := cfg_quota_eq adap cores hports hn (by omega) (by omega)
  have hle : active_ports adap ≤ adap.params.nports := by
    unfold active_ports
    calc (adap.port.take adap.params.nports).countP port_is_fast
        ≤ (adap.port.take adap.params.nports).length := List.countP_le_length _
      _ ≤ adap.params.nports := by simp
  rw [hq, if_neg (by omega)]
  have h1 : 1 ≤ (adap.sge.max_ethqsets - (adap.params.nports - active_ports adap))
      / active_ports adap := by
    rw [Nat.le_div_iff_mul_le hact]
    omega
  exact le_min h1 hcores

/-- C26. For an unconfigured adapter whose `max_ethqsets` (a `u16`) is at least
the number of its ports below 1G: after `cxgbe_cfg_queues` the `n_rx_qsets` of
all ports sum to at most `max_ethqsets`, and every planned queue-set index
`first_qset + k` with `k < n_rx_qsets` is below `max_ethqsets`; if moreover
`max_ethqsets >= nports` (and at most `MAX_ETH_QSETS`, as
`cxgbe_configure_max_ethqsets` leaves it), there is at least one core and every
`rss_size` is at least `1`, every port gets at least one queue set. -/
theorem cfg_queues_capacity (adap : adapter) (fw : fw_set_params → Int) (cores : Nat)
    (hflag : adap.flags &&& CFG_QUEUES = 0)
    (hports : adap.params.nports ≤ adap.port.length) (hn : adap.params.nports < 256)
    (hmax : adap.sge.max_ethqsets < 65536)
    (hund : adap.params.nports - active_ports adap ≤ adap.sge.max_ethqsets) :
    (((cxgbe_cfg_queues adap fw cores).1.port.take adap.params.nports).map
      (fun pi => pi.n_rx_qsets)).sum ≤ (cxgbe_cfg_queues adap fw cores).1.sge.max_ethqsets ∧
    (∀ i pi2 k, i < adap.params.nports →
      (cxgbe_cfg_queues adap fw cores).1.port[i]? = some pi2 → k < pi2.n_rx_qsets →
      pi2.first_qset + k < (cxgbe_cfg_queues adap fw cores).1.sge.max_ethqsets) ∧
    (adap.params.nports ≤ adap.sge.max_ethqsets →
      adap.sge.max_ethqsets ≤ MAX_ETH_QSETS → 1 ≤ cores →
      (∀ pi ∈ adap.port.take adap.params.nports, 1 ≤ pi.rss_size) →
      ∀ i pi2, i < adap.params.nports →
        (cxgbe_cfg_queues adap fw cores).1.port[i]? = some pi2 → 1 ≤ pi2.n_rx_qsets) := by
  obtain ⟨hq, htot⟩ := cfg_quota_total_u16 adap cores hports hn hmax hund
  have hport : (cxgbe_cfg_queues adap fw cores).1.port =
      cfg_ports (cfg_quota adap cores) (adap.port.take adap.params.nports) 0 ++
        adap.port.drop adap.params.nports := by
    unfold cxgbe_cfg_queues
    rw [if_pos hflag]
    rfl
  have hsge : (cxgbe_cfg_queues adap fw cores).1.sge.max_ethqsets =
      adap.sge.max_ethqsets := by
    unfold cxgbe_cfg_queues
    rw [if_pos hflag]
  have hlen : (adap.port.take adap.params.nports).length = adap.params.nports := by
    simp; omega
  have hclen := cfg_ports_length (cfg_quota adap cores) (adap.port.take adap.params.nports) 0
  rw [hsge]
  refine ⟨?_, ?_, ?_⟩
  · rw [hport, List.take_append_of_le_length (by omega), List.take_of_length_le (by omega),
      cfg_ports_n_rx]
    exact htot
  · intro i pi2 k hi hpi2 hk
    have hil : i < adap.port.length := by omega
    have hpi : adap.port[i]? = some (adap.port.get ⟨i, hil⟩) := by
      rw [List.getElem?_eq_getElem hil]; rfl
    have hget := cfg_queues_port_get adap fw cores i _ hflag hi hpi
    rw [hget] at hpi2
    have hpi2' := (Option.some.inj hpi2).symm
    have htake : ((adap.port.take adap.params.nports).map
        (fun pi => (cfg_port (cfg_quota adap cores) 0 pi).n_rx_qsets))[i]? =
        some (cfg_port (cfg_quota adap cores) 0 (adap.port.get ⟨i, hil⟩)).n_rx_qsets := by
      rw [List.getElem?_map, List.getElem?_take_of_lt hi, hpi]; rfl
    have hsum := list_sum_take_succ_le _ i _ htake
    rw [← List.map_take] at hsum
    have hrx : pi2.n_rx_qsets =
        (cfg_port (cfg_quota adap cores) 0 (adap.port.get ⟨i, hil⟩)).n_rx_qsets := by
      rw [hpi2']; rfl
    have hfirst : pi2.first_qset =
        (0 + (((adap.port.take adap.params.nports).take i).map
          (fun pi => (cfg_port (cfg_quota adap cores) 0 pi).n_rx_qsets)).sum) % 256 := by
      rw [hpi2']; rfl
    rw [hrx] at hk
    rw [hfirst]
    generalize (((adap.port.take adap.params.nports).take i).map
          (fun pi => (cfg_port (cfg_quota adap cores) 0 pi).n_rx_qsets)).sum = s at hsum ⊢
    generalize (cfg_port (cfg_quota adap cores) 0 (adap.port.get ⟨i, hil⟩)).n_rx_qsets = x
      at hsum hk
    omega
  · intro hge hcap hcores hrss i pi2 hi hpi2
    have hmax2 : adap.sge.max_ethqsets ≤ 64 := hcap
    have hil : i < adap.port.length := by omega
    have hpi : adap.port[i]? = some (adap.port.get ⟨i, hil⟩) := by
      rw [List.getElem?_eq_getElem hil]; rfl
    have hget := cfg_queues_port_get adap fw cores i _ hflag hi hpi
    rw [hget] at hpi2
    have hpi2' := (Option.some.inj hpi2).symm
    have hmem : adap.port.get ⟨i, hil⟩ ∈ adap.port.take adap.params.nports := by
      apply List.mem_iff_getElem?.2
      exact ⟨i, by rw [List.getElem?_take_of_lt hi]; exact hpi⟩
    have hr := hrss _ hmem
    have hrx : pi2.n_rx_qsets =
        (cfg_port (cfg_quota adap cores) 0 (adap.port.get ⟨i, hil⟩)).n_rx_qsets := by
      rw [hpi2']; rfl
    rw [hrx, cfg_port_n_rx_eq]
    cases hf : port_is_fast (adap.port.get ⟨i, hil⟩)
    · simp only [Bool.false_eq_true, if_false]
      exact le_min (by decide) hr
    · simp only [if_true]
      have hact : 0 < active_ports adap := by
        unfold active_ports
        exact List.countP_pos.2 ⟨_, hmem, hf⟩
      have hq1 := cfg_quota_pos adap cores hports hn hcap hge hcores hact
      have : cfg_quota adap cores % 256 = cfg_quota adap cores :=
        Nat.mod_eq_of_lt (by omega)
      rw [this]
      exact le_min hq1 hr

theorem cfg_queues_capacity_witness :
    adapter_two_ports.flags &&& CFG_QUEUES = 0 ∧
    adapter_two_ports.params.nports - active_ports adapter_two_ports ≤
      adapter_two_ports.sge.max_ethqsets ∧
    (((cxgbe_cfg_queues adapter_two_ports (fun _ => 0) 8).1.port.take 2).map
      (fun pi => pi.n_rx_qsets)).sum = 8 ∧
    (((cxgbe_cfg_queues adapter_two_ports (fun _ => 0) 8).1.port.take
      adapter_two_ports.params.nports).map (fun pi => pi.n_rx_qsets)).sum ≤
      (cxgbe_cfg_queues adapter_two_ports (fun _ => 0) 8).1.sge.max_ethqsets := by
  have h := cfg_queues_capacity adapter_two_ports (fun _ => 0) 8 (by decide) (by decide)
    (by decide) (by decide) (by decide)
  exact ⟨by decide, by decide, by decide, h.1⟩

/-! ## Queue counts of a port: claims -/

theorem clear_rss_done_testBit (f i : Nat) (hf : f < 18446744073709551616) :
    (f &&& (18446744073709551615 - PORT_RSS_DONE)).testBit i =
      (f.testBit i && !PORT_RSS_DONE.testBit i) := by
  have hm : 18446744073709551615 - PORT_RSS_DONE = 2 ^ 64 - (PORT_RSS_DONE + 1) := by decide
  rw [Nat.testBit_and, hm, Nat.testBit_two_pow_sub_succ (by decide)]
  by_cases hi : i < 64
  · simp [hi]
  · have hlt : f < 2 ^ i :=
      lt_of_lt_of_le hf (by
        have : (18446744073709551616 : Nat) = 2 ^ 64 := by norm_num
        rw [this]
        exact Nat.pow_le_pow_right (by decide) (by omega))
    rw [Nat.testBit_lt_two_pow hlt]
    simp

/-- C27. With `nports > 0` (and `max_ethqsets` at most `MAX_ETH_QSETS`, the
flags word within its 64 bits), `cxgbe_cfg_queue_count` is an all-or-nothing
validator: it returns `-EINVAL` and leaves the port as it was when a requested
count is below `1`, when either exceeds `max_ethqsets / nports`, or when the
receive count exceeds `rss_size`; otherwise it returns `0`, stores exactly the
requested counts in `n_rx_qsets` and `n_tx_qsets`, clears `PORT_RSS_DONE`, and
leaves every other flag and field of the port as it was. -/
theorem cfg_queue_count_validates (adap : adapter) (pi : port_info) (nb_rx nb_tx : Nat)
    (hnp : 0 < adap.params.nports) (hmax : adap.sge.max_ethqsets ≤ MAX_ETH_QSETS)
    (hfl : pi.flags < 18446744073709551616) :
    ((nb_rx < 1 ∨ nb_tx < 1 ∨ nb_rx > adap.sge.max_ethqsets / adap.params.nports ∨
        nb_tx > adap.sge.max_ethqsets / adap.params.nports ∨ nb_rx > pi.rss_size) →
      cxgbe_cfg_queue_count adap pi nb_rx nb_tx = (-EINVAL, pi)) ∧
    (¬ (nb_rx < 1 ∨ nb_tx < 1 ∨ nb_rx > adap.sge.max_ethqsets / adap.params.nports ∨
        nb_tx > adap.sge.max_ethqsets / adap.params.nports ∨ nb_rx > pi.rss_size) →
      (cxgbe_cfg_queue_count adap pi nb_rx nb_tx).1 = 0 ∧
      (cxgbe_cfg_queue_count adap pi nb_rx nb_tx).2.n_rx_qsets = nb_rx ∧
      (cxgbe_cfg_queue_count adap pi nb_rx nb_tx).2.n_tx_qsets = nb_tx ∧
      (∀ i, (cxgbe_cfg_queue_count adap pi nb_rx nb_tx).2.flags.testBit i =
        (pi.flags.testBit i && !PORT_RSS_DONE.testBit i)) ∧
      (cxgbe_cfg_queue_count adap pi nb_rx nb_tx).2.link_cfg = pi.link_cfg ∧
      (cxgbe_cfg_queue_count adap pi nb_rx nb_tx).2.rss_size = pi.rss_size ∧
      (cxgbe_cfg_queue_count adap pi nb_rx nb_tx).2.first_qset = pi.first_qset) := by
  have hmax2 : adap.sge.max_ethqsets ≤ 64 := hmax
  have hdiv : adap.sge.max_ethqsets / adap.params.nports ≤ 64 :=
    le_trans (Nat.div_le_self _ _) hmax2
  unfold cxgbe_cfg_queue_count
  simp only
  generalize adap.sge.max_ethqsets / adap.params.nports = mq at hdiv ⊢
  constructor
  · intro h
    split_ifs with h1 h2 h3
    · rfl
    · rfl
    · rfl
    · exfalso; omega
  · intro h
    have h1 : ¬ (nb_rx < 1 ∨ nb_tx < 1) := by omega
    have h2 : ¬ (nb_rx > mq ∨ nb_tx > mq) := by omega
    have h3 : ¬ (nb_rx > pi.rss_size) := by omega
    rw [if_neg h1, if_neg h2, if_neg h3]
    refine ⟨rfl, ?_, ?_, ?_, rfl, rfl, rfl⟩
    · show nb_rx % 256 = nb_rx
      omega
    · show nb_tx % 256 = nb_tx
      omega
    · intro i
      exact clear_rss_done_testBit pi.flags i hfl

theorem cfg_queue_count_validates_witness :
    0 < adapter_two_ports.params.nports ∧
    cxgbe_cfg_queue_count adapter_two_ports (port_example 4 4) 5 2 =
      (-EINVAL, port_example 4 4) ∧
    (cxgbe_cfg_queue_count adapter_two_ports (port_example 4 4) 4 8).1 = 0 ∧
    (cxgbe_cfg_queue_count adapter_two_ports (port_example 4 4) 4 8).2.n_rx_qsets = 4 ∧
    (cxgbe_cfg_queue_count adapter_two_ports (port_example 4 4) 4 8).2.n_tx_qsets = 8 := by
  have h1 := cfg_queue_count_validates adapter_two_ports (port_example 4 4) 5 2
    (by decide) (by decide) (by decide)
  have h2 := cfg_queue_count_validates adapter_two_ports (port_example 4 4) 4 8
    (by decide) (by decide) (by decide)
  have h3 := h2.2 (by decide)
  exact ⟨by decide, h1.1 (by decide), h3.1, h3.2.1, h3.2.2.1⟩

end Cxgbe
